import Mathlib

/-! Inventory ledger: the stock-in, stock-out and adjustment routes.

A shallow embedding of `src/inventory.js` (the three stock mutation routes
and the dashboard), `src/InventoryTransaction.js` (the transaction schema and
its `stockImpact` virtual), `src/models/Product.js` (the product schema and
its virtuals) and the inventory summary report of `src/reports.js`.

Conventions of the embedding.

* A JavaScript number is an exact rational (`ℚ`); there is no rounding, no
  `NaN` and no infinity.  A conversion that yields `NaN` in JavaScript yields
  `none` here.
* A request body field that the routes use arithmetically (`quantity`,
  `unitPrice`) is a `JsValue`: absent, a JSON number, or a JSON string.  The
  routes never convert these fields, so `+`, `-`, `*`, `<` and truthiness
  follow the JavaScript rules for mixed number and string operands.
* The database is a pair of collections.  A handler takes the database and
  returns the new database together with the HTTP response.
* The ODM bookkeeping fields (`createdAt`, `updatedAt`, `__v`) are not part of
  the modelled records.
-/

namespace Inventory

/-! ## JavaScript values -/

/-- A value of the routes' arithmetic: a request body field as the JSON parser
delivers it (absent, a number or a string), or the `NaN` an operation on
such fields may produce. -/
inductive JsValue where
  | undefined
  | number (x : ℚ)
  | string (s : String)
  | nan
  deriving DecidableEq, Repr

/-- The decimal digit characters of a natural number, most significant
first (`0` gives `['0']`). -/
def natDigits (n : Nat) : List Char := Nat.toDigits 10 n

/-- Drops the zeros at the end of a digit list. -/
def stripTrailingZeros (ds : List Char) : List Char :=
  (ds.reverse.dropWhile (fun c => c == '0')).reverse

/-- The least `m` in `1 .. fuel` with `b ≤ a * 10 ^ m`, searched upwards
from `m`; `fuel` bounds the search. -/
def leadingShift (a b : Nat) : Nat → Nat → Nat
  | 0, m => m
  | fuel + 1, m => if b ≤ a * 10 ^ m then m else leadingShift a b fuel (m + 1)

/-- The decimal exponent `n` of a positive rational `a / b`: the integer with
`10 ^ (n - 1) ≤ a / b < 10 ^ n`. -/
def decimalExponent (a b : Nat) : Int :=
  if b ≤ a then ((natDigits (a / b)).length : Int)
  else 1 - (leadingShift a b ((natDigits b).length + 1) 1 : Int)

/-- The first seventeen significant digits of the positive rational `x` whose
decimal exponent is `n`, as the natural number `round (x * 10 ^ (17 - n))`
(halves round up). -/
def significand17 (x : ℚ) (n : Int) : Nat :=
  (Rat.floor (x * (10 : ℚ) ^ (17 - n) + 1 / 2)).toNat

/-- The text of an exponent: a sign and the decimal digits of the magnitude. -/
def exponentText (e : Int) : List Char :=
  (if e < 0 then '-' else '+') :: natDigits e.natAbs

/-- `Number::toString` for a positive number given by its significant digits
`ds` (no trailing zeros, `k = ds.length`) and decimal exponent `n`: plain
notation when `-6 < n ≤ 21`, exponent notation otherwise. -/
def layoutDigits (ds : List Char) (n : Int) : List Char :=
  let k : Int := ds.length
  if k ≤ n ∧ n ≤ 21 then ds ++ List.replicate (n - k).toNat '0'
  else if 0 < n ∧ n ≤ 21 then ds.take n.toNat ++ '.' :: ds.drop n.toNat
  else if -6 < n ∧ n ≤ 0 then '0' :: '.' :: (List.replicate (-n).toNat '0' ++ ds)
  else match ds with
    | [] => []
    | [d] => d :: 'e' :: exponentText (n - 1)
    | d :: rest => d :: '.' :: (rest ++ 'e' :: exponentText (n - 1))

/-- `Number::toString` for a positive rational: at most seventeen significant
digits, laid out as JavaScript does. -/
def positiveToString (x : ℚ) : List Char :=
  let n := decimalExponent x.num.toNat x.den
  let s := significand17 x n
  -- rounding up may carry into an eighteenth digit
  let n := if (natDigits s).length = 18 then n + 1 else n
  layoutDigits (stripTrailingZeros (natDigits s)) n

/-- JavaScript `String(x)` for a number `x`. -/
def numberToString (x : ℚ) : String :=
  if x = 0 then "0"
  else if x < 0 then String.mk ('-' :: positiveToString (-x))
  else String.mk (positiveToString x)

/-- The value of a list of decimal digit characters, or `none` when some
character is not a digit.  The empty list has value `0`. -/
def digitsValue : List Char → Nat → Option Nat
  | [], acc => some acc
  | c :: cs, acc =>
    if c.isDigit then digitsValue cs (acc * 10 + (c.toNat - 48)) else none

/-- Splits a character list at its first character satisfying `sep`: the
characters before it and those after it. -/
def splitAt? (sep : Char → Bool) : List Char → Option (List Char × List Char)
  | [] => none
  | c :: cs =>
    if sep c then some ([], cs)
    else match splitAt? sep cs with
      | some (l, r) => some (c :: l, r)
      | none => none

/-- The decimal point. -/
def isPoint (c : Char) : Bool := c = '.'

/-- The exponent marker, `e` or `E`. -/
def isExponentMark (c : Char) : Bool := c = 'e' ∨ c = 'E'

/-- An unsigned decimal mantissa `digits`, `digits.`, `digits.digits` or
`.digits` (at least one digit overall), as a rational. -/
def mantissaValue (cs : List Char) : Option ℚ :=
  match splitAt? isPoint cs with
  | none =>
    if cs = [] then none
    else (digitsValue cs 0).map (fun n => (n : ℚ))
  | some (ip, fp) =>
    if ip = [] ∧ fp = [] then none
    else match digitsValue ip 0, digitsValue fp 0 with
      | some i, some f => some ((i : ℚ) + (f : ℚ) / (10 : ℚ) ^ fp.length)
      | _, _ => none

/-- A signed integer exponent: an optional sign and at least one digit. -/
def exponentValue (cs : List Char) : Option Int :=
  match cs with
  | [] => none
  | c :: ds =>
    if c = '+' then (if ds = [] then none else (digitsValue ds 0).map (fun n => (n : Int)))
    else if c = '-' then
      (if ds = [] then none else (digitsValue ds 0).map (fun n => -(n : Int)))
    else (digitsValue (c :: ds) 0).map (fun n => (n : Int))

/-- An unsigned decimal literal with an optional exponent part. -/
def unsignedLiteralValue (cs : List Char) : Option ℚ :=
  match splitAt? isExponentMark cs with
  | none => mantissaValue cs
  | some (m, e) =>
    match mantissaValue m, exponentValue e with
    | some v, some k => some (v * (10 : ℚ) ^ k)
    | _, _ => none

/-- JavaScript white space, as far as `StringToNumber` trims it. -/
def isJsSpace (c : Char) : Bool :=
  c = ' ' ∨ c = '\t' ∨ c = '\n' ∨ c = '\r' ∨ c.toNat = 11 ∨ c.toNat = 12 ∨ c.toNat = 160

/-- Removes leading and trailing white space. -/
def trimChars (cs : List Char) : List Char :=
  ((cs.dropWhile isJsSpace).reverse.dropWhile isJsSpace).reverse

/-- JavaScript `Number(s)` for a string: the trimmed text is empty (value
`0`) or a signed decimal literal; anything else is `NaN` (`none`).
Hexadecimal, octal and binary literals and `Infinity` are not modelled. -/
def stringToNumber (s : String) : Option ℚ :=
  match trimChars s.data with
  | [] => some 0
  | c :: cs =>
    if c = '+' then unsignedLiteralValue cs
    else if c = '-' then (unsignedLiteralValue cs).map (fun v => -v)
    else unsignedLiteralValue (c :: cs)

/-- JavaScript `ToNumber` on a body field (`none` stands for `NaN`). -/
def JsValue.toNumber : JsValue → Option ℚ
  | .undefined => none
  | .number x => some x
  | .string s => stringToNumber s
  | .nan => none

/-- A numeric result as a value (`none` is `NaN`). -/
def JsValue.ofNumber : Option ℚ → JsValue
  | some x => .number x
  | none => .nan

/-- JavaScript truthiness of a body field. -/
def JsValue.truthy : JsValue → Bool
  | .undefined => false
  | .number x => x != 0
  | .string s => s != ""
  | .nan => false

/-- JavaScript `a + b` with a number on the left: numeric addition when the
right operand is a number, string concatenation when it is a string. -/
def jsAdd (a : ℚ) : JsValue → JsValue
  | .undefined => .nan
  | .number b => .number (a + b)
  | .string s => .string (numberToString a ++ s)
  | .nan => .nan

/-- JavaScript `a * b`: both operands are converted to numbers. -/
def jsMul (a b : JsValue) : JsValue :=
  match a.toNumber, b.toNumber with
  | some x, some y => .number (x * y)
  | _, _ => .nan

/-- JavaScript `a - b`: both operands are converted to numbers. -/
def jsSub (a b : JsValue) : JsValue :=
  match a.toNumber, b.toNumber with
  | some x, some y => .number (x - y)
  | _, _ => .nan

/-- JavaScript `Math.abs(a)`. -/
def jsAbs (a : JsValue) : JsValue :=
  match a.toNumber with
  | some x => .number |x|
  | none => .nan

/-- JavaScript `a < b` with a number on the left; a comparison with `NaN`
is false. -/
def jsLt (a : ℚ) (b : JsValue) : Bool :=
  match b.toNumber with
  | some y => a < y
  | none => false

/-- The `length` of a JavaScript string: its number of UTF-16 code units. -/
def jsLength (s : String) : Nat :=
  (s.data.map (fun c => if c.toNat < 65536 then 1 else 2)).sum

/-! ## Request validation (express-validator) -/

/-- The text a validator sees for a body field: the empty string for an
absent field, `String(x)` for a number. -/
def JsValue.toText : JsValue → String
  | .undefined => ""
  | .number x => numberToString x
  | .string s => s
  | .nan => ""

/-- Removes one leading sign character, if there is one. -/
def stripSign : List Char → List Char
  | [] => []
  | c :: r => if c = '+' ∨ c = '-' then r else c :: r

/-- The unsigned part of the `isNumeric` pattern, `([0-9]*[.])?[0-9]+`. -/
def isUnsignedNumeric (cs : List Char) : Bool :=
  match splitAt? isPoint cs with
  | none => !cs.isEmpty && cs.all Char.isDigit
  | some (ip, fp) => ip.all Char.isDigit && !fp.isEmpty && fp.all Char.isDigit

/-- The validator `isNumeric`: the text matches
`^[+-]?([0-9]*[.])?[0-9]+$`. -/
def isNumeric (s : String) : Bool := isUnsignedNumeric (stripSign s.data)

/-- The validator `notEmpty` on a text field. -/
def notEmpty (s : String) : Bool := s.length != 0

/-- A warehouse location as the forms submit it. -/
structure Location where
  warehouse : Option String
  aisle : Option String
  shelf : Option String
  bin : Option String
  deriving DecidableEq, Repr

/-- The body of a stock-in, stock-out or adjustment request.  An absent
`product` or `reason` is the empty string: the validators see the same text
for both. -/
structure Body where
  product : String
  quantity : JsValue
  unitPrice : JsValue := .undefined
  reference : Option String := none
  referenceNumber : Option String := none
  location : Option Location := none
  reason : String
  notes : Option String := none
  deriving DecidableEq, Repr

/-- The messages of the checks of `validateStockFields` that fail, in order. -/
def validateStockFields (body : Body) : List String :=
  (if notEmpty body.product then [] else ["Product is required"]) ++
  (if isNumeric body.quantity.toText then [] else ["Quantity must be a number"]) ++
  (if body.unitPrice = .undefined ∨ isNumeric body.unitPrice.toText then []
    else ["Unit price must be a number"]) ++
  (if notEmpty body.reason then [] else ["Reason is required"])

/-- The messages of the checks of the adjustment route that fail, in order. -/
def validateAdjustmentFields (body : Body) : List String :=
  (if notEmpty body.product then [] else ["Product is required"]) ++
  (if isNumeric body.quantity.toText then [] else ["Quantity must be a number"]) ++
  (if notEmpty body.reason then [] else ["Reason is required"])

/-! ## The collections -/

/-- A stored product (`src/models/Product.js`). -/
structure Product where
  _id : String
  name : String
  sku : String
  barcode : Option String := none
  description : Option String := none
  category : String
  supplier : Option String := none
  unit : String
  costPrice : ℚ
  sellingPrice : ℚ
  minStockLevel : ℚ := 10
  maxStockLevel : Option ℚ := none
  currentStock : ℚ := 0
  isActive : Bool := true
  tags : List String := []
  notes : Option String := none
  deriving DecidableEq, Repr

/-- The `type` enumeration of a transaction. -/
inductive TransactionType where
  | «in» | out | adjustment | transfer | «return» | damage | expiry
  deriving DecidableEq, Repr

/-- The `status` enumeration of a transaction. -/
inductive TransactionStatus where
  | pending | approved | rejected | completed
  deriving DecidableEq, Repr

/-- A stored transaction (`src/InventoryTransaction.js`); `_id` is its
position in the log. -/
structure InventoryTransaction where
  _id : Nat
  product : String
  type : TransactionType
  quantity : ℚ
  previousStock : ℚ
  newStock : ℚ
  unitPrice : Option ℚ
  totalValue : Option ℚ
  reference : Option String
  referenceNumber : Option String
  locationFrom : Option Location
  locationTo : Option Location
  reason : String
  notes : Option String
  performedBy : String
  approvedBy : Option String
  status : TransactionStatus
  transactionDate : Nat
  deriving DecidableEq, Repr

/-- The virtual `stockImpact` of a transaction. -/
def InventoryTransaction.stockImpact (t : InventoryTransaction) : ℚ :=
  if t.type = .«in» ∨ t.type = .«return» then t.quantity
  else if t.type ∈ [TransactionType.out, .damage, .expiry] then -t.quantity
  else 0

/-- The database: the product collection and the transaction log, oldest
entry first. -/
structure Db where
  products : List Product
  transactions : List InventoryTransaction
  deriving DecidableEq, Repr

/-! ## Schema casts and document validation (the ODM) -/

/-- The outcome of casting a value to the schema type `Number`. -/
inductive NumberCast where
  | castError
  | null
  | value (x : ℚ)
  deriving DecidableEq, Repr

/-- The ODM's cast to `Number`: an absent value and the empty string give
`null`, a string is converted with `Number(s)`, and `NaN` is a cast error. -/
def castNumber : JsValue → NumberCast
  | .undefined => .null
  | .number x => .value x
  | .string s =>
    if s = "" then .null
    else match stringToNumber s with
      | some x => .value x
      | none => .castError
  | .nan => .castError

/-- A text that casts to an object id: twenty-four hexadecimal digits, in
either case. -/
def isObjectId (s : String) : Bool :=
  s.data.length = 24 ∧
    s.data.all (fun c => c.isDigit || ('a' ≤ c ∧ c ≤ 'f') || ('A' ≤ c ∧ c ≤ 'F'))

/-- The object id a text casts to, as its canonical text: the hexadecimal
digits in lower case.  Stored identifiers are canonical texts. -/
def objectIdText (s : String) : String := String.mk (s.data.map Char.toLower)

/-- The schema option `trim: true` on a text field. -/
def trimText (s : Option String) : Option String :=
  s.map (fun t => String.mk (trimChars t.data))

/-- The argument of `new InventoryTransaction({...})` as a route builds it,
before any cast. -/
structure TransactionFields where
  product : String
  type : TransactionType
  quantity : JsValue
  previousStock : ℚ
  newStock : JsValue
  unitPrice : JsValue := .undefined
  totalValue : JsValue := .undefined
  reference : Option String := none
  referenceNumber : Option String := none
  locationFrom : Option Location := none
  locationTo : Option Location := none
  reason : String
  notes : Option String := none
  performedBy : String
  status : TransactionStatus
  deriving DecidableEq, Repr

/-- A cast optional number that respects the schema minimum `0`: `none` when
the cast fails or the value is negative. -/
def castOptionalMin0 (v : JsValue) : Option (Option ℚ) :=
  match castNumber v with
  | .castError => none
  | .null => some none
  | .value x => if x < 0 then none else some (some x)

/-- The document a route is about to save, cast and validated against the
transaction schema; `none` when validation fails.  `_id` and the default
`transactionDate` are filled in. -/
def InventoryTransaction.validate (_id now : Nat) (f : TransactionFields) :
    Option InventoryTransaction :=
  match castNumber f.quantity, castNumber f.newStock,
      castOptionalMin0 f.unitPrice, castOptionalMin0 f.totalValue with
  | .value quantity, .value newStock, some unitPrice, some totalValue =>
    if isObjectId f.product ∧ 0 ≤ quantity ∧
        f.reason ≠ "" ∧ jsLength f.reason ≤ 200 ∧
        (f.notes.map jsLength).getD 0 ≤ 500 ∧ isObjectId f.performedBy then
      some { _id := _id, product := objectIdText f.product, type := f.type,
             quantity := quantity,
             previousStock := f.previousStock, newStock := newStock,
             unitPrice := unitPrice, totalValue := totalValue,
             reference := trimText f.reference,
             referenceNumber := trimText f.referenceNumber,
             locationFrom := f.locationFrom, locationTo := f.locationTo,
             reason := f.reason, notes := f.notes,
             performedBy := objectIdText f.performedBy,
             approvedBy := none, status := f.status, transactionDate := now }
    else none
  | _, _, _, _ => none

/-- The call `transaction.save()`: the validated document is appended to the
log; `none` when the save rejects. -/
def InventoryTransaction.save (db : Db) (now : Nat) (f : TransactionFields) :
    Option (Db × InventoryTransaction) :=
  match InventoryTransaction.validate db.transactions.length now f with
  | none => none
  | some t => some ({ db with transactions := db.transactions ++ [t] }, t)

/-- The outcome of `Product.findById`. -/
inductive Lookup where
  | castError
  | missing
  | found (p : Product)
  deriving DecidableEq, Repr

/-- The call `Product.findById(id)`. -/
def Product.findById (db : Db) (id : String) : Lookup :=
  if isObjectId id then
    match db.products.find? (fun p => p._id = objectIdText id) with
    | some p => .found p
    | none => .missing
  else .castError

/-- Writes the stock `v` to the first stored product with identifier `id`. -/
def setCurrentStock (id : String) (v : ℚ) : List Product → List Product
  | [] => []
  | p :: ps =>
    if p._id = id then { p with currentStock := v } :: ps
    else p :: setCurrentStock id v ps

/-- The assignment `currentProduct.currentStock = newStock` followed by
`currentProduct.save()`: the value is cast to a number and checked against
the schema minimum `0`; `none` when the save rejects. -/
def Product.saveCurrentStock (db : Db) (currentProduct : Product) (newStock : JsValue) :
    Option Db :=
  match castNumber newStock with
  | .value v =>
    if v < 0 then none
    else some { db with products := setCurrentStock currentProduct._id v db.products }
  | _ => none

/-! ## The routes -/

/-- The response of a stock route. -/
inductive Response where
  /-- Status 200 with the saved transaction. -/
  | ok (transaction : InventoryTransaction)
  /-- Status 400 with the validator messages. -/
  | validationErrors (errors : List String)
  /-- Status 404, `Product not found`. -/
  | notFound
  /-- Status 400, `Insufficient stock`. -/
  | insufficientStock
  /-- Status 500, `Server error`. -/
  | serverError
  deriving DecidableEq, Repr

/-- The route `POST /stock-in`, handled at time `now` for the authenticated
user `user`. -/
def stockIn (now : Nat) (user : String) (body : Body) (db : Db) : Db × Response :=
  if validateStockFields body ≠ [] then (db, .validationErrors (validateStockFields body))
  else
    match Product.findById db body.product with
    | .castError => (db, .serverError)
    | .missing => (db, .notFound)
    | .found currentProduct =>
      let previousStock := currentProduct.currentStock
      let newStock := jsAdd previousStock body.quantity
      let totalValue :=
        if body.unitPrice.truthy then jsMul body.quantity body.unitPrice else .number 0
      match InventoryTransaction.save db now
          { product := body.product, type := .«in», quantity := body.quantity,
            previousStock := previousStock, newStock := newStock,
            unitPrice := body.unitPrice, totalValue := totalValue,
            reference := body.reference, referenceNumber := body.referenceNumber,
            locationTo := body.location, reason := body.reason, notes := body.notes,
            performedBy := user, status := .completed } with
      | none => (db, .serverError)
      | some (db1, transaction) =>
        match Product.saveCurrentStock db1 currentProduct newStock with
        | none => (db1, .serverError)
        | some db2 => (db2, .ok transaction)

/-- The route `POST /stock-out`. -/
def stockOut (now : Nat) (user : String) (body : Body) (db : Db) : Db × Response :=
  if validateStockFields body ≠ [] then (db, .validationErrors (validateStockFields body))
  else
    match Product.findById db body.product with
    | .castError => (db, .serverError)
    | .missing => (db, .notFound)
    | .found currentProduct =>
      if jsLt currentProduct.currentStock body.quantity then (db, .insufficientStock)
      else
        let previousStock := currentProduct.currentStock
        let newStock := jsSub (.number previousStock) body.quantity
        let totalValue :=
          if body.unitPrice.truthy then jsMul body.quantity body.unitPrice else .number 0
        match InventoryTransaction.save db now
            { product := body.product, type := .out, quantity := body.quantity,
              previousStock := previousStock, newStock := newStock,
              unitPrice := body.unitPrice, totalValue := totalValue,
              reference := body.reference, referenceNumber := body.referenceNumber,
              locationFrom := body.location, reason := body.reason, notes := body.notes,
              performedBy := user, status := .completed } with
        | none => (db, .serverError)
        | some (db1, transaction) =>
          match Product.saveCurrentStock db1 currentProduct newStock with
          | none => (db1, .serverError)
          | some db2 => (db2, .ok transaction)

/-- The route `POST /adjustment`. -/
def adjustment (now : Nat) (user : String) (body : Body) (db : Db) : Db × Response :=
  if validateAdjustmentFields body ≠ []
  then (db, .validationErrors (validateAdjustmentFields body))
  else
    match Product.findById db body.product with
    | .castError => (db, .serverError)
    | .missing => (db, .notFound)
    | .found currentProduct =>
      let previousStock := currentProduct.currentStock
      let newStock := body.quantity
      let stockDifference := jsSub newStock (.number previousStock)
      match InventoryTransaction.save db now
          { product := body.product, type := .adjustment,
            quantity := jsAbs stockDifference,
            previousStock := previousStock, newStock := newStock,
            reason := body.reason, notes := body.notes,
            performedBy := user, status := .completed } with
      | none => (db, .serverError)
      | some (db1, transaction) =>
        match Product.saveCurrentStock db1 currentProduct newStock with
        | none => (db1, .serverError)
        | some db2 => (db2, .ok transaction)

/-! ## Sequences of requests and derived notions -/

/-- The three stock routes. -/
inductive Route where
  | stockIn | stockOut | adjustment
  deriving DecidableEq, Repr

/-- A request to a stock route: the route, the time it is handled, the
authenticated user and the body. -/
structure Request where
  route : Route
  now : Nat
  user : String
  body : Body
  deriving DecidableEq, Repr

/-- Dispatches a request to its route. -/
def handle (r : Request) (db : Db) : Db × Response :=
  match r.route with
  | .stockIn => stockIn r.now r.user r.body db
  | .stockOut => stockOut r.now r.user r.body db
  | .adjustment => adjustment r.now r.user r.body db

/-- Handles the requests one after another, each on the database the previous
one left. -/
def run : List Request → Db → Db
  | [], db => db
  | r :: rs, db => run rs (handle r db).1

/-- The steps the three routes share once the transaction fields are built:
`transaction.save()`, then the stock assignment and `currentProduct.save()`,
then the response. -/
def saveBoth (db : Db) (now : Nat) (f : TransactionFields) (currentProduct : Product)
    (newStock : JsValue) : Db × Response :=
  match InventoryTransaction.save db now f with
  | none => (db, .serverError)
  | some (db1, transaction) =>
    match Product.saveCurrentStock db1 currentProduct newStock with
    | none => (db1, .serverError)
    | some db2 => (db2, .ok transaction)

/-- The characters an `isNumeric` text is made of. -/
def NumericChar (c : Char) : Prop := c.isDigit = true ∨ c = '.' ∨ c = '+' ∨ c = '-'

/-- The fields of a request, other than the quantity, are acceptable to the
transaction schema: a unit price that is absent or a non-negative number, a
reason of at most 200 and notes of at most 500 characters, and a user
identifier that is an object id. -/
def SideFieldsValid (user : String) (body : Body) : Prop :=
  (∃ u, castOptionalMin0 body.unitPrice = some u) ∧ jsLength body.reason ≤ 200 ∧
    (body.notes.map jsLength).getD 0 ≤ 500 ∧ isObjectId user = true

/-- The log entries of the product `id`. -/
def transactionsOf (id : String) (log : List InventoryTransaction) :
    List InventoryTransaction :=
  log.filter (fun t => t.product = objectIdText id)

/-- The sum of `stockImpact` over the log entries of the product `id`, taken
in `transactionDate` order. -/
def impactSum (id : String) (log : List InventoryTransaction) : ℚ :=
  (((transactionsOf id log).insertionSort
    (fun a b => a.transactionDate ≤ b.transactionDate)).map
      InventoryTransaction.stockImpact).sum

/-- A request whose effect on the balance is the signed quantity it records:
a stock-out, or a stock-in whose quantity is a JSON number. -/
def Request.isSignedMovement (r : Request) : Prop :=
  r.route = .stockOut ∨ (r.route = .stockIn ∧ ∃ x, r.body.quantity = .number x)

/-- The transaction a successful response carries. -/
def Response.transaction? : Response → Option InventoryTransaction
  | .ok t => some t
  | _ => none

/-! ## Sample data -/

/-- The identifier of the sample product. -/
def sampleProductId : String := "64b7f0c2a1d3e4f5a6b7c8d9"

/-- The identifier of the sample user. -/
def sampleUserId : String := "64b7f0c2a1d3e4f5a6b7c8e0"

/-- A product with ten pieces in stock and a minimum level of five. -/
def sampleProduct : Product :=
  { _id := sampleProductId, name := "Widget", sku := "WID-001",
    category := "64b7f0c2a1d3e4f5a6b7c8aa", unit := "piece",
    costPrice := 2, sellingPrice := 3, minStockLevel := 5, currentStock := 10 }

/-- A database holding the sample product and an empty log. -/
def sampleDb : Db := { products := [sampleProduct], transactions := [] }

/-- A database holding the sample product as just created, with no stock,
and an empty log. -/
def freshDb : Db :=
  { products := [{ sampleProduct with currentStock := 0 }], transactions := [] }

/-- A request on the sample product by the sample user, handled at time
`now`, with the reason `count`. -/
def sampleRequest (route : Route) (now : Nat) (quantity : JsValue) : Request :=
  { route := route, now := now, user := sampleUserId,
    body := { product := sampleProductId, quantity := quantity, reason := "count" } }

/-- What the replay of the log is compared with: the product `id` is in the
store, its stock is not negative, and the sum of `stockImpact` over its log
entries is its stock. -/
def Conserved (id : String) (db : Db) : Prop :=
  ∃ p, Product.findById db id = .found p ∧ 0 ≤ p.currentStock ∧
    impactSum id db.transactions = p.currentStock

/-! ## Derived product values (`src/models/Product.js`) -/

/-- The integer nearest to a number that is not negative; of two equally
near integers the larger. -/
def roundHalfUp (y : ℚ) : Nat := (Rat.floor (y + 1 / 2)).toNat

/-- The digits of `n` with a decimal point before the last `f` of them, padded
with leading zeros to at least `f + 1` digits: steps 8 of
`Number.prototype.toFixed`. -/
def fixedDigits (n f : Nat) : List Char :=
  let m := natDigits n
  if f = 0 then m
  else
    let m := List.replicate (f + 1 - m.length) '0' ++ m
    m.take (m.length - f) ++ '.' :: m.drop (m.length - f)

/-- JavaScript `x.toFixed(f)`: the sign of `x`, then `String` of the
magnitude when it is at least `10 ^ 21`, and otherwise the magnitude rounded
to `f` decimals and written in plain notation. -/
def toFixed (x : ℚ) (f : Nat) : String :=
  let sign : List Char := if x < 0 then ['-'] else []
  if (10 : ℚ) ^ 21 ≤ |x| then String.mk (sign ++ (numberToString |x|).data)
  else String.mk (sign ++ fixedDigits (roundHalfUp (|x| * (10 : ℚ) ^ f)) f)

/-- The virtual `profitMargin`: the margin in percent as a text with two
decimals when the cost price is positive, and the number `0` otherwise. -/
def Product.profitMargin (p : Product) : JsValue :=
  if p.costPrice > 0 then
    .string (toFixed ((p.sellingPrice - p.costPrice) / p.costPrice * 100) 2)
  else .number 0

/-- The values of the virtual `stockStatus`. -/
inductive StockStatus where
  | low | normal | high
  deriving DecidableEq, Repr

/-- JavaScript truthiness of an optional number field: absent and `0` are
falsy. -/
def numberTruthy : Option ℚ → Bool
  | none => false
  | some x => x != 0

/-- JavaScript `a >= b` of a number with an optional number field; a
comparison with an absent field is false. -/
def geOptional (a : ℚ) : Option ℚ → Bool
  | none => false
  | some b => b ≤ a

/-- The virtual `stockStatus`. -/
def Product.stockStatus (p : Product) : StockStatus :=
  if p.currentStock ≤ p.minStockLevel then .low
  else if numberTruthy p.maxStockLevel && geOptional p.currentStock p.maxStockLevel then .high
  else .normal

/-! ## The inventory summary report and the dashboard -/

/-- An entry of a breakdown of the summary report. -/
structure Breakdown where
  count : Nat
  value : ℚ
  deriving DecidableEq, Repr

/-- Adds one product of value `value` under `key`: the entry is created with
zero count and value when the key is new, then incremented.  Keys keep their
insertion order. -/
def Breakdown.add (key : String) (value : ℚ) :
    List (String × Breakdown) → List (String × Breakdown)
  | [] => [(key, { count := 1, value := 0 + value })]
  | (k, b) :: rest =>
    if k = key then (k, { count := b.count + 1, value := b.value + value }) :: rest
    else (k, b) :: Breakdown.add key value rest

/-- The `summary` object of the inventory summary report while the products
are visited; `totalValue` is still a number. -/
structure SummaryState where
  totalProducts : Nat
  totalValue : ℚ
  lowStockCount : Nat
  outOfStockCount : Nat
  categoryBreakdown : List (String × Breakdown)
  supplierBreakdown : List (String × Breakdown)
  deriving DecidableEq, Repr

/-- The body of `products.forEach` in the inventory summary report.  A
product without a category has the empty text as its category. -/
def summaryStep (summary : SummaryState) (product : Product) : SummaryState :=
  let value := product.currentStock * product.costPrice
  let summary := { summary with totalValue := summary.totalValue + value }
  let summary :=
    if product.currentStock ≤ product.minStockLevel then
      { summary with lowStockCount := summary.lowStockCount + 1 }
    else summary
  let summary :=
    if product.currentStock = 0 then
      { summary with outOfStockCount := summary.outOfStockCount + 1 }
    else summary
  let summary :=
    if product.category ≠ "" then
      { summary with
        categoryBreakdown := Breakdown.add product.category value summary.categoryBreakdown }
    else summary
  match product.supplier with
  | some supplierId =>
    { summary with
      supplierBreakdown := Breakdown.add supplierId value summary.supplierBreakdown }
  | none => summary

/-- The response of the inventory summary report. -/
structure InventorySummary where
  totalProducts : Nat
  totalValue : String
  lowStockCount : Nat
  outOfStockCount : Nat
  categoryBreakdown : List (String × Breakdown)
  supplierBreakdown : List (String × Breakdown)
  deriving DecidableEq, Repr

/-- The query `Product.find({ isActive: true })`. -/
def Product.findActive (db : Db) : List Product :=
  db.products.filter (fun p => p.isActive)

/-- The route `GET /inventory-summary` of `src/reports.js`. -/
def inventorySummary (db : Db) : InventorySummary :=
  let products := Product.findActive db
  let summary := products.foldl summaryStep
    { totalProducts := products.length, totalValue := 0, lowStockCount := 0,
      outOfStockCount := 0, categoryBreakdown := [], supplierBreakdown := [] }
  { totalProducts := summary.totalProducts,
    totalValue := toFixed summary.totalValue 2,
    lowStockCount := summary.lowStockCount,
    outOfStockCount := summary.outOfStockCount,
    categoryBreakdown := summary.categoryBreakdown,
    supplierBreakdown := summary.supplierBreakdown }

/-- The response of the dashboard route; the transactions are listed
without the populated product and user fields. -/
structure Dashboard where
  totalProducts : Nat
  lowStockCount : Nat
  outOfStockCount : Nat
  totalValue : String
  recentTransactions : List InventoryTransaction
  deriving DecidableEq, Repr

/-- The route `GET /dashboard` of `src/inventory.js`.  Transactions with the
same date are listed in log order. -/
def dashboard (db : Db) : Dashboard :=
  let totalProducts := db.products.countP (fun p => p.isActive)
  let lowStockCount :=
    db.products.countP (fun p => decide (p.currentStock ≤ p.minStockLevel) && p.isActive)
  let outOfStockCount :=
    db.products.countP (fun p => decide (p.currentStock = 0) && p.isActive)
  let recentTransactions :=
    (db.transactions.insertionSort
      (fun a b => b.transactionDate ≤ a.transactionDate)).take 10
  let products := Product.findActive db
  let totalValue :=
    products.foldl (fun sum product => sum + product.currentStock * product.costPrice) 0
  { totalProducts := totalProducts, lowStockCount := lowStockCount,
    outOfStockCount := outOfStockCount, totalValue := toFixed totalValue 2,
    recentTransactions := recentTransactions }

/-! ## More sample data -/

/-- The sample product after a soft delete. -/
def inactiveProduct : Product := { sampleProduct with isActive := false }

/-- A database holding only the soft-deleted sample product. -/
def inactiveDb : Db := { products := [inactiveProduct], transactions := [] }

/-- A database without products and without log entries. -/
def emptyDb : Db := { products := [], transactions := [] }

/-- The database obtained by making every product active. -/
def activateAll (db : Db) : Db :=
  { db with products := db.products.map (fun p => { p with isActive := true }) }

/-- A stock-in of five pieces by the sample user for the identifier of the
sample user, which is no product of the sample database. -/
def missingProductRequest : Request :=
  { route := .stockIn, now := 1, user := sampleUserId,
    body := { product := sampleUserId, quantity := .number 5, reason := "count" } }

/-- A stock-in of five pieces at a unit price of `2.50` on the sample
product. -/
def pricedStockIn : Request :=
  { route := .stockIn, now := 1, user := sampleUserId,
    body := { product := sampleProductId, quantity := .number 5,
              unitPrice := .number (5 / 2), reason := "purchase" } }

/-- The messages of the request validators of the route of a request. -/
def Request.validationErrors (r : Request) : List String :=
  match r.route with
  | .stockIn => validateStockFields r.body
  | .stockOut => validateStockFields r.body
  | .adjustment => validateAdjustmentFields r.body

/-! ## The stock alerts and the overstock report -/

/-- The aggregation comparison `$gte` of a number with a field that may be
missing or null: in the comparison order of the database every number is
greater than a missing or null value. -/
def mongoGte (a : ℚ) : Option ℚ → Bool
  | none => true
  | some b => b ≤ a

/-- The response of the stock alerts route; the products are listed without
the populated category and supplier fields. -/
structure StockAlerts where
  lowStock : List Product
  overStock : List Product
  deriving DecidableEq, Repr

/-- The route `GET /stock-alerts` of `src/inventory.js`. -/
def stockAlerts (db : Db) : StockAlerts :=
  let lowStockProducts :=
    db.products.filter (fun p => decide (p.currentStock ≤ p.minStockLevel) && p.isActive)
  let overStockProducts :=
    db.products.filter (fun p => mongoGte p.currentStock p.maxStockLevel && p.isActive)
  { lowStock := lowStockProducts, overStock := overStockProducts }

/-- A row of the overstock report, without the names taken from the category
and supplier collections. -/
structure OverstockRow where
  id : String
  name : String
  sku : String
  barcode : Option String
  currentStock : ℚ
  maxStockLevel : Option ℚ
  costPrice : ℚ
  sellingPrice : ℚ
  stockValue : String
  deriving DecidableEq, Repr

/-- The route `GET /overstock-report` of `src/reports.js`. -/
def overstockReport (db : Db) : List OverstockRow :=
  let overStockProducts :=
    db.products.filter (fun p => mongoGte p.currentStock p.maxStockLevel && p.isActive)
  overStockProducts.map (fun product =>
    { id := product._id, name := product.name, sku := product.sku,
      barcode := product.barcode, currentStock := product.currentStock,
      maxStockLevel := product.maxStockLevel, costPrice := product.costPrice,
      sellingPrice := product.sellingPrice,
      stockValue := toFixed (product.currentStock * product.costPrice) 2 })

/-! ## The stock badges of the client -/

/-- A numeric field of a product as the client receives it in JSON. -/
inductive JsonNumber where
  | undefined
  | null
  | number (x : ℚ)
  deriving DecidableEq, Repr

/-- The product fields the badges read. -/
structure ProductJson where
  currentStock : JsonNumber
  minStockLevel : JsonNumber
  maxStockLevel : JsonNumber
  deriving DecidableEq, Repr

/-- The fields of a stored product as serialised for the client; a maximum
level that is not set is left out. -/
def Product.toJson (p : Product) : ProductJson :=
  { currentStock := .number p.currentStock,
    minStockLevel := .number p.minStockLevel,
    maxStockLevel := match p.maxStockLevel with
      | some m => .number m
      | none => .undefined }

/-- A number or positive infinity. -/
inductive Extended where
  | finite (x : ℚ)
  | infinity
  deriving DecidableEq, Repr

/-- JavaScript `a ?? b` with a numeric default. -/
def JsonNumber.orElse (a : JsonNumber) (b : Extended) : Extended :=
  match a with
  | .undefined => b
  | .null => b
  | .number x => .finite x

/-- The order `a ≤ b` on numbers extended by positive infinity. -/
def Extended.le : Extended → Extended → Bool
  | .finite x, .finite y => x ≤ y
  | .finite _, .infinity => true
  | .infinity, .finite _ => false
  | .infinity, .infinity => true

/-- JavaScript `ToNumber` on a JSON field: `undefined` gives `NaN` (`none`)
and `null` gives `0`. -/
def JsonNumber.toNumber : JsonNumber → Option ℚ
  | .undefined => none
  | .null => some 0
  | .number x => some x

/-- JavaScript `a <= b` on JSON fields; a comparison with `NaN` is false. -/
def jsonLe (a b : JsonNumber) : Bool :=
  match a.toNumber, b.toNumber with
  | some x, some y => x ≤ y
  | _, _ => false

/-- The badges of the client. -/
inductive Badge where
  | lowStock | overStock | normal
  deriving DecidableEq, Repr

/-- The function `getStockStatusBadge` of the product list
(`Products.js`). -/
def listBadge (product : ProductJson) : Badge :=
  if Extended.le (product.currentStock.orElse (.finite 0))
      (product.minStockLevel.orElse (.finite 0)) then .lowStock
  else if Extended.le (product.maxStockLevel.orElse .infinity)
      (product.currentStock.orElse (.finite 0)) then .overStock
  else .normal

/-- The function `getStockStatusBadge` of the product detail modal
(`ProductDetailModal.js`). -/
def detailBadge (product : ProductJson) : Badge :=
  if jsonLe product.currentStock product.minStockLevel then .lowStock
  else if jsonLe product.maxStockLevel product.currentStock then .overStock
  else .normal

/-- The badge that names a server stock status. -/
def StockStatus.badge : StockStatus → Badge
  | .low => .lowStock
  | .high => .overStock
  | .normal => .normal

/-! ## The transaction list (`GET /transactions`) -/

/-- The text of a transaction type. -/
def TransactionType.text : TransactionType → String
  | .«in» => "in"
  | .out => "out"
  | .adjustment => "adjustment"
  | .transfer => "transfer"
  | .«return» => "return"
  | .damage => "damage"
  | .expiry => "expiry"

/-- The text of a transaction status. -/
def TransactionStatus.text : TransactionStatus → String
  | .pending => "pending"
  | .approved => "approved"
  | .rejected => "rejected"
  | .completed => "completed"

/-- The query of the transaction list after `parseInt` of `page` and
`limit`, for the results of `parseInt` that are natural numbers; the dates
are the instants `new Date(startDate)` and `new Date(endDate)`.  JavaScript truthiness decides which filters apply, so
an empty text is no filter. -/
structure TransactionQuery where
  page : Nat := 1
  limit : Nat := 20
  product : Option String := none
  type : Option String := none
  startDate : Option Nat := none
  endDate : Option Nat := none
  sortBy : String := "transactionDate"
  sortOrder : String := "desc"
  deriving DecidableEq, Repr

/-- A value a transaction list can be sorted by, in the comparison order of
the database: a missing value, then numbers, then texts. -/
inductive SortValue where
  | missing
  | number (x : ℚ)
  | text (s : String)
  deriving DecidableEq, Repr

/-- The comparison order `a ≤ b` of sort values. -/
def SortValue.le : SortValue → SortValue → Bool
  | .missing, _ => true
  | .number _, .missing => false
  | .number x, .number y => x ≤ y
  | .number _, .text _ => true
  | .text _, .missing => false
  | .text _, .number _ => false
  | .text s, .text t => decide (s.data ≤ t.data)

/-- An optional number as a sort value. -/
def SortValue.ofNumber : Option ℚ → SortValue
  | some x => .number x
  | none => .missing

/-- An optional text as a sort value. -/
def SortValue.ofText : Option String → SortValue
  | some s => .text s
  | none => .missing

/-- The value of the field named `sortBy` of a transaction; a name that is
no field of the modelled record gives a missing value. -/
def sortValue (sortBy : String) (t : InventoryTransaction) : SortValue :=
  if sortBy = "transactionDate" then .number t.transactionDate
  else if sortBy = "_id" then .number t._id
  else if sortBy = "quantity" then .number t.quantity
  else if sortBy = "previousStock" then .number t.previousStock
  else if sortBy = "newStock" then .number t.newStock
  else if sortBy = "unitPrice" then .ofNumber t.unitPrice
  else if sortBy = "totalValue" then .ofNumber t.totalValue
  else if sortBy = "product" then .text t.product
  else if sortBy = "type" then .text t.type.text
  else if sortBy = "status" then .text t.status.text
  else if sortBy = "reason" then .text t.reason
  else if sortBy = "notes" then .ofText t.notes
  else if sortBy = "reference" then .ofText t.reference
  else if sortBy = "referenceNumber" then .ofText t.referenceNumber
  else if sortBy = "performedBy" then .text t.performedBy
  else if sortBy = "approvedBy" then .ofText t.approvedBy
  else .missing

/-- The filter `query` of the transaction list applied to a transaction. -/
def TransactionQuery.matches (q : TransactionQuery) (t : InventoryTransaction) : Bool :=
  (match q.product with
    | some id => id = "" || t.product = objectIdText id
    | none => true) &&
  (match q.type with
    | some ty => ty = "" || t.type.text = ty
    | none => true) &&
  (match q.startDate with
    | some d => d ≤ t.transactionDate
    | none => true) &&
  (match q.endDate with
    | some d => t.transactionDate ≤ d
    | none => true)

/-- The filtered and sorted result of the transaction list, before paging:
descending for the sort order `desc`, ascending otherwise; transactions with
equal sort values stay in log order. -/
def TransactionQuery.result (q : TransactionQuery) (db : Db) : List InventoryTransaction :=
  let found := db.transactions.filter q.matches
  if q.sortOrder = "desc" then
    found.insertionSort
      (fun a b => SortValue.le (sortValue q.sortBy b) (sortValue q.sortBy a))
  else
    found.insertionSort
      (fun a b => SortValue.le (sortValue q.sortBy a) (sortValue q.sortBy b))

/-- The body of a successful transaction list response; `totalPages` is
absent when `Math.ceil(count / limit)` is not a finite number. -/
structure TransactionPage where
  transactions : List InventoryTransaction
  totalPages : Option Nat
  currentPage : Nat
  totalTransactions : Nat
  deriving DecidableEq, Repr

/-- The route `GET /transactions`; `none` is the server error.  A product
filter that is no object id and a negative `skip` make the query throw; a
`limit` of `0` is no limit. -/
def listTransactions (q : TransactionQuery) (db : Db) : Option TransactionPage :=
  let badProduct : Bool := match q.product with
    | some id => id ≠ "" && !isObjectId id
    | none => false
  if badProduct then none
  else if q.page = 0 ∧ 0 < q.limit then none
  else
    let skip := (q.page - 1) * q.limit
    let sorted := q.result db
    let transactions :=
      if q.limit = 0 then sorted.drop skip else (sorted.drop skip).take q.limit
    let count := (db.transactions.filter q.matches).length
    some { transactions := transactions,
           totalPages :=
             if q.limit = 0 then none
             else some ⌈(count : ℚ) / (q.limit : ℚ)⌉.toNat,
           currentPage := q.page,
           totalTransactions := count }

/-! ## The transaction summary report -/

/-- An entry of a breakdown of the transaction summary. -/
structure Tally where
  count : Nat
  quantity : ℚ
  value : ℚ
  deriving DecidableEq, Repr

/-- Adds one transaction under `key`: the entry is created with zero count,
quantity and value when the key is new, then incremented.  Keys keep their
insertion order. -/
def Tally.add {κ : Type} [DecidableEq κ] (key : κ) (quantity value : ℚ) :
    List (κ × Tally) → List (κ × Tally)
  | [] => [(key, { count := 1, quantity := 0 + quantity, value := 0 + value })]
  | (k, b) :: rest =>
    if k = key then
      (k, { count := b.count + 1, quantity := b.quantity + quantity,
            value := b.value + value }) :: rest
    else (k, b) :: Tally.add key quantity value rest

/-- The sum of the counts of a breakdown of the transaction summary. -/
def Tally.total {κ : Type} (l : List (κ × Tally)) : Nat :=
  (l.map (fun e => e.2.count)).sum

/-- The quantity recorded under `key`, and `0` when the key does not
occur. -/
def Tally.quantityOf {κ : Type} [DecidableEq κ] (key : κ) (l : List (κ × Tally)) : ℚ :=
  match l.find? (fun e => e.1 = key) with
  | some e => e.2.quantity
  | none => 0

/-- JavaScript `transaction.totalValue || 0`. -/
def valueOrZero : Option ℚ → ℚ
  | some v => v
  | none => 0

/-- The number of milliseconds of a day. -/
def millisPerDay : Nat := 86400000

/-- The calendar day (in universal time) of an instant, which
`toISOString().split('T')[0]` writes as a text; the day is represented by its
number. -/
def isoDay (date : Nat) : Nat := date / millisPerDay

/-- The `summary` object of the transaction summary report while the
transactions are visited; `totalValue` is still a number. -/
structure TransactionSummaryState where
  totalTransactions : Nat
  totalIn : ℚ
  totalOut : ℚ
  totalValue : ℚ
  typeBreakdown : List (TransactionType × Tally)
  dailyBreakdown : List (Nat × Tally)
  deriving DecidableEq, Repr

/-- The body of `transactions.forEach` in the transaction summary report. -/
def transactionSummaryStep (summary : TransactionSummaryState)
    (transaction : InventoryTransaction) : TransactionSummaryState :=
  let summary :=
    if transaction.type = .«in» then
      { summary with totalIn := summary.totalIn + transaction.quantity }
    else if transaction.type = .out then
      { summary with totalOut := summary.totalOut + transaction.quantity }
    else summary
  { summary with
    totalValue := summary.totalValue + valueOrZero transaction.totalValue,
    typeBreakdown :=
      Tally.add transaction.type transaction.quantity
        (valueOrZero transaction.totalValue) summary.typeBreakdown,
    dailyBreakdown :=
      Tally.add (isoDay transaction.transactionDate) transaction.quantity
        (valueOrZero transaction.totalValue) summary.dailyBreakdown }

/-- The response of the transaction summary report. -/
structure TransactionSummary where
  totalTransactions : Nat
  totalIn : ℚ
  totalOut : ℚ
  totalValue : String
  typeBreakdown : List (TransactionType × Tally)
  dailyBreakdown : List (Nat × Tally)
  deriving DecidableEq, Repr

/-- The summary the report computes from the transactions its query
found. -/
def summarize (transactions : List InventoryTransaction) : TransactionSummary :=
  let summary := transactions.foldl transactionSummaryStep
    { totalTransactions := transactions.length, totalIn := 0, totalOut := 0, totalValue := 0,
      typeBreakdown := [], dailyBreakdown := [] }
  { totalTransactions := summary.totalTransactions,
    totalIn := summary.totalIn, totalOut := summary.totalOut,
    totalValue := toFixed summary.totalValue 2,
    typeBreakdown := summary.typeBreakdown, dailyBreakdown := summary.dailyBreakdown }

/-- The route `GET /transaction-summary` of `src/reports.js`; `none` is the
response 400 for a missing `startDate` or `endDate`.  The parameters are the
instants `new Date(startDate)` and `new Date(endDate)`; the end of the range
is the last millisecond of the day of `endDate`, the time zone of the server
being universal time. -/
def transactionSummaryReport (startDate endDate : Option Nat) (db : Db) :
    Option TransactionSummary :=
  match startDate, endDate with
  | some start, some stop =>
    let last := isoDay stop * millisPerDay + (millisPerDay - 1)
    some (summarize (db.transactions.filter
      (fun t => decide (start ≤ t.transactionDate) && decide (t.transactionDate ≤ last))))
  | _, _ => none

/-- The sample database after five movements of the sample product, handled
on three different days: stock in of `5`, stock out of `3`, stock in of `2`,
an adjustment to `20` and stock out of `4`. -/
def ledgerDb : Db :=
  run [sampleRequest .stockIn 1000 (.number 5),
       sampleRequest .stockOut 2000 (.number 3),
       sampleRequest .stockIn (millisPerDay + 10) (.number 2),
       sampleRequest .adjustment (millisPerDay + 20) (.number 20),
       sampleRequest .stockOut (2 * millisPerDay + 5) (.number 4)] sampleDb

/-- The second page of the transaction list of two items a page, with the
default sort. -/
def secondPageQuery : TransactionQuery := { page := 2, limit := 2 }

/-! ## The product routes (`src/routes/products.js`) -/

/-- The body of a product create or update request.  An absent `name`,
`sku`, `category` or `unit` is the empty string: the validators see the same
text for both.  The `tags` are in array form; `location` and `dimensions`
are not modelled. -/
structure ProductBody where
  name : String := ""
  sku : String := ""
  barcode : Option String := none
  description : Option String := none
  category : String := ""
  supplier : Option String := none
  unit : String := ""
  costPrice : JsValue := .undefined
  sellingPrice : JsValue := .undefined
  minStockLevel : JsValue := .undefined
  maxStockLevel : JsValue := .undefined
  tags : List String := []
  deriving DecidableEq, Repr

/-- The messages of the request validators of the product create and update
routes that fail, in order. -/
def validateProductFields (body : ProductBody) : List String :=
  (if notEmpty body.name then [] else ["Product name is required"]) ++
  (if notEmpty body.sku then [] else ["SKU is required"]) ++
  (if isObjectId body.category then [] else ["Category is required"]) ++
  (if isNumeric body.costPrice.toText then []
    else ["Cost price is required and must be a number"]) ++
  (if isNumeric body.sellingPrice.toText then []
    else ["Selling price is required and must be a number"]) ++
  (if notEmpty body.unit then [] else ["Unit is required"])

/-- JavaScript `a || b` with a numeric default. -/
def jsOr (a : JsValue) (b : ℚ) : JsValue := if a.truthy then a else .number b

/-- JavaScript `toUpperCase`, for texts in the basic Latin alphabet. -/
def upperText (s : String) : String := String.mk (s.data.map Char.toUpper)

/-- The helper `toObjectId`: the object id of a text, or `null` (`none`). -/
def toObjectId (id : String) : Option String :=
  if isObjectId id then some (objectIdText id) else none

/-- The values `new Product({...})` and `$set` receive from the product
routes, before any cast.  An absent key is `none`, and `.undefined` for a
number; the supplier can also be `null` (`some none`). -/
structure ProductFields where
  name : String
  sku : String
  barcode : Option String
  description : Option String
  category : String
  supplier : Option (Option String)
  unit : String
  costPrice : JsValue
  sellingPrice : JsValue
  minStockLevel : JsValue
  maxStockLevel : JsValue
  tags : List String
  deriving DecidableEq, Repr

/-- The object both product routes build from the body; `barcode` is the
generated bar code in the create route and the bar code of the body in the
update route. -/
def productFields (body : ProductBody) (barcode : Option String) : ProductFields :=
  { name := body.name,
    sku := upperText body.sku,
    barcode := barcode,
    description := body.description,
    category := body.category,
    supplier := match body.supplier with
      | some s => if s ≠ "" then some (toObjectId s) else none
      | none => none,
    unit := body.unit,
    costPrice := body.costPrice,
    sellingPrice := body.sellingPrice,
    minStockLevel := jsOr body.minStockLevel 10,
    maxStockLevel := body.maxStockLevel,
    tags := body.tags }

/-- The `enum` of the schema path `unit`. -/
def unitEnum : List String :=
  ["piece", "kg", "liter", "meter", "box", "pack", "dozen", "pair"]

/-- The schema options `trim` and `uppercase` of the path `sku`, which the
ODM also applies to query filters. -/
def skuText (s : String) : String := upperText (String.mk (trimChars s.data))

/-- The schema option `trim` of the paths `name` and `barcode`. -/
def trimString (s : String) : String := String.mk (trimChars s.data)

/-- A required number with the schema minimum `0`: `none` when the value is
absent, does not cast, or is negative. -/
def castRequiredMin0 (v : JsValue) : Option ℚ :=
  match castNumber v with
  | .value x => if 0 ≤ x then some x else none
  | _ => none

/-- The product fields after the casts, once the schema validators accept
them.  An absent `barcode`, `description` or `supplier` key is `none`; for
`maxStockLevel` the key is absent (`none`), `null` (`some none`) or a number. -/
structure ProductValues where
  name : String
  sku : String
  barcode : Option String
  description : Option String
  category : String
  supplier : Option (Option String)
  unit : String
  costPrice : ℚ
  sellingPrice : ℚ
  minStockLevel : ℚ
  maxStockLevel : Option (Option ℚ)
  tags : List String
  deriving DecidableEq, Repr

/-- The casts and validators of the product schema on the fields of the
product routes; `none` when one of them rejects.  The route never passes an
absent minimum level (see `jsOr`); the schema default `10` is the value of
that case. -/
def ProductFields.validate (f : ProductFields) : Option ProductValues :=
  match castRequiredMin0 f.costPrice, castRequiredMin0 f.sellingPrice,
      castNumber f.minStockLevel, castOptionalMin0 f.maxStockLevel with
  | some costPrice, some sellingPrice, minCast, some maxStockLevel =>
    let minStockLevel : Option ℚ := match minCast with
      | .value m => if 0 ≤ m then some m else none
      | .null => some 10
      | .castError => none
    match minStockLevel with
    | none => none
    | some minStockLevel =>
      if trimString f.name ≠ "" ∧ jsLength (trimString f.name) ≤ 100 ∧
          skuText f.sku ≠ "" ∧ (f.description.map jsLength).getD 0 ≤ 500 ∧
          isObjectId f.category ∧ f.unit ∈ unitEnum then
        some { name := trimString f.name, sku := skuText f.sku,
               barcode := f.barcode.map trimString, description := f.description,
               category := objectIdText f.category, supplier := f.supplier,
               unit := f.unit, costPrice := costPrice, sellingPrice := sellingPrice,
               minStockLevel := minStockLevel,
               maxStockLevel :=
                 if f.maxStockLevel = .undefined then none else some maxStockLevel,
               tags := f.tags }
      else none
  | _, _, _, _ => none

/-- The response of a product route or controller. -/
inductive ProductResponse where
  /-- Status 201 with the created product. -/
  | created (product : Product)
  /-- Status 200 with the updated product. -/
  | updated (product : Product)
  /-- Status 200 after a delete. -/
  | removed
  /-- Status 400 with the validator messages. -/
  | validationErrors (errors : List String)
  /-- Status 400, `SKU already exists`. -/
  | skuExists
  /-- Status 400, `Barcode already exists`. -/
  | barcodeExists
  /-- Status 400 with a message of the controller. -/
  | badRequest (message : String)
  /-- Status 400 with the message of a validation error of the ODM. -/
  | validationFailed
  /-- Status 404, `Product not found`. -/
  | notFound
  /-- Status 500, `Server error`. -/
  | serverError
  deriving DecidableEq, Repr

/-- The unique indexes on `sku` and `barcode`: another stored product has the
stock-keeping unit or the bar code of `p`. -/
def violatesUnique (db : Db) (p : Product) : Bool :=
  db.products.any (fun o =>
    o._id ≠ p._id ∧ (o.sku = p.sku ∨ (p.barcode ≠ none ∧ o.barcode = p.barcode)))

/-- The route `POST /` of the product router.  The parameters `newId` and
`generatedBarcode` are the identifier the ODM gives the document and the text
the route generates when the body has no bar code. -/
def productsRouter.post (newId generatedBarcode : String) (body : ProductBody) (db : Db) :
    Db × ProductResponse :=
  if validateProductFields body ≠ [] then (db, .validationErrors (validateProductFields body))
  else if db.products.any (fun p => p.sku = skuText (upperText body.sku)) then (db, .skuExists)
  else if body.barcode.getD "" ≠ "" ∧
      db.products.any (fun p => p.barcode = body.barcode.map trimString) then
    (db, .barcodeExists)
  else
    let barcode := if body.barcode.getD "" ≠ "" then body.barcode.getD "" else generatedBarcode
    match (productFields body (some barcode)).validate with
    | none => (db, .serverError)
    | some v =>
      let product : Product :=
        { _id := newId, name := v.name, sku := v.sku, barcode := v.barcode,
          description := v.description, category := v.category,
          supplier := v.supplier.getD none, unit := v.unit,
          costPrice := v.costPrice, sellingPrice := v.sellingPrice,
          minStockLevel := v.minStockLevel, maxStockLevel := v.maxStockLevel.getD none,
          tags := v.tags }
      if violatesUnique db product then (db, .serverError)
      else ({ db with products := db.products ++ [product] }, .created product)

/-- Replaces the first stored product that has the identifier of `p`. -/
def replaceProduct (p : Product) : List Product → List Product
  | [] => []
  | o :: ps => if o._id = p._id then p :: ps else o :: replaceProduct p ps

/-- The operator `$set` with the validated values on a stored product: keys
that are absent from the update leave their fields as they are. -/
def ProductValues.applyTo (v : ProductValues) (p : Product) : Product :=
  { p with
    name := v.name, sku := v.sku,
    barcode := match v.barcode with
      | some b => some b
      | none => p.barcode,
    description := match v.description with
      | some d => some d
      | none => p.description,
    category := v.category,
    supplier := match v.supplier with
      | some s => s
      | none => p.supplier,
    unit := v.unit, costPrice := v.costPrice, sellingPrice := v.sellingPrice,
    minStockLevel := v.minStockLevel,
    maxStockLevel := match v.maxStockLevel with
      | some m => m
      | none => p.maxStockLevel,
    tags := v.tags }

/-- The route `PUT /:id` of the product router. -/
def productsRouter.put (id : String) (body : ProductBody) (db : Db) : Db × ProductResponse :=
  if validateProductFields body ≠ [] then (db, .validationErrors (validateProductFields body))
  else if !isObjectId id then (db, .notFound)
  else if db.products.any
      (fun p => p.sku = skuText (upperText body.sku) ∧ p._id ≠ objectIdText id) then
    (db, .skuExists)
  else if body.barcode.getD "" ≠ "" ∧ db.products.any
      (fun p => p.barcode = body.barcode.map trimString ∧ p._id ≠ objectIdText id) then
    (db, .barcodeExists)
  else
    match (productFields body body.barcode).validate with
    | none => (db, .serverError)
    | some v =>
      match Product.findById db id with
      | .castError => (db, .notFound)
      | .missing => (db, .notFound)
      | .found p =>
        if violatesUnique db (v.applyTo p) then (db, .serverError)
        else ({ db with products := replaceProduct (v.applyTo p) db.products },
          .updated (v.applyTo p))

/-- Writes the flag `v` to the first stored product with identifier `id`. -/
def setIsActive (id : String) (v : Bool) : List Product → List Product
  | [] => []
  | p :: ps =>
    if p._id = id then { p with isActive := v } :: ps
    else p :: setIsActive id v ps

/-- The route `DELETE /:id` of the product router: the assignment
`product.isActive = false` followed by `product.save()`. -/
def productsRouter.delete (id : String) (db : Db) : Db × ProductResponse :=
  if (toObjectId id).isNone then (db, .notFound)
  else
    match Product.findById db id with
    | .castError => (db, .serverError)
    | .missing => (db, .notFound)
    | .found product =>
      ({ db with products := setIsActive product._id false db.products }, .removed)

/-! ## The product controller (`src/productController.js`) -/

/-- The body of an update request to the product controller, which passes it
to the ODM as it is.  The keys are those of the product schema; the numbers
are JSON numbers. -/
structure ProductUpdates where
  name : Option String := none
  sku : Option String := none
  barcode : Option String := none
  description : Option String := none
  category : Option String := none
  supplier : Option String := none
  unit : Option String := none
  costPrice : Option ℚ := none
  sellingPrice : Option ℚ := none
  minStockLevel : Option ℚ := none
  maxStockLevel : Option ℚ := none
  currentStock : Option ℚ := none
  isActive : Option Bool := none
  tags : Option (List String) := none
  notes : Option String := none
  deriving DecidableEq, Repr

/-- The identifiers of the stored categories and suppliers. -/
structure Catalog where
  categories : List String
  suppliers : List String
  deriving DecidableEq, Repr

/-- The casts and update validators of the product schema on the keys of an
update: `true` when all of them accept. -/
def ProductUpdates.valid (u : ProductUpdates) : Bool :=
  u.name.all (fun s => decide (trimString s ≠ "") && decide (jsLength (trimString s) ≤ 100)) &&
  u.sku.all (fun s => decide (skuText s ≠ "")) &&
  decide ((u.description.map jsLength).getD 0 ≤ 500) &&
  u.unit.all (fun s => decide (s ∈ unitEnum)) &&
  decide (0 ≤ u.costPrice.getD 0) && decide (0 ≤ u.sellingPrice.getD 0) &&
  decide (0 ≤ u.minStockLevel.getD 0) && decide (0 ≤ u.maxStockLevel.getD 0) &&
  decide (0 ≤ u.currentStock.getD 0)

/-- The update of the controller on a stored product: every key of the body
is written. -/
def ProductUpdates.applyTo (u : ProductUpdates) (p : Product) : Product :=
  { p with
    name := (u.name.map trimString).getD p.name,
    sku := (u.sku.map skuText).getD p.sku,
    barcode := match u.barcode with
      | some b => some (trimString b)
      | none => p.barcode,
    description := match u.description with
      | some d => some d
      | none => p.description,
    category := (u.category.map objectIdText).getD p.category,
    supplier := match u.supplier with
      | some s => some (objectIdText s)
      | none => p.supplier,
    unit := u.unit.getD p.unit,
    costPrice := u.costPrice.getD p.costPrice,
    sellingPrice := u.sellingPrice.getD p.sellingPrice,
    minStockLevel := u.minStockLevel.getD p.minStockLevel,
    maxStockLevel := match u.maxStockLevel with
      | some m => some m
      | none => p.maxStockLevel,
    currentStock := u.currentStock.getD p.currentStock,
    isActive := u.isActive.getD p.isActive,
    tags := u.tags.getD p.tags,
    notes := match u.notes with
      | some n => some n
      | none => p.notes }

/-- The handler `updateProduct` of the product controller. -/
def productController.updateProduct (catalog : Catalog) (id : String) (updates : ProductUpdates)
    (db : Db) : Db × ProductResponse :=
  let categoryCheck : Option ProductResponse := match updates.category with
    | some c =>
      if c = "" then none
      else if !isObjectId c then some (.badRequest "Invalid product ID")
      else if objectIdText c ∈ catalog.categories then none
      else some (.badRequest "Invalid category ID")
    | none => none
  let supplierCheck : Option ProductResponse := match updates.supplier with
    | some s =>
      if s = "" then none
      else if !isObjectId s then some (.badRequest "Invalid product ID")
      else if objectIdText s ∈ catalog.suppliers then none
      else some (.badRequest "Invalid supplier ID")
    | none => none
  match categoryCheck, supplierCheck with
  | some r, _ => (db, r)
  | none, some r => (db, r)
  | none, none =>
    if !isObjectId id ∨ updates.category = some "" ∨ updates.supplier = some "" then
      (db, .badRequest "Invalid product ID")
    else if !updates.valid then (db, .validationFailed)
    else
      match Product.findById db id with
      | .castError => (db, .badRequest "Invalid product ID")
      | .missing => (db, .notFound)
      | .found p =>
        if violatesUnique db (updates.applyTo p) then (db, .serverError)
        else ({ db with products := replaceProduct (updates.applyTo p) db.products },
          .updated (updates.applyTo p))

/-- The handler `deleteProduct` of the product controller. -/
def productController.deleteProduct (id : String) (db : Db) : Db × ProductResponse :=
  match Product.findById db id with
  | .castError => (db, .badRequest "Invalid product ID")
  | .missing => (db, .notFound)
  | .found p => ({ db with products := db.products.filter (fun o => o._id ≠ p._id) }, .removed)

/-- A create or update body for a widget, with the minimum stock level
`minStockLevel`. -/
def widgetBody (minStockLevel : JsValue) : ProductBody :=
  { name := "Widget", sku := "wid-001", category := "64b7f0c2a1d3e4f5a6b7c8aa",
    unit := "piece", costPrice := .number 2, sellingPrice := .number 3,
    minStockLevel := minStockLevel }

/-- The identifier the sample create request gives its product. -/
def newProductId : String := "64b7f0c2a1d3e4f5a6b7c8f1"

/-- The product the create route stores for `widgetBody` with the generated
bar code `BC1`, when its minimum stock level becomes `minStockLevel`. -/
def createdWidget (minStockLevel : ℚ) : Product :=
  { _id := newProductId, name := "Widget", sku := "WID-001", barcode := some "BC1",
    category := "64b7f0c2a1d3e4f5a6b7c8aa", unit := "piece", costPrice := 2,
    sellingPrice := 3, minStockLevel := minStockLevel }

/-- A catalog without categories and suppliers. -/
def noCatalog : Catalog := { categories := [], suppliers := [] }

/-- An update body whose only key is `currentStock`, with the value `99`. -/
def stockUpdate : ProductUpdates := { currentStock := some 99 }

/-! ## Stock-out calls in flight

A handler runs without interruption between two of its `await`s; what other
calls can see and change is the database, one operation at a time. -/

/-- Where a stock-out call stands between its database operations. -/
inductive Stage where
  /-- The request is validated; `Product.findById` has not answered. -/
  | received
  /-- The product is read and the stock check has passed;
  `transaction.save()` has not answered. -/
  | checked (currentProduct : Product)
  /-- The transaction is in the log; `currentProduct.save()` has not
  answered. -/
  | logged (currentProduct : Product) (transaction : InventoryTransaction)
  /-- The response is sent. -/
  | responded (response : Response)
  deriving DecidableEq, Repr

/-- A call of the route `POST /stock-out` in flight. -/
structure StockOutCall where
  now : Nat
  user : String
  body : Body
  stage : Stage := .received
  deriving DecidableEq, Repr

/-- The next database operation of a stock-out call, together with the part
of the handler that runs when it answers. -/
def StockOutCall.step (c : StockOutCall) (db : Db) : StockOutCall × Db :=
  match c.stage with
  | .received =>
    if validateStockFields c.body ≠ [] then
      ({ c with stage := .responded (.validationErrors (validateStockFields c.body)) }, db)
    else
      match Product.findById db c.body.product with
      | .castError => ({ c with stage := .responded .serverError }, db)
      | .missing => ({ c with stage := .responded .notFound }, db)
      | .found currentProduct =>
        if jsLt currentProduct.currentStock c.body.quantity then
          ({ c with stage := .responded .insufficientStock }, db)
        else ({ c with stage := .checked currentProduct }, db)
  | .checked currentProduct =>
    let previousStock := currentProduct.currentStock
    let newStock := jsSub (.number previousStock) c.body.quantity
    let totalValue :=
      if c.body.unitPrice.truthy then jsMul c.body.quantity c.body.unitPrice else .number 0
    match InventoryTransaction.save db c.now
        { product := c.body.product, type := .out, quantity := c.body.quantity,
          previousStock := previousStock, newStock := newStock,
          unitPrice := c.body.unitPrice, totalValue := totalValue,
          reference := c.body.reference, referenceNumber := c.body.referenceNumber,
          locationFrom := c.body.location, reason := c.body.reason, notes := c.body.notes,
          performedBy := c.user, status := .completed } with
    | none => ({ c with stage := .responded .serverError }, db)
    | some (db1, transaction) => ({ c with stage := .logged currentProduct transaction }, db1)
  | .logged currentProduct transaction =>
    match Product.saveCurrentStock db currentProduct
        (jsSub (.number currentProduct.currentStock) c.body.quantity) with
    | none => ({ c with stage := .responded .serverError }, db)
    | some db2 => ({ c with stage := .responded (.ok transaction) }, db2)
  | .responded _ => (c, db)

/-- The call at position `i` takes its next step; the other calls wait. -/
def stepCall (i : Nat) (calls : List StockOutCall) (db : Db) : List StockOutCall × Db :=
  match calls[i]? with
  | none => (calls, db)
  | some c => (calls.set i (c.step db).1, (c.step db).2)

/-- The calls take steps in the order of the schedule, a list of
positions. -/
def runSchedule : List Nat → List StockOutCall → Db → List StockOutCall × Db
  | [], calls, db => (calls, db)
  | i :: rest, calls, db => runSchedule rest (stepCall i calls db).1 (stepCall i calls db).2

/-- The schedule in which each of the `n` calls from position `k` on takes
its three steps before the next call starts. -/
def serialSchedule : Nat → Nat → List Nat
  | _, 0 => []
  | k, n + 1 => k :: k :: k :: serialSchedule (k + 1) n

/-- The calls handled one after another by the route `stockOut`, each on the
database the previous one left. -/
def serve : List StockOutCall → Db → List StockOutCall × Db
  | [], db => ([], db)
  | c :: cs, db =>
    ({ c with stage := .responded (stockOut c.now c.user c.body db).2 } ::
        (serve cs (stockOut c.now c.user c.body db).1).1,
      (serve cs (stockOut c.now c.user c.body db).1).2)

/-- The response of a call is the success response. -/
def StockOutCall.succeeded (c : StockOutCall) : Bool :=
  match c.stage with
  | .responded (.ok _) => true
  | _ => false

/-- The response of a call is the insufficient-stock error. -/
def StockOutCall.refused (c : StockOutCall) : Bool :=
  match c.stage with
  | .responded .insufficientStock => true
  | _ => false

/-- The successes the stock supports, in the words of the spec: taking the
calls in order, a call succeeds when its quantity is at most the stock the
earlier successes left. -/
def supportedSuccesses : ℚ → List ℚ → List Bool
  | _, [] => []
  | s, q :: qs =>
    if q ≤ s then true :: supportedSuccesses (s - q) qs
    else false :: supportedSuccesses s qs

/-- The stock the supported successes leave. -/
def supportedRemainder : ℚ → List ℚ → ℚ
  | s, [] => s
  | s, q :: qs => if q ≤ s then supportedRemainder (s - q) qs else supportedRemainder s qs

/-- The quantity a call asks for, as a number. -/
def StockOutCall.quantity (c : StockOutCall) : ℚ := (c.body.quantity.toNumber).getD 0

/-- A stock-out call for the product `id` that has not started, and that the
request validators and the schema accept whenever the stock covers it. -/
def StockOutCall.WellFormed (id : String) (c : StockOutCall) : Prop :=
  c.stage = .received ∧ c.body.product = id ∧ validateStockFields c.body = [] ∧
    0 ≤ c.quantity ∧ SideFieldsValid c.user c.body

/-- A stock-out call for `quantity` pieces of the sample product. -/
def sampleCall (now : Nat) (quantity : ℚ) : StockOutCall :=
  { now := now, user := sampleUserId,
    body := { product := sampleProductId, quantity := .number quantity, reason := "sale" } }

/-- The sum of the counts of a breakdown. -/
def Breakdown.total (l : List (String × Breakdown)) : Nat :=
  (l.map (fun e => e.2.count)).sum

/-! ## Numeric texts have a numeric value -/

theorem splitAt?_eq_none {sep : Char → Bool} {cs : List Char}
    (h : ∀ c ∈ cs, sep c = false) : splitAt? sep cs = none := by
  induction cs with
  | nil => rfl
  | cons c cs ih =>
    have hc : sep c = false := h c (List.mem_cons_self _ _)
    have ih' := ih (fun d hd => h d (List.mem_cons_of_mem _ hd))
    simp [splitAt?, hc, ih']

theorem splitAt?_eq_some {sep : Char → Bool} {cs l r : List Char}
    (h : splitAt? sep cs = some (l, r)) : ∃ x, sep x = true ∧ cs = l ++ x :: r := by
  induction cs generalizing l with
  | nil => simp [splitAt?] at h
  | cons c cs ih =>
    by_cases hc : sep c = true
    · simp [splitAt?, hc] at h
      obtain ⟨rfl, rfl⟩ := h
      exact ⟨c, hc, rfl⟩
    · simp only [splitAt?, hc] at h
      cases hs : splitAt? sep cs with
      | none => simp [hs] at h
      | some lr =>
        obtain ⟨l', r'⟩ := lr
        simp [hs] at h
        obtain ⟨rfl, rfl⟩ := h
        obtain ⟨x, hx, hcs⟩ := ih hs
        exact ⟨x, hx, by simp [hcs]⟩

theorem digitsValue_isSome {cs : List Char} (h : cs.all Char.isDigit = true) (acc : Nat) :
    ∃ n, digitsValue cs acc = some n := by
  induction cs generalizing acc with
  | nil => exact ⟨acc, rfl⟩
  | cons c cs ih =>
    simp only [List.all_cons, Bool.and_eq_true] at h
    simp only [digitsValue, h.1, if_true]
    exact ih h.2 _

theorem NumericChar.toNat_cases {c : Char} (h : NumericChar c) :
    (48 ≤ c.toNat ∧ c.toNat ≤ 57) ∨ c.toNat = 46 ∨ c.toNat = 43 ∨ c.toNat = 45 := by
  rcases h with h | rfl | rfl | rfl
  · simp only [Char.isDigit, Bool.and_eq_true, decide_eq_true_eq] at h
    exact Or.inl ⟨h.1, h.2⟩
  · exact Or.inr (Or.inl rfl)
  · exact Or.inr (Or.inr (Or.inl rfl))
  · exact Or.inr (Or.inr (Or.inr rfl))

theorem isJsSpace_toNat {c : Char} (h : isJsSpace c = true) :
    c.toNat = 32 ∨ c.toNat = 9 ∨ c.toNat = 10 ∨ c.toNat = 13 ∨ c.toNat = 11 ∨
      c.toNat = 12 ∨ c.toNat = 160 := by
  simp only [isJsSpace, Bool.decide_or, Bool.or_eq_true, decide_eq_true_eq] at h
  rcases h with rfl | rfl | rfl | rfl | h | h | h
  · exact Or.inl rfl
  · exact Or.inr (Or.inl rfl)
  · exact Or.inr (Or.inr (Or.inl rfl))
  · exact Or.inr (Or.inr (Or.inr (Or.inl rfl)))
  · omega
  · omega
  · omega

theorem NumericChar.not_space {c : Char} (h : NumericChar c) : isJsSpace c = false := by
  cases hs : isJsSpace c with
  | false => rfl
  | true =>
    have h1 := h.toNat_cases
    have h2 := isJsSpace_toNat hs
    omega

theorem NumericChar.not_exponentMark {c : Char} (h : NumericChar c) :
    isExponentMark c = false := by
  cases hs : isExponentMark c with
  | false => rfl
  | true =>
    have h1 := h.toNat_cases
    simp only [isExponentMark, Bool.decide_or, Bool.or_eq_true, decide_eq_true_eq] at hs
    have h2 : c.toNat = 101 ∨ c.toNat = 69 := by
      rcases hs with rfl | rfl
      · exact Or.inl rfl
      · exact Or.inr rfl
    omega

theorem dropWhile_eq_self {p : Char → Bool} {cs : List Char}
    (h : ∀ c ∈ cs, p c = false) : cs.dropWhile p = cs := by
  cases cs with
  | nil => rfl
  | cons c cs => simp [List.dropWhile, h c (List.mem_cons_self _ _)]

theorem trimChars_eq_self {cs : List Char} (h : ∀ c ∈ cs, NumericChar c) :
    trimChars cs = cs := by
  have h1 : cs.dropWhile isJsSpace = cs := dropWhile_eq_self (fun c hc => (h c hc).not_space)
  have h2 : cs.reverse.dropWhile isJsSpace = cs.reverse :=
    dropWhile_eq_self (fun c hc => (h c (List.mem_reverse.mp hc)).not_space)
  simp [trimChars, h1, h2]

theorem isUnsignedNumeric_chars {cs : List Char} (h : isUnsignedNumeric cs = true) :
    ∀ c ∈ cs, c.isDigit = true ∨ c = '.' := by
  unfold isUnsignedNumeric at h
  cases hs : splitAt? isPoint cs with
  | none =>
    simp only [hs, Bool.and_eq_true, List.all_eq_true] at h
    exact fun c hc => Or.inl (h.2 c hc)
  | some lr =>
    obtain ⟨ip, fp⟩ := lr
    simp only [hs, Bool.and_eq_true, List.all_eq_true] at h
    obtain ⟨x, hx, rfl⟩ := splitAt?_eq_some hs
    intro c hc
    simp only [List.mem_append, List.mem_cons] at hc
    rcases hc with hc | rfl | hc
    · exact Or.inl (h.1.1 c hc)
    · exact Or.inr (by simpa [isPoint] using hx)
    · exact Or.inl (h.2 c hc)

theorem unsignedLiteralValue_isSome {cs : List Char} (h : isUnsignedNumeric cs = true) :
    ∃ v, unsignedLiteralValue cs = some v := by
  have hchars := isUnsignedNumeric_chars h
  have hexp : splitAt? isExponentMark cs = none :=
    splitAt?_eq_none (fun c hc =>
      NumericChar.not_exponentMark ((hchars c hc).elim Or.inl (fun e => Or.inr (Or.inl e))))
  unfold isUnsignedNumeric at h
  simp only [unsignedLiteralValue, hexp, mantissaValue]
  cases hs : splitAt? isPoint cs with
  | none =>
    simp only [hs, Bool.and_eq_true, Bool.not_eq_true', List.isEmpty_eq_false] at h
    obtain ⟨n, hn⟩ := digitsValue_isSome h.2 0
    have hne : cs ≠ [] := by
      intro e
      simp [e] at h
    simp [hne, hn]
  | some lr =>
    obtain ⟨ip, fp⟩ := lr
    simp only [hs, Bool.and_eq_true, Bool.not_eq_true'] at h
    obtain ⟨i, hi⟩ := digitsValue_isSome h.1.1 0
    obtain ⟨f, hf⟩ := digitsValue_isSome h.2 0
    have hne : fp ≠ [] := by
      intro e
      simp [e] at h
    simp [hne, hi, hf]

theorem stringToNumber_isSome {s : String} (h : isNumeric s = true) :
    ∃ v, stringToNumber s = some v := by
  unfold isNumeric at h
  unfold stringToNumber
  generalize s.data = cs at h
  cases cs with
  | nil => exact absurd h (by decide)
  | cons c r =>
    by_cases hc : c = '+' ∨ c = '-'
    · simp only [stripSign, hc, if_true] at h
      have hchars : ∀ d ∈ c :: r, NumericChar d := by
        intro d hd
        rcases List.mem_cons.mp hd with rfl | hd
        · exact Or.inr (Or.inr hc)
        · exact (isUnsignedNumeric_chars h d hd).elim Or.inl (fun e => Or.inr (Or.inl e))
      obtain ⟨v, hv⟩ := unsignedLiteralValue_isSome h
      rw [trimChars_eq_self hchars]
      rcases hc with rfl | rfl
      · exact ⟨v, by simp [hv]⟩
      · exact ⟨-v, by simp [hv]⟩
    · simp only [stripSign, hc, if_false] at h
      have hchars : ∀ d ∈ c :: r, NumericChar d := fun d hd =>
        (isUnsignedNumeric_chars h d hd).elim Or.inl (fun e => Or.inr (Or.inl e))
      obtain ⟨v, hv⟩ := unsignedLiteralValue_isSome h
      rw [trimChars_eq_self hchars]
      rw [not_or] at hc
      exact ⟨v, by simp [hc.1, hc.2, hv]⟩

/-- A body field that passes `isNumeric` converts to a number. -/
theorem toNumber_of_isNumeric {q : JsValue} (h : isNumeric q.toText = true) :
    ∃ v, q.toNumber = some v := by
  cases q with
  | undefined => exact absurd h (by decide)
  | number x => exact ⟨x, rfl⟩
  | string s => exact stringToNumber_isSome h
  | nan => exact absurd h (by decide)

/-! ## The shared save steps -/

theorem validate_eq_some {id now : Nat} {f : TransactionFields} {t : InventoryTransaction}
    (h : InventoryTransaction.validate id now f = some t) :
    castNumber f.quantity = .value t.quantity ∧ castNumber f.newStock = .value t.newStock ∧
      castOptionalMin0 f.unitPrice = some t.unitPrice ∧
      castOptionalMin0 f.totalValue = some t.totalValue ∧
      0 ≤ t.quantity ∧ t._id = id ∧ t.product = objectIdText f.product ∧ t.type = f.type ∧
      t.previousStock = f.previousStock ∧ t.status = f.status ∧ t.transactionDate = now ∧
      t.reason = f.reason ∧ t.notes = f.notes ∧
      t.performedBy = objectIdText f.performedBy := by
  unfold InventoryTransaction.validate at h
  split at h
  · rename_i q v u tv hq hv hu htv
    split at h
    · rename_i hc
      simp only [Option.some.injEq] at h
      subst h
      simp [hq, hv, hu, htv, hc.2.1]
    · simp at h
  · simp at h

theorem validate_of_casts (id now : Nat) {f : TransactionFields} {q v : ℚ} {u w : Option ℚ}
    (hq : castNumber f.quantity = .value q) (hv : castNumber f.newStock = .value v)
    (hu : castOptionalMin0 f.unitPrice = some u) (htv : castOptionalMin0 f.totalValue = some w)
    (hp : isObjectId f.product = true) (hq0 : 0 ≤ q) (hr : f.reason ≠ "")
    (hrl : jsLength f.reason ≤ 200) (hn : (f.notes.map jsLength).getD 0 ≤ 500)
    (hu' : isObjectId f.performedBy = true) :
    ∃ t, InventoryTransaction.validate id now f = some t := by
  unfold InventoryTransaction.validate
  simp [hq, hv, hu, htv, hp, hq0, hr, hrl, hn, hu']

theorem findById_found {db : Db} {id : String} {p : Product}
    (h : Product.findById db id = .found p) :
    isObjectId id = true ∧ p ∈ db.products ∧ p._id = objectIdText id := by
  unfold Product.findById at h
  split at h
  · rename_i hid
    split at h
    · rename_i q hq
      simp only [Lookup.found.injEq] at h
      subst h
      refine ⟨hid, List.mem_of_find?_eq_some hq, ?_⟩
      simpa using List.find?_some hq
    · simp at h
  · simp at h

/-- The three ways the shared save steps end: the transaction is rejected and
nothing is written; the transaction is saved and the stock write is rejected;
both are written. -/
theorem saveBoth_cases (db : Db) (now : Nat) (f : TransactionFields) (p : Product) :
    (InventoryTransaction.validate db.transactions.length now f = none ∧
      saveBoth db now f p f.newStock = (db, .serverError)) ∨
    (∃ t, InventoryTransaction.validate db.transactions.length now f = some t ∧
      t.newStock < 0 ∧
      saveBoth db now f p f.newStock =
        ({ db with transactions := db.transactions ++ [t] }, .serverError)) ∨
    (∃ t, InventoryTransaction.validate db.transactions.length now f = some t ∧
      0 ≤ t.newStock ∧
      saveBoth db now f p f.newStock =
        ({ products := setCurrentStock p._id t.newStock db.products,
           transactions := db.transactions ++ [t] }, .ok t)) := by
  cases hv : InventoryTransaction.validate db.transactions.length now f with
  | none =>
    left
    simp [saveBoth, InventoryTransaction.save, hv]
  | some t =>
    right
    have hc := (validate_eq_some hv).2.1
    by_cases hneg : t.newStock < 0
    · left
      refine ⟨t, rfl, hneg, ?_⟩
      simp [saveBoth, InventoryTransaction.save, hv, Product.saveCurrentStock, hc, hneg]
    · right
      refine ⟨t, rfl, not_lt.mp hneg, ?_⟩
      simp [saveBoth, InventoryTransaction.save, hv, Product.saveCurrentStock, hc, hneg]

/-- The fields the stock-in route builds. -/
theorem stockIn_found {now : Nat} {user : String} {body : Body} {db : Db} {p : Product}
    (hv : validateStockFields body = []) (hp : Product.findById db body.product = .found p) :
    stockIn now user body db =
      saveBoth db now
        { product := body.product, type := .«in», quantity := body.quantity,
          previousStock := p.currentStock, newStock := jsAdd p.currentStock body.quantity,
          unitPrice := body.unitPrice,
          totalValue :=
            if body.unitPrice.truthy then jsMul body.quantity body.unitPrice else .number 0,
          reference := body.reference, referenceNumber := body.referenceNumber,
          locationTo := body.location, reason := body.reason, notes := body.notes,
          performedBy := user, status := .completed } p (jsAdd p.currentStock body.quantity) := by
  simp only [stockIn, hv, hp, saveBoth]
  rfl

/-- The fields the stock-out route builds when the stock suffices. -/
theorem stockOut_found {now : Nat} {user : String} {body : Body} {db : Db} {p : Product}
    (hv : validateStockFields body = []) (hp : Product.findById db body.product = .found p)
    (hs : jsLt p.currentStock body.quantity = false) :
    stockOut now user body db =
      saveBoth db now
        { product := body.product, type := .out, quantity := body.quantity,
          previousStock := p.currentStock,
          newStock := jsSub (.number p.currentStock) body.quantity,
          unitPrice := body.unitPrice,
          totalValue :=
            if body.unitPrice.truthy then jsMul body.quantity body.unitPrice else .number 0,
          reference := body.reference, referenceNumber := body.referenceNumber,
          locationFrom := body.location, reason := body.reason, notes := body.notes,
          performedBy := user, status := .completed } p
        (jsSub (.number p.currentStock) body.quantity) := by
  simp only [stockOut, hv, hp, hs, saveBoth]
  rfl

/-- The fields the adjustment route builds. -/
theorem adjustment_found {now : Nat} {user : String} {body : Body} {db : Db} {p : Product}
    (hv : validateAdjustmentFields body = [])
    (hp : Product.findById db body.product = .found p) :
    adjustment now user body db =
      saveBoth db now
        { product := body.product, type := .adjustment,
          quantity := jsAbs (jsSub body.quantity (.number p.currentStock)),
          previousStock := p.currentStock, newStock := body.quantity,
          reason := body.reason, notes := body.notes,
          performedBy := user, status := .completed } p body.quantity := by
  simp only [adjustment, hv, hp, saveBoth]
  rfl

/-! ## Validated requests -/

theorem validateStockFields_eq_nil {body : Body} (h : validateStockFields body = []) :
    notEmpty body.product = true ∧ isNumeric body.quantity.toText = true ∧
      (body.unitPrice = .undefined ∨ isNumeric body.unitPrice.toText = true) ∧
      notEmpty body.reason = true := by
  unfold validateStockFields at h
  simp only [List.append_eq_nil, ite_eq_left_iff, reduceCtorEq, imp_false, not_not,
    List.cons_ne_self, Bool.not_eq_true] at h
  obtain ⟨⟨⟨h1, h2⟩, h3⟩, h4⟩ := h
  refine ⟨?_, ?_, h3, ?_⟩
  · cases hb : notEmpty body.product with
    | true => rfl
    | false => simp [hb] at h1
  · cases hb : isNumeric body.quantity.toText with
    | true => rfl
    | false => simp [hb] at h2
  · cases hb : notEmpty body.reason with
    | true => rfl
    | false => simp [hb] at h4

theorem validateAdjustmentFields_eq_nil {body : Body}
    (h : validateAdjustmentFields body = []) :
    notEmpty body.product = true ∧ isNumeric body.quantity.toText = true ∧
      notEmpty body.reason = true := by
  unfold validateAdjustmentFields at h
  simp only [List.append_eq_nil, ite_eq_left_iff, reduceCtorEq, imp_false, not_not,
    Bool.not_eq_true] at h
  obtain ⟨⟨h1, h2⟩, h4⟩ := h
  refine ⟨?_, ?_, ?_⟩
  · cases hb : notEmpty body.product with
    | true => rfl
    | false => simp [hb] at h1
  · cases hb : isNumeric body.quantity.toText with
    | true => rfl
    | false => simp [hb] at h2
  · cases hb : notEmpty body.reason with
    | true => rfl
    | false => simp [hb] at h4

theorem ne_empty_of_notEmpty {s : String} (h : notEmpty s = true) : s ≠ "" := by
  intro e
  subst e
  exact absurd h (by decide)

/-- The schema cast of a validated field is its numeric value. -/
theorem castNumber_of_isNumeric {q : JsValue} {v : ℚ} (h : isNumeric q.toText = true)
    (hq : q.toNumber = some v) : castNumber q = .value v := by
  cases q with
  | undefined => exact absurd h (by decide)
  | number x =>
    simp only [JsValue.toNumber, Option.some.injEq] at hq
    simp [castNumber, hq]
  | string s =>
    have hne : s ≠ "" := by
      intro e
      subst e
      exact absurd h (by decide)
    simp only [JsValue.toNumber] at hq
    simp [castNumber, hne, hq]
  | nan => exact absurd h (by decide)

/-! ## The shape of every request -/

/-- Every request either ends before anything is written, or reaches the
shared save steps with the fields its route builds from the product read. -/
theorem handle_shape (r : Request) (db : Db) :
    ((handle r db).1 = db ∧ ∀ t, (handle r db).2 ≠ .ok t) ∨
    ∃ p f, Product.findById db r.body.product = .found p ∧
      handle r db = saveBoth db r.now f p f.newStock ∧
      isNumeric r.body.quantity.toText = true ∧
      f.product = r.body.product ∧ f.previousStock = p.currentStock ∧
      f.status = .completed ∧
      (r.route = .stockIn → f.type = .«in» ∧ f.quantity = r.body.quantity ∧
        f.newStock = jsAdd p.currentStock r.body.quantity) ∧
      (r.route = .stockOut → f.type = .out ∧ f.quantity = r.body.quantity ∧
        f.newStock = jsSub (.number p.currentStock) r.body.quantity ∧
        jsLt p.currentStock r.body.quantity = false) ∧
      (r.route = .adjustment → f.type = .adjustment ∧
        f.quantity = jsAbs (jsSub r.body.quantity (.number p.currentStock)) ∧
        f.newStock = r.body.quantity) := by
  obtain ⟨route, now, user, body⟩ := r
  cases route with
  | stockIn =>
    by_cases hv : validateStockFields body = []
    · cases hp : Product.findById db body.product with
      | castError => left; simp [handle, stockIn, hv, hp]
      | missing => left; simp [handle, stockIn, hv, hp]
      | found p =>
        right
        exact ⟨p, _, rfl, stockIn_found hv hp, (validateStockFields_eq_nil hv).2.1,
          rfl, rfl, rfl, fun _ => ⟨rfl, rfl, rfl⟩, (by intro h; cases h), (by intro h; cases h)⟩
    · left; simp [handle, stockIn, hv]
  | stockOut =>
    by_cases hv : validateStockFields body = []
    · cases hp : Product.findById db body.product with
      | castError => left; simp [handle, stockOut, hv, hp]
      | missing => left; simp [handle, stockOut, hv, hp]
      | found p =>
        cases hs : jsLt p.currentStock body.quantity with
        | true => left; simp [handle, stockOut, hv, hp, hs]
        | false =>
          right
          exact ⟨p, _, rfl, stockOut_found hv hp hs, (validateStockFields_eq_nil hv).2.1,
            rfl, rfl, rfl, (by intro h; cases h), fun _ => ⟨rfl, rfl, rfl, hs⟩,
            (by intro h; cases h)⟩
    · left; simp [handle, stockOut, hv]
  | adjustment =>
    by_cases hv : validateAdjustmentFields body = []
    · cases hp : Product.findById db body.product with
      | castError => left; simp [handle, adjustment, hv, hp]
      | missing => left; simp [handle, adjustment, hv, hp]
      | found p =>
        right
        exact ⟨p, _, rfl, adjustment_found hv hp, (validateAdjustmentFields_eq_nil hv).2.1,
          rfl, rfl, rfl, (by intro h; cases h), (by intro h; cases h), fun _ => ⟨rfl, rfl, rfl⟩⟩
    · left; simp [handle, adjustment, hv]

/-- The three ways a request ends: nothing is written; only a log entry with
a negative `newStock` is written and the request fails; or one log entry is
written, the stock of the product read is set to its `newStock`, and the
request succeeds. -/
theorem handle_cases (r : Request) (db : Db) :
    ((handle r db).1 = db ∧ ∀ t, (handle r db).2 ≠ .ok t) ∨
    (∃ t, t.newStock < 0 ∧ t.product = objectIdText r.body.product ∧
      handle r db = ({ db with transactions := db.transactions ++ [t] }, .serverError)) ∨
    (∃ p t, Product.findById db r.body.product = .found p ∧ 0 ≤ t.newStock ∧
      t.product = objectIdText r.body.product ∧ t.previousStock = p.currentStock ∧
      handle r db =
        ({ products := setCurrentStock p._id t.newStock db.products,
           transactions := db.transactions ++ [t] }, .ok t)) := by
  rcases handle_shape r db with h | ⟨p, f, hp, hh, -, hprod, hprev, -, -, -, -⟩
  · exact Or.inl h
  · rcases saveBoth_cases db r.now f p with ⟨-, hs⟩ | ⟨t, hv, hneg, hs⟩ | ⟨t, hv, hpos, hs⟩
    · left
      rw [hh, hs]
      exact ⟨rfl, by simp⟩
    · right; left
      have ht := validate_eq_some hv
      exact ⟨t, hneg, by rw [ht.2.2.2.2.2.2.1, hprod], by rw [hh, hs]⟩
    · right; right
      have ht := validate_eq_some hv
      exact ⟨p, t, hp, hpos, by rw [ht.2.2.2.2.2.2.1, hprod],
        by rw [ht.2.2.2.2.2.2.2.2.1, hprev], by rw [hh, hs]⟩

/-! ## When the transaction schema accepts a request -/

theorem castOptionalMin0_number {x : ℚ} (h : 0 ≤ x) :
    castOptionalMin0 (.number x) = some (some x) := by
  simp [castOptionalMin0, castNumber, not_lt.mpr h]

/-- The total value a stock-in or stock-out computes passes the schema when
the quantity and the unit price do. -/
theorem totalValue_accepted {body : Body} {user : String} {q : ℚ}
    (hv : validateStockFields body = []) (hq : body.quantity.toNumber = some q)
    (hq0 : 0 ≤ q) (hside : SideFieldsValid user body) :
    ∃ tv, castOptionalMin0
      (if body.unitPrice.truthy then jsMul body.quantity body.unitPrice else .number 0) =
        some tv := by
  cases ht : body.unitPrice.truthy with
  | false => exact ⟨some 0, by simpa using castOptionalMin0_number (le_refl 0)⟩
  | true =>
    have hnum : isNumeric body.unitPrice.toText = true := by
      rcases (validateStockFields_eq_nil hv).2.2.1 with hu | hu
      · rw [hu] at ht
        exact absurd ht (by decide)
      · exact hu
    obtain ⟨u, hu⟩ := toNumber_of_isNumeric hnum
    have hcast := castNumber_of_isNumeric hnum hu
    obtain ⟨w, hw⟩ := hside.1
    have hu0 : 0 ≤ u := by
      by_contra hneg
      simp [castOptionalMin0, hcast, not_le.mp hneg] at hw
    refine ⟨some (q * u), ?_⟩
    simp only [if_true, jsMul, hq, hu]
    exact castOptionalMin0_number (mul_nonneg hq0 hu0)

/-- The shared save steps succeed when the schema accepts every field and the
new stock is not negative. -/
theorem saveBoth_succeeds (db : Db) (now : Nat) {f : TransactionFields} {p : Product}
    {q v : ℚ} {u w : Option ℚ}
    (hq : castNumber f.quantity = .value q) (hv : castNumber f.newStock = .value v)
    (hu : castOptionalMin0 f.unitPrice = some u) (htv : castOptionalMin0 f.totalValue = some w)
    (hp : isObjectId f.product = true) (hq0 : 0 ≤ q) (hv0 : 0 ≤ v) (hr : f.reason ≠ "")
    (hrl : jsLength f.reason ≤ 200) (hn : (f.notes.map jsLength).getD 0 ≤ 500)
    (hu' : isObjectId f.performedBy = true) :
    ∃ t, InventoryTransaction.validate db.transactions.length now f = some t ∧
      t.quantity = q ∧ t.newStock = v ∧
      saveBoth db now f p f.newStock =
        ({ products := setCurrentStock p._id v db.products,
           transactions := db.transactions ++ [t] }, .ok t) := by
  obtain ⟨t, ht⟩ := validate_of_casts db.transactions.length now
    hq hv hu htv hp hq0 hr hrl hn hu'
  have hf := validate_eq_some ht
  have e1 : t.quantity = q := by
    have := hf.1
    rw [hq] at this
    exact (NumberCast.value.inj this).symm
  have e2 : t.newStock = v := by
    have := hf.2.1
    rw [hv] at this
    exact (NumberCast.value.inj this).symm
  refine ⟨t, ht, e1, e2, ?_⟩
  rcases saveBoth_cases db now f p with ⟨hnone, -⟩ | ⟨t', ht', hneg, -⟩ | ⟨t', ht', -, hs⟩
  · rw [ht] at hnone
    exact absurd hnone (by simp)
  · rw [ht] at ht'
    cases ht'
    rw [e2] at hneg
    exact absurd hv0 (not_le.mpr hneg)
  · rw [ht] at ht'
    cases ht'
    rw [hs, e2]

/-! ## Reading a product back -/

theorem find?_setCurrentStock_same {id : String} {v : ℚ} {ps : List Product} {p : Product}
    (h : ps.find? (fun x => x._id = id) = some p) :
    (setCurrentStock id v ps).find? (fun x => x._id = id) =
      some { p with currentStock := v } := by
  induction ps with
  | nil => simp at h
  | cons a ps ih =>
    by_cases ha : a._id = id
    · rw [List.find?_cons_of_pos _ (by simpa using ha)] at h
      cases h
      rw [setCurrentStock, if_pos ha, List.find?_cons_of_pos _ (by simpa using ha)]
    · rw [List.find?_cons_of_neg _ (by simpa using ha)] at h
      rw [setCurrentStock, if_neg ha, List.find?_cons_of_neg _ (by simpa using ha)]
      exact ih h

theorem find?_setCurrentStock_other {id id' : String} {v : ℚ} {ps : List Product}
    (hne : id' ≠ id) :
    (setCurrentStock id v ps).find? (fun x => x._id = id') =
      ps.find? (fun x => x._id = id') := by
  induction ps with
  | nil => rfl
  | cons a ps ih =>
    by_cases ha : a._id = id
    · have ha' : ¬ a._id = id' := fun e => hne (e.symm.trans ha)
      rw [setCurrentStock, if_pos ha, List.find?_cons_of_neg _ (by simpa using ha'),
        List.find?_cons_of_neg _ (by simpa using ha')]
    · rw [setCurrentStock, if_neg ha]
      by_cases ha' : a._id = id'
      · rw [List.find?_cons_of_pos _ (by simpa using ha'),
          List.find?_cons_of_pos _ (by simpa using ha')]
      · rw [List.find?_cons_of_neg _ (by simpa using ha'),
          List.find?_cons_of_neg _ (by simpa using ha'), ih]

/-- After the stock write the product read back is the old one with the new
stock. -/
theorem findById_setCurrentStock_same {db : Db} {id : String} {p : Product} {v : ℚ}
    {log : List InventoryTransaction} (h : Product.findById db id = .found p) :
    Product.findById { products := setCurrentStock p._id v db.products, transactions := log }
      id = .found { p with currentStock := v } := by
  have hid := findById_found h
  unfold Product.findById at h ⊢
  simp only [hid.1, if_true] at h ⊢
  cases hf : db.products.find? (fun x => x._id = objectIdText id) with
  | none => simp [hf] at h
  | some q =>
    simp only [hf, Lookup.found.injEq] at h
    subst h
    have hq : setCurrentStock q._id v db.products =
        setCurrentStock (objectIdText id) v db.products := by
      rw [hid.2.2]
    rw [hq, find?_setCurrentStock_same hf]

/-- The stock write leaves the lookup of every other identifier as it was. -/
theorem findById_setCurrentStock_other {db : Db} {id id' : String} {v : ℚ}
    {log : List InventoryTransaction} (hne : objectIdText id' ≠ id) :
    Product.findById { products := setCurrentStock id v db.products, transactions := log }
      id' = Product.findById db id' := by
  unfold Product.findById
  simp only [find?_setCurrentStock_other hne]

/-- The stock write changes no product but one with the target identifier,
and of that one only `currentStock`. -/
theorem setCurrentStock_frame (id : String) (v : ℚ) (ps : List Product) :
    (setCurrentStock id v ps).length = ps.length ∧
      ∀ (i : Nat) (p p' : Product), ps[i]? = some p →
        (setCurrentStock id v ps)[i]? = some p' →
        (p._id ≠ id → p' = p) ∧ p' = { p with currentStock := p'.currentStock } := by
  induction ps with
  | nil => simp [setCurrentStock]
  | cons a ps ih =>
    by_cases ha : a._id = id
    · refine ⟨by rw [setCurrentStock, if_pos ha]; rfl, ?_⟩
      intro i p p' hp hp'
      rw [setCurrentStock, if_pos ha] at hp'
      cases i with
      | zero =>
        simp only [List.getElem?_cons_zero, Option.some.injEq] at hp hp'
        subst hp hp'
        exact ⟨fun h => absurd ha h, rfl⟩
      | succ j =>
        simp only [List.getElem?_cons_succ] at hp hp'
        rw [hp] at hp'
        cases hp'
        exact ⟨fun _ => rfl, rfl⟩
    · refine ⟨by rw [setCurrentStock, if_neg ha, List.length_cons, ih.1, List.length_cons], ?_⟩
      intro i p p' hp hp'
      rw [setCurrentStock, if_neg ha] at hp'
      cases i with
      | zero =>
        simp only [List.getElem?_cons_zero, Option.some.injEq] at hp hp'
        subst hp hp'
        exact ⟨fun _ => rfl, rfl⟩
      | succ j =>
        simp only [List.getElem?_cons_succ] at hp hp'
        exact ih.2 j p p' hp hp'

/-! ## Stock-out -/

theorem jsLt_iff {s q : ℚ} {v : JsValue} (hq : v.toNumber = some q) :
    jsLt s v = true ↔ s < q := by
  simp [jsLt, hq]

theorem jsSub_eq {a b : JsValue} {x y : ℚ} (ha : a.toNumber = some x)
    (hb : b.toNumber = some y) : jsSub a b = .number (x - y) := by
  simp only [jsSub, ha, hb]

theorem jsMul_eq {a b : JsValue} {x y : ℚ} (ha : a.toNumber = some x)
    (hb : b.toNumber = some y) : jsMul a b = .number (x * y) := by
  simp only [jsMul, ha, hb]

theorem jsAbs_eq {a : JsValue} {x : ℚ} (ha : a.toNumber = some x) :
    jsAbs a = .number |x| := by
  simp only [jsAbs, ha]

theorem stockOut_insufficient {now : Nat} {user : String} {body : Body} {db : Db}
    {p : Product} (hv : validateStockFields body = [])
    (hp : Product.findById db body.product = .found p)
    (hs : jsLt p.currentStock body.quantity = true) :
    stockOut now user body db = (db, .insufficientStock) := by
  simp [stockOut, hv, hp, hs]

/-- A stock-out of a quantity the stock covers succeeds when the schema
accepts the request, and records the difference. -/
theorem stockOut_succeeds (now : Nat) {user : String} {body : Body} {db : Db}
    {p : Product} {q : ℚ} (hv : validateStockFields body = [])
    (hp : Product.findById db body.product = .found p)
    (hq : body.quantity.toNumber = some q) (hq0 : 0 ≤ q) (hle : q ≤ p.currentStock)
    (hside : SideFieldsValid user body) :
    ∃ t, stockOut now user body db =
        ({ products := setCurrentStock p._id (p.currentStock - q) db.products,
           transactions := db.transactions ++ [t] }, .ok t) ∧
      t.type = .out ∧ t.status = .completed ∧ t.product = objectIdText body.product ∧
      t.previousStock = p.currentStock ∧ t.newStock = p.currentStock - q ∧ t.quantity = q := by
  have hval := validateStockFields_eq_nil hv
  have hs : jsLt p.currentStock body.quantity = false := by
    simp [jsLt, hq, not_lt.mpr hle]
  obtain ⟨tv, htv⟩ := totalValue_accepted hv hq hq0 hside
  obtain ⟨u, hu⟩ := hside.1
  rw [stockOut_found hv hp hs]
  obtain ⟨t, ht, e1, e2, hsave⟩ := saveBoth_succeeds db now (p := p)
    (f := { product := body.product, type := .out, quantity := body.quantity,
            previousStock := p.currentStock,
            newStock := jsSub (.number p.currentStock) body.quantity,
            unitPrice := body.unitPrice,
            totalValue :=
              if body.unitPrice.truthy then jsMul body.quantity body.unitPrice else .number 0,
            reference := body.reference, referenceNumber := body.referenceNumber,
            locationFrom := body.location, reason := body.reason, notes := body.notes,
            performedBy := user, status := .completed })
    (q := q) (v := p.currentStock - q) (u := u) (w := tv)
    (castNumber_of_isNumeric hval.2.1 hq) (by rw [jsSub_eq (a := .number p.currentStock) rfl hq]; rfl)
    hu htv (findById_found hp).1 hq0 (sub_nonneg.mpr hle)
    (ne_empty_of_notEmpty hval.2.2.2) hside.2.1 hside.2.2.1 hside.2.2.2
  have hf := validate_eq_some ht
  exact ⟨t, hsave, hf.2.2.2.2.2.2.2.1, hf.2.2.2.2.2.2.2.2.2.1, hf.2.2.2.2.2.2.1,
    hf.2.2.2.2.2.2.2.2.1, e2, e1⟩

/-- What a successful stock-out recorded, read off the response. -/
theorem stockOut_ok_inv {now : Nat} {user : String} {body : Body} {db : Db}
    {p : Product} {q : ℚ} {t : InventoryTransaction}
    (hv : validateStockFields body = [])
    (hp : Product.findById db body.product = .found p)
    (hq : body.quantity.toNumber = some q)
    (hok : (stockOut now user body db).2 = .ok t) :
    q ≤ p.currentStock ∧ 0 ≤ q ∧
      stockOut now user body db =
        ({ products := setCurrentStock p._id (p.currentStock - q) db.products,
           transactions := db.transactions ++ [t] }, .ok t) ∧
      t.type = .out ∧ t.status = .completed ∧ t.product = objectIdText body.product ∧
      t.previousStock = p.currentStock ∧ t.newStock = p.currentStock - q ∧ t.quantity = q := by
  have hval := validateStockFields_eq_nil hv
  cases hs : jsLt p.currentStock body.quantity with
  | true =>
    rw [stockOut_insufficient hv hp hs] at hok
    exact absurd hok (by simp)
  | false =>
    have hle : q ≤ p.currentStock := by
      by_contra hlt
      have := (jsLt_iff (s := p.currentStock) hq).mpr (not_le.mp hlt)
      rw [hs] at this
      exact absurd this (by simp)
    rw [stockOut_found hv hp hs] at hok ⊢
    rcases saveBoth_cases db now _ p with ⟨-, h⟩ | ⟨t', -, -, h⟩ | ⟨t', ht', -, h⟩
    · rw [h] at hok
      exact absurd hok (by simp)
    · rw [h] at hok
      exact absurd hok (by simp)
    · rw [h] at hok ⊢
      simp only [Response.ok.injEq] at hok
      subst hok
      have hf := validate_eq_some ht'
      have e1 : t'.quantity = q := by
        have := hf.1
        rw [castNumber_of_isNumeric hval.2.1 hq] at this
        exact (NumberCast.value.inj this).symm
      have e2 : t'.newStock = p.currentStock - q := by
        have := hf.2.1
        rw [jsSub_eq (a := .number p.currentStock) rfl hq] at this
        exact (NumberCast.value.inj this).symm
      refine ⟨hle, ?_, ?_, hf.2.2.2.2.2.2.2.1, hf.2.2.2.2.2.2.2.2.2.1, hf.2.2.2.2.2.2.1,
        hf.2.2.2.2.2.2.2.2.1, e2, e1⟩
      · rw [← e1]
        exact hf.2.2.2.2.1
      · rw [e2]

/-- C1: for an existing product and a stock-out request that passes input
validation, the quantity has a numeric value `q`; the request fails with the
insufficient-stock error exactly when `q` exceeds the product's current
stock; when it fails this way the database (the product's stock and the
transaction log) is unchanged; and a request for exactly the current stock
succeeds when the transaction schema accepts its fields. -/
theorem stockOut_insufficientStock_iff (now : Nat) (user : String) (body : Body) (db : Db)
    (p : Product) (hv : validateStockFields body = [])
    (hp : Product.findById db body.product = .found p) :
    ∃ q, body.quantity.toNumber = some q ∧
      ((stockOut now user body db).2 = .insufficientStock ↔ p.currentStock < q) ∧
      ((stockOut now user body db).2 = .insufficientStock →
        (stockOut now user body db).1 = db) ∧
      (q = p.currentStock → 0 ≤ q → SideFieldsValid user body →
        ∃ t, (stockOut now user body db).2 = .ok t) := by
  obtain ⟨q, hq⟩ := toNumber_of_isNumeric (validateStockFields_eq_nil hv).2.1
  refine ⟨q, hq, ⟨?_, ?_⟩, ?_, ?_⟩
  · intro h
    by_contra hlt
    have hs : jsLt p.currentStock body.quantity = false := by
      cases hj : jsLt p.currentStock body.quantity with
      | false => rfl
      | true => exact absurd ((jsLt_iff hq).mp hj) hlt
    rw [stockOut_found hv hp hs] at h
    rcases saveBoth_cases db now _ p with ⟨-, e⟩ | ⟨t, -, -, e⟩ | ⟨t, -, -, e⟩ <;>
      · rw [e] at h
        exact absurd h (by simp)
  · intro h
    rw [stockOut_insufficient hv hp ((jsLt_iff hq).mpr h)]
  · intro h
    cases hj : jsLt p.currentStock body.quantity with
    | true => rw [stockOut_insufficient hv hp hj]
    | false =>
      rw [stockOut_found hv hp hj] at h
      rcases saveBoth_cases db now _ p with ⟨-, e⟩ | ⟨t, -, -, e⟩ | ⟨t, -, -, e⟩ <;>
        · rw [e] at h
          exact absurd h (by simp)
  · intro he h0 hside
    obtain ⟨t, ht, -⟩ := stockOut_succeeds now hv hp hq h0 (le_of_eq he) hside
    exact ⟨t, by rw [ht]⟩

/-- Scenario B and its boundary on the sample product with ten pieces: a
stock-out of eleven fails with the insufficient-stock error and leaves the
database as it was. -/
theorem stockOut_insufficientStock_iff_sample :
    validateStockFields (sampleRequest .stockOut 1 (.number 11)).body = [] ∧
    Product.findById sampleDb sampleProductId = .found sampleProduct ∧
    ∃ q, (JsValue.number 11).toNumber = some q ∧
      ((stockOut 1 sampleUserId (sampleRequest .stockOut 1 (.number 11)).body sampleDb).2 =
          .insufficientStock ↔ sampleProduct.currentStock < q) ∧
      ((stockOut 1 sampleUserId (sampleRequest .stockOut 1 (.number 11)).body sampleDb).2 =
          .insufficientStock →
        (stockOut 1 sampleUserId (sampleRequest .stockOut 1 (.number 11)).body sampleDb).1 =
          sampleDb) ∧
      (q = sampleProduct.currentStock → 0 ≤ q →
        SideFieldsValid sampleUserId (sampleRequest .stockOut 1 (.number 11)).body →
        ∃ t, (stockOut 1 sampleUserId (sampleRequest .stockOut 1 (.number 11)).body
          sampleDb).2 = .ok t) :=
  ⟨by decide!, by decide!,
    stockOut_insufficientStock_iff 1 sampleUserId (sampleRequest .stockOut 1 (.number 11)).body
      sampleDb sampleProduct (by decide!) (by decide!)⟩

/-! ## The stock is never negative -/

theorem mem_setCurrentStock {id : String} {v : ℚ} {ps : List Product} {p : Product}
    (h : p ∈ setCurrentStock id v ps) : p ∈ ps ∨ p.currentStock = v := by
  induction ps with
  | nil => simp [setCurrentStock] at h
  | cons a ps ih =>
    by_cases ha : a._id = id
    · rw [setCurrentStock, if_pos ha] at h
      rcases List.mem_cons.mp h with rfl | h
      · exact Or.inr rfl
      · exact Or.inl (List.mem_cons_of_mem _ h)
    · rw [setCurrentStock, if_neg ha] at h
      rcases List.mem_cons.mp h with rfl | h
      · exact Or.inl (List.mem_cons_self _ _)
      · exact (ih h).elim (fun h' => Or.inl (List.mem_cons_of_mem _ h')) Or.inr

theorem handle_currentStock_nonneg (r : Request) (db : Db)
    (h : ∀ p ∈ db.products, 0 ≤ p.currentStock) :
    ∀ p ∈ (handle r db).1.products, 0 ≤ p.currentStock := by
  rcases handle_cases r db with ⟨e, -⟩ | ⟨t, -, -, e⟩ | ⟨p0, t, -, hpos, -, -, e⟩
  · rw [e]
    exact h
  · rw [e]
    exact h
  · rw [e]
    intro p hp
    rcases mem_setCurrentStock hp with hp | hp
    · exact h p hp
    · rw [hp]
      exact hpos

/-- C2: starting from products whose current stock is not negative, after
any finite sequence of stock-in, stock-out and adjustment requests handled
one after another, whatever their bodies and whether they succeed or fail,
the stored current stock of every product is not negative. -/
theorem currentStock_nonneg_run (reqs : List Request) (db : Db)
    (h : ∀ p ∈ db.products, 0 ≤ p.currentStock) :
    ∀ p ∈ (run reqs db).products, 0 ≤ p.currentStock := by
  induction reqs generalizing db with
  | nil => exact h
  | cons r rs ih => exact ih _ (handle_currentStock_nonneg r db h)

/-- The sample product survives a stock-out beyond its stock, a negative
adjustment, a negative stock-in and a stock-out of everything with a stock
that is not negative. -/
theorem currentStock_nonneg_run_sample :
    (∀ p ∈ sampleDb.products, 0 ≤ p.currentStock) ∧
    ∀ p ∈ (run [sampleRequest .stockOut 1 (.number 11),
                sampleRequest .adjustment 2 (.number (-3)),
                sampleRequest .stockIn 3 (.string "-5"),
                sampleRequest .stockOut 4 (.string "10")] sampleDb).products,
      0 ≤ p.currentStock :=
  ⟨by decide!, currentStock_nonneg_run _ sampleDb (by decide!)⟩

/-! ## Stock-in -/

/-- C3: the stock-in route on the sample product (stock `10`) with the
quantity `"5"`, a numeric string as the stock-in form submits it: the request
passes validation and succeeds, and the route records `newStock = 105` and
stores a current stock of `105`, the text `"10"` followed by `"5"`, where the
numeric sum is `15`. -/
theorem stockIn_string_quantity_sample :
    validateStockFields (sampleRequest .stockIn 1 (.string "5")).body = [] ∧
    ((handle (sampleRequest .stockIn 1 (.string "5")) sampleDb).2.transaction?.map
      (fun t => (t.type, t.status, t.quantity, t.previousStock, t.newStock))) =
        some (.«in», .completed, 5, 10, 105) ∧
    (handle (sampleRequest .stockIn 1 (.string "5")) sampleDb).1.products.map
      (fun p => p.currentStock) = [105] := by
  decide!

/-- A stock-in whose quantity is a JSON number records the numeric sum. -/
theorem stockIn_number_ok_inv {now : Nat} {user : String} {body : Body} {db : Db}
    {p : Product} {x : ℚ} {t : InventoryTransaction}
    (hv : validateStockFields body = [])
    (hp : Product.findById db body.product = .found p)
    (hq : body.quantity = .number x)
    (hok : (stockIn now user body db).2 = .ok t) :
    0 ≤ x ∧
      stockIn now user body db =
        ({ products := setCurrentStock p._id (p.currentStock + x) db.products,
           transactions := db.transactions ++ [t] }, .ok t) ∧
      t.type = .«in» ∧ t.status = .completed ∧ t.product = objectIdText body.product ∧
      t.previousStock = p.currentStock ∧ t.newStock = p.currentStock + x ∧ t.quantity = x := by
  rw [stockIn_found hv hp] at hok ⊢
  rcases saveBoth_cases db now _ p with ⟨-, h⟩ | ⟨t', -, -, h⟩ | ⟨t', ht', -, h⟩
  · rw [h] at hok
    exact absurd hok (by simp)
  · rw [h] at hok
    exact absurd hok (by simp)
  · rw [h] at hok ⊢
    simp only [Response.ok.injEq] at hok
    subst hok
    have hf := validate_eq_some ht'
    have e1 : t'.quantity = x := by
      have := hf.1
      simp only [hq, castNumber] at this
      exact (NumberCast.value.inj this).symm
    have e2 : t'.newStock = p.currentStock + x := by
      have := hf.2.1
      simp only [hq, jsAdd, castNumber] at this
      exact (NumberCast.value.inj this).symm
    refine ⟨?_, ?_, hf.2.2.2.2.2.2.2.1, hf.2.2.2.2.2.2.2.2.2.1, hf.2.2.2.2.2.2.1,
      hf.2.2.2.2.2.2.2.2.1, e2, e1⟩
    · rw [← e1]
      exact hf.2.2.2.2.1
    · rw [e2]

/-- A stock-in whose quantity is a JSON number that is not negative succeeds
on a product whose stock is not negative, when the schema accepts the other
fields. -/
theorem stockIn_number_succeeds {now : Nat} {user : String} {body : Body} {db : Db}
    {p : Product} {x : ℚ} (hv : validateStockFields body = [])
    (hp : Product.findById db body.product = .found p)
    (hq : body.quantity = .number x) (hx : 0 ≤ x) (hs : 0 ≤ p.currentStock)
    (hside : SideFieldsValid user body) :
    ∃ t, (stockIn now user body db).2 = .ok t := by
  have hval := validateStockFields_eq_nil hv
  have hq' : body.quantity.toNumber = some x := by rw [hq]; rfl
  obtain ⟨tv, htv⟩ := totalValue_accepted hv hq' hx hside
  obtain ⟨u, hu⟩ := hside.1
  rw [stockIn_found hv hp]
  obtain ⟨t, -, -, -, hsave⟩ := saveBoth_succeeds db now (p := p)
    (f := { product := body.product, type := .«in», quantity := body.quantity,
            previousStock := p.currentStock, newStock := jsAdd p.currentStock body.quantity,
            unitPrice := body.unitPrice,
            totalValue :=
              if body.unitPrice.truthy then jsMul body.quantity body.unitPrice else .number 0,
            reference := body.reference, referenceNumber := body.referenceNumber,
            locationTo := body.location, reason := body.reason, notes := body.notes,
            performedBy := user, status := .completed })
    (q := x) (v := p.currentStock + x) (u := u) (w := tv)
    (by rw [hq]; rfl) (by rw [hq]; rfl)
    hu htv (findById_found hp).1 hx (add_nonneg hs hx)
    (ne_empty_of_notEmpty hval.2.2.2) hside.2.1 hside.2.2.1 hside.2.2.2
  exact ⟨t, by rw [hsave]⟩

/-! ## Stock-out, the recorded transaction -/

/-- C4: for an existing product with stock `s` and a validated stock-out
request whose quantity has the numeric value `q` with `0 < q ≤ s`, the
request succeeds when the schema accepts its other fields, and every
successful response carries a transaction of type `out` and status
`completed` with `previousStock = s` and `newStock = s - q`, after which the
product read back has `currentStock = s - q` and is otherwise unchanged. -/
theorem stockOut_records (now : Nat) (user : String) (body : Body) (db : Db) (p : Product)
    (q : ℚ) (hv : validateStockFields body = [])
    (hp : Product.findById db body.product = .found p)
    (hq : body.quantity.toNumber = some q) (hpos : 0 < q) (hle : q ≤ p.currentStock) :
    (SideFieldsValid user body → ∃ t, (stockOut now user body db).2 = .ok t) ∧
    ∀ t, (stockOut now user body db).2 = .ok t →
      t.type = .out ∧ t.status = .completed ∧ t.previousStock = p.currentStock ∧
      t.newStock = p.currentStock - q ∧
      Product.findById (stockOut now user body db).1 body.product =
        .found { p with currentStock := p.currentStock - q } := by
  refine ⟨fun hside => ?_, fun t hok => ?_⟩
  · obtain ⟨t, ht, -⟩ := stockOut_succeeds now hv hp hq (le_of_lt hpos) hle hside
    exact ⟨t, by rw [ht]⟩
  · obtain ⟨-, -, e, h1, h2, -, h3, h4, -⟩ := stockOut_ok_inv hv hp hq hok
    refine ⟨h1, h2, h3, h4, ?_⟩
    rw [e]
    exact findById_setCurrentStock_same hp

/-- A stock-out of four pieces, sent as the text `"4"`, from the sample
product with ten pieces. -/
theorem stockOut_records_sample :
    validateStockFields (sampleRequest .stockOut 1 (.string "4")).body = [] ∧
    (SideFieldsValid sampleUserId (sampleRequest .stockOut 1 (.string "4")).body →
      ∃ t, (stockOut 1 sampleUserId (sampleRequest .stockOut 1 (.string "4")).body
        sampleDb).2 = .ok t) ∧
    ∀ t, (stockOut 1 sampleUserId (sampleRequest .stockOut 1 (.string "4")).body sampleDb).2 =
        .ok t →
      t.type = .out ∧ t.status = .completed ∧ t.previousStock = sampleProduct.currentStock ∧
      t.newStock = sampleProduct.currentStock - 4 ∧
      Product.findById
          (stockOut 1 sampleUserId (sampleRequest .stockOut 1 (.string "4")).body sampleDb).1
          (sampleRequest .stockOut 1 (.string "4")).body.product =
        .found { sampleProduct with currentStock := sampleProduct.currentStock - 4 } :=
  ⟨by decide!,
    stockOut_records 1 sampleUserId (sampleRequest .stockOut 1 (.string "4")).body sampleDb
      sampleProduct 4 (by decide!) (by decide!) (by decide!) (by decide!) (by decide!)⟩

/-! ## Adjustment -/

theorem jsAbs_jsSub {a : JsValue} {x s : ℚ} (ha : a.toNumber = some x) :
    jsAbs (jsSub a (.number s)) = .number |x - s| := by
  rw [jsSub_eq (b := .number s) ha rfl]
  rfl

/-- What a successful adjustment recorded, read off the response. -/
theorem adjustment_ok_inv {now : Nat} {user : String} {body : Body} {db : Db}
    {p : Product} {n : ℚ} {t : InventoryTransaction}
    (hv : validateAdjustmentFields body = [])
    (hp : Product.findById db body.product = .found p)
    (hn : body.quantity.toNumber = some n)
    (hok : (adjustment now user body db).2 = .ok t) :
    0 ≤ n ∧
      adjustment now user body db =
        ({ products := setCurrentStock p._id n db.products,
           transactions := db.transactions ++ [t] }, .ok t) ∧
      t.type = .adjustment ∧ t.status = .completed ∧
      t.product = objectIdText body.product ∧
      t.previousStock = p.currentStock ∧ t.newStock = n ∧
      t.quantity = |n - p.currentStock| := by
  have hval := validateAdjustmentFields_eq_nil hv
  rw [adjustment_found hv hp] at hok ⊢
  rcases saveBoth_cases db now _ p with ⟨-, h⟩ | ⟨t', -, -, h⟩ | ⟨t', ht', hpos, h⟩
  · rw [h] at hok
    exact absurd hok (by simp)
  · rw [h] at hok
    exact absurd hok (by simp)
  · rw [h] at hok ⊢
    simp only [Response.ok.injEq] at hok
    subst hok
    have hf := validate_eq_some ht'
    have e1 : t'.quantity = |n - p.currentStock| := by
      have := hf.1
      rw [jsAbs_jsSub hn] at this
      exact (NumberCast.value.inj this).symm
    have e2 : t'.newStock = n := by
      have := hf.2.1
      rw [castNumber_of_isNumeric hval.2.1 hn] at this
      exact (NumberCast.value.inj this).symm
    refine ⟨?_, ?_, hf.2.2.2.2.2.2.2.1, hf.2.2.2.2.2.2.2.2.2.1, hf.2.2.2.2.2.2.1,
      hf.2.2.2.2.2.2.2.2.1, e2, e1⟩
    · rw [← e2]
      exact hpos
    · rw [e2]

/-- An adjustment to a quantity that is not negative succeeds when the
schema accepts the reason, the notes and the user. -/
theorem adjustment_succeeds {now : Nat} {user : String} {body : Body} {db : Db}
    {p : Product} {n : ℚ} (hv : validateAdjustmentFields body = [])
    (hp : Product.findById db body.product = .found p)
    (hn : body.quantity.toNumber = some n) (hn0 : 0 ≤ n)
    (hrl : jsLength body.reason ≤ 200) (hnl : (body.notes.map jsLength).getD 0 ≤ 500)
    (hu : isObjectId user = true) :
    ∃ t, (adjustment now user body db).2 = .ok t := by
  have hval := validateAdjustmentFields_eq_nil hv
  rw [adjustment_found hv hp]
  obtain ⟨t, -, -, -, hsave⟩ := saveBoth_succeeds db now (p := p)
    (f := { product := body.product, type := .adjustment,
            quantity := jsAbs (jsSub body.quantity (.number p.currentStock)),
            previousStock := p.currentStock, newStock := body.quantity,
            reason := body.reason, notes := body.notes,
            performedBy := user, status := .completed })
    (q := |n - p.currentStock|) (v := n) (u := none) (w := none)
    (by rw [jsAbs_jsSub hn]; rfl)
    (castNumber_of_isNumeric hval.2.1 hn) rfl rfl
    (findById_found hp).1 (abs_nonneg _) hn0
    (ne_empty_of_notEmpty hval.2.2) hrl hnl hu
  exact ⟨t, by rw [hsave]⟩

/-- C5: for an existing product with stock `s` and a validated adjustment
request whose quantity has the numeric value `n ≥ 0`, the request succeeds
when the schema accepts the reason, the notes and the user, and every
successful response carries a transaction of type `adjustment` with
`previousStock = s`, `newStock = n` and `quantity = |n - s|`, after which the
product read back has `currentStock = n`, whatever `s` was. -/
theorem adjustment_records (now : Nat) (user : String) (body : Body) (db : Db) (p : Product)
    (n : ℚ) (hv : validateAdjustmentFields body = [])
    (hp : Product.findById db body.product = .found p)
    (hn : body.quantity.toNumber = some n) (hn0 : 0 ≤ n) :
    (jsLength body.reason ≤ 200 → (body.notes.map jsLength).getD 0 ≤ 500 →
      isObjectId user = true → ∃ t, (adjustment now user body db).2 = .ok t) ∧
    ∀ t, (adjustment now user body db).2 = .ok t →
      t.type = .adjustment ∧ t.previousStock = p.currentStock ∧ t.newStock = n ∧
      t.quantity = |n - p.currentStock| ∧
      Product.findById (adjustment now user body db).1 body.product =
        .found { p with currentStock := n } := by
  refine ⟨fun hrl hnl hu => adjustment_succeeds hv hp hn hn0 hrl hnl hu, fun t hok => ?_⟩
  obtain ⟨-, e, h1, -, -, h3, h4, h5⟩ := adjustment_ok_inv hv hp hn hok
  refine ⟨h1, h3, h4, h5, ?_⟩
  rw [e]
  exact findById_setCurrentStock_same hp

/-- Scenario C: an adjustment to three on the sample product with ten pieces
succeeds and records the quantity seven, the previous stock ten and the new
stock three. -/
theorem adjustment_records_sample :
    ((adjustment 1 sampleUserId (sampleRequest .adjustment 1 (.number 3)).body
        sampleDb).2.transaction?.map
      (fun t => (t.quantity, t.previousStock, t.newStock))) = some (7, 10, 3) ∧
    ((jsLength (sampleRequest .adjustment 1 (.number 3)).body.reason ≤ 200 →
      ((sampleRequest .adjustment 1 (.number 3)).body.notes.map jsLength).getD 0 ≤ 500 →
      isObjectId sampleUserId = true →
      ∃ t, (adjustment 1 sampleUserId (sampleRequest .adjustment 1 (.number 3)).body
        sampleDb).2 = .ok t) ∧
    ∀ t, (adjustment 1 sampleUserId (sampleRequest .adjustment 1 (.number 3)).body
        sampleDb).2 = .ok t →
      t.type = .adjustment ∧ t.previousStock = sampleProduct.currentStock ∧ t.newStock = 3 ∧
      t.quantity = |3 - sampleProduct.currentStock| ∧
      Product.findById
          (adjustment 1 sampleUserId (sampleRequest .adjustment 1 (.number 3)).body sampleDb).1
          (sampleRequest .adjustment 1 (.number 3)).body.product =
        .found { sampleProduct with currentStock := 3 }) :=
  ⟨by decide!,
    adjustment_records 1 sampleUserId (sampleRequest .adjustment 1 (.number 3)).body sampleDb
      sampleProduct 3 (by decide!) (by decide!) (by decide!) (by decide!)⟩

/-! ## The stock impact -/

/-- C6: the stock impact of a transaction is its quantity for the types `in`
and `return`, the negated quantity for `out`, `damage` and `expiry`, and zero
for `adjustment` and `transfer`. -/
theorem stockImpact_by_type (t : InventoryTransaction) :
    t.stockImpact =
      match t.type with
      | .«in» | .«return» => t.quantity
      | .out | .damage | .expiry => -t.quantity
      | .adjustment | .transfer => 0 := by
  unfold InventoryTransaction.stockImpact
  cases t.type <;> simp

/-! ## The recorded difference and the replay of the log -/

/-- C7: the stock-in route on the sample product (stock `10`) with the
quantity `"5"`, a numeric string: the recorded transaction has a stock
impact of `5`, while its `newStock - previousStock` is `105 - 10 = 95`. -/
theorem stockIn_string_difference_sample :
    ((handle (sampleRequest .stockIn 1 (.string "5")) sampleDb).2.transaction?.map
      (fun t => (t.newStock - t.previousStock, t.stockImpact))) = some (95, 5) := by
  decide!

/-- The replay sum does not depend on the order of the log. -/
theorem impactSum_eq (id : String) (log : List InventoryTransaction) :
    impactSum id log =
      ((transactionsOf id log).map InventoryTransaction.stockImpact).sum := by
  unfold impactSum
  exact ((List.perm_insertionSort _ _).map _).sum_eq

theorem impactSum_append (id : String) (log : List InventoryTransaction)
    (t : InventoryTransaction) :
    impactSum id (log ++ [t]) =
      impactSum id log + (if t.product = objectIdText id then t.stockImpact else 0) := by
  rw [impactSum_eq, impactSum_eq]
  unfold transactionsOf
  by_cases h : t.product = objectIdText id
  · simp [List.filter_append, List.filter_cons, h]
  · simp [List.filter_append, List.filter_cons, h]

theorem findById_eq_found {db : Db} {id : String} {p : Product}
    (h : Product.findById db id = .found p) :
    db.products.find? (fun x => x._id = objectIdText id) = some p := by
  unfold Product.findById at h
  split at h
  · split at h
    · rename_i q hq
      simp only [Lookup.found.injEq] at h
      rw [hq, h]
    · simp at h
  · simp at h

/-- Two requests whose identifiers cast to the same object id read the same
product. -/
theorem findById_congr {db : Db} {id id' : String} {p p' : Product}
    (h : Product.findById db id = .found p) (h' : Product.findById db id' = .found p')
    (e : objectIdText id' = objectIdText id) : p' = p := by
  have h1 := findById_eq_found h
  have h2 := findById_eq_found h'
  rw [e, h1] at h2
  exact (Option.some.inj h2).symm

theorem findById_log (db : Db) (log : List InventoryTransaction) (id : String) :
    Product.findById { db with transactions := log } id = Product.findById db id := rfl

/-- A stock-out, or a stock-in with a JSON-number quantity, keeps the replay
of the log equal to the stock. -/
theorem handle_conserved (r : Request) (hr : r.isSignedMovement) (db : Db) (id : String)
    (h : Conserved id db) : Conserved id (handle r db).1 := by
  obtain ⟨p, hp, hs0, hsum⟩ := h
  rcases handle_shape r db with ⟨e, -⟩ | ⟨p0, f, hp0, hh, hnum, hprod, hprev, -, hin, hout, -⟩
  · rw [e]
    exact ⟨p, hp, hs0, hsum⟩
  · obtain ⟨q, hq⟩ := toNumber_of_isNumeric hnum
    -- what any validated transaction of this request records
    have key : ∀ t, InventoryTransaction.validate db.transactions.length r.now f = some t →
        t.product = objectIdText r.body.product ∧
          t.newStock = p0.currentStock + t.stockImpact ∧
          (0 ≤ p0.currentStock → 0 ≤ t.newStock) := by
      intro t ht
      have hf := validate_eq_some ht
      refine ⟨by rw [hf.2.2.2.2.2.2.1, hprod], ?_⟩
      rcases hr with hr | ⟨hr, x, hx⟩
      · obtain ⟨hty, hqty, hnew, hlt⟩ := hout hr
        have e1 : t.quantity = q := by
          have := hf.1
          rw [hqty, castNumber_of_isNumeric hnum hq] at this
          exact (NumberCast.value.inj this).symm
        have e2 : t.newStock = p0.currentStock - q := by
          have := hf.2.1
          rw [hnew, jsSub_eq (a := .number p0.currentStock) rfl hq] at this
          exact (NumberCast.value.inj this).symm
        have e3 : t.stockImpact = -q := by
          have hty' : t.type = .out := by rw [hf.2.2.2.2.2.2.2.1, hty]
          simp [InventoryTransaction.stockImpact, hty', e1]
        have hle : q ≤ p0.currentStock := by
          by_contra hcon
          have := (jsLt_iff (s := p0.currentStock) hq).mpr (not_le.mp hcon)
          rw [hlt] at this
          exact absurd this (by simp)
        refine ⟨by rw [e2, e3]; ring, fun _ => ?_⟩
        rw [e2]
        exact sub_nonneg.mpr hle
      · obtain ⟨hty, hqty, hnew⟩ := hin hr
        have e1 : t.quantity = x := by
          have := hf.1
          rw [hqty, hx] at this
          exact (NumberCast.value.inj this).symm
        have e2 : t.newStock = p0.currentStock + x := by
          have := hf.2.1
          rw [hnew, hx] at this
          exact (NumberCast.value.inj this).symm
        have e3 : t.stockImpact = x := by
          have hty' : t.type = .«in» := by rw [hf.2.2.2.2.2.2.2.1, hty]
          simp [InventoryTransaction.stockImpact, hty', e1]
        have hx0 : 0 ≤ x := by
          rw [← e1]
          exact hf.2.2.2.2.1
        refine ⟨by rw [e2, e3], fun h0 => ?_⟩
        rw [e2]
        exact add_nonneg h0 hx0
    rcases saveBoth_cases db r.now f p0 with ⟨-, e⟩ | ⟨t, ht, hneg, e⟩ | ⟨t, ht, hpos, e⟩
    · rw [hh, e]
      exact ⟨p, hp, hs0, hsum⟩
    · obtain ⟨k1, -, k3⟩ := key t ht
      rw [hh, e]
      by_cases hid : objectIdText r.body.product = objectIdText id
      · have hpp := findById_congr hp hp0 hid
        subst hpp
        exact absurd (k3 hs0) (not_le.mpr hneg)
      · refine ⟨p, by rw [findById_log]; exact hp, hs0, ?_⟩
        have hne : ¬ t.product = objectIdText id := by rw [k1]; exact hid
        simp only [impactSum_append, hne, if_false, add_zero]
        exact hsum
    · obtain ⟨k1, k2, -⟩ := key t ht
      rw [hh, e]
      by_cases hid : objectIdText r.body.product = objectIdText id
      · have hpp := findById_congr hp hp0 hid
        subst hpp
        refine ⟨{ p0 with currentStock := t.newStock }, findById_setCurrentStock_same hp,
          hpos, ?_⟩
        have hprod' : t.product = objectIdText id := by rw [k1]; exact hid
        simp only [impactSum_append, hprod', if_true, hsum]
        exact k2.symm
      · have hne : objectIdText id ≠ p0._id := by
          rw [(findById_found hp0).2.2]
          exact fun e' => hid e'.symm
        refine ⟨p, by rw [findById_setCurrentStock_other hne]; exact hp, hs0, ?_⟩
        have hne' : ¬ t.product = objectIdText id := by rw [k1]; exact hid
        simp only [impactSum_append, hne', if_false, add_zero]
        exact hsum

theorem run_conserved (reqs : List Request) (hreqs : ∀ r ∈ reqs, r.isSignedMovement)
    (db : Db) (id : String) (h : Conserved id db) : Conserved id (run reqs db) := by
  induction reqs generalizing db with
  | nil => exact h
  | cons r rs ih =>
    exact ih (fun r' hr' => hreqs r' (List.mem_cons_of_mem _ hr')) _
      (handle_conserved r (hreqs r (List.mem_cons_self _ _)) db id h)

/-- C8, as the claim states it, fails: on the product created with stock
`0` a successful adjustment to `3` leaves a current stock of `3`, while the
sum of `stockImpact` over the product's log is `0`. -/
theorem impactSum_adjustment_sample :
    ((handle (sampleRequest .adjustment 1 (.number 3)) freshDb).2.transaction?.isSome = true) ∧
    (handle (sampleRequest .adjustment 1 (.number 3)) freshDb).1.products.map
      (fun p => p.currentStock) = [3] ∧
    impactSum sampleProductId
      (handle (sampleRequest .adjustment 1 (.number 3)) freshDb).1.transactions = 0 := by
  decide!

/-- C8, amended: for a product with stock `0` and no log entries, after any
sequence of stock-out requests and of stock-in requests whose quantity is a
JSON number (on any product, successful or not), the product is still in the
store and the sum of `stockImpact` over its log entries, taken in
`transactionDate` order, is exactly its current stock. -/
theorem impactSum_eq_currentStock (reqs : List Request) (db : Db) (id : String) (p : Product)
    (hreqs : ∀ r ∈ reqs, r.isSignedMovement)
    (hp : Product.findById db id = .found p) (h0 : p.currentStock = 0)
    (hlog : transactionsOf id db.transactions = []) :
    ∃ p', Product.findById (run reqs db) id = .found p' ∧
      impactSum id (run reqs db).transactions = p'.currentStock := by
  have hc : Conserved id db := by
    refine ⟨p, hp, le_of_eq h0.symm, ?_⟩
    rw [impactSum_eq, hlog, h0]
    rfl
  obtain ⟨p', hp', -, hsum⟩ := run_conserved reqs hreqs db id hc
  exact ⟨p', hp', hsum⟩

/-- A stock-in of five, a stock-out of two sent as text, and a stock-out
beyond the stock, on the fresh sample product: the replay gives the stock. -/
theorem impactSum_eq_currentStock_sample :
    (∀ r ∈ [sampleRequest .stockIn 1 (.number 5), sampleRequest .stockOut 2 (.string "2"),
        sampleRequest .stockOut 3 (.number 9)], r.isSignedMovement) ∧
    ∃ p', Product.findById
        (run [sampleRequest .stockIn 1 (.number 5), sampleRequest .stockOut 2 (.string "2"),
          sampleRequest .stockOut 3 (.number 9)] freshDb) sampleProductId = .found p' ∧
      impactSum sampleProductId
        (run [sampleRequest .stockIn 1 (.number 5), sampleRequest .stockOut 2 (.string "2"),
          sampleRequest .stockOut 3 (.number 9)] freshDb).transactions = p'.currentStock :=
  have hreqs : ∀ r ∈ [sampleRequest .stockIn 1 (.number 5),
      sampleRequest .stockOut 2 (.string "2"), sampleRequest .stockOut 3 (.number 9)],
      r.isSignedMovement := by
    intro r hr
    simp only [List.mem_cons, List.mem_singleton, List.not_mem_nil, or_false] at hr
    rcases hr with rfl | rfl | rfl
    · exact Or.inr ⟨rfl, 5, rfl⟩
    · exact Or.inl rfl
    · exact Or.inl rfl
  ⟨hreqs, impactSum_eq_currentStock _ freshDb sampleProductId
    { sampleProduct with currentStock := 0 } hreqs (by decide!) (by decide!) (by decide!)⟩

/-! ## What a request writes -/

/-- C9: a successful stock-in, stock-out or adjustment appends exactly one
entry, the transaction of the response, to the log and leaves the earlier
entries as they were; it keeps every stored product except one with the
target identifier, of which only `currentStock` may differ; and the target
product read back is the one read before with `currentStock` equal to the
new entry's `newStock`. -/
theorem success_frame (r : Request) (db : Db) (t : InventoryTransaction)
    (hok : (handle r db).2 = .ok t) :
    (handle r db).1.transactions = db.transactions ++ [t] ∧
    (handle r db).1.products.length = db.products.length ∧
    (∀ (i : Nat) (p p' : Product), db.products[i]? = some p →
      (handle r db).1.products[i]? = some p' →
        (p._id ≠ objectIdText r.body.product → p' = p) ∧
          p' = { p with currentStock := p'.currentStock }) ∧
    ∃ p, Product.findById db r.body.product = .found p ∧
      Product.findById (handle r db).1 r.body.product =
        .found { p with currentStock := t.newStock } := by
  rcases handle_cases r db with ⟨-, hno⟩ | ⟨t', -, -, e⟩ | ⟨p, t', hp, -, -, -, e⟩
  · exact absurd hok (hno t)
  · rw [e] at hok
    exact absurd hok (by simp)
  · rw [e] at hok ⊢
    simp only [Response.ok.injEq] at hok
    subst hok
    have hframe := setCurrentStock_frame p._id t'.newStock db.products
    have hid : p._id = objectIdText r.body.product := (findById_found hp).2.2
    refine ⟨rfl, hframe.1, ?_, p, hp, findById_setCurrentStock_same hp⟩
    intro i q q' hq hq'
    have := hframe.2 i q q' hq hq'
    rw [hid] at this
    exact this

/-- A stock-in of five on the sample product. -/
theorem success_frame_sample :
    (handle (sampleRequest .stockIn 1 (.number 5)) sampleDb).2.transaction?.isSome = true ∧
    ∀ t, (handle (sampleRequest .stockIn 1 (.number 5)) sampleDb).2 = .ok t →
      (handle (sampleRequest .stockIn 1 (.number 5)) sampleDb).1.transactions =
        sampleDb.transactions ++ [t] ∧
      (handle (sampleRequest .stockIn 1 (.number 5)) sampleDb).1.products.length =
        sampleDb.products.length ∧
      (∀ (i : Nat) (p p' : Product), sampleDb.products[i]? = some p →
        (handle (sampleRequest .stockIn 1 (.number 5)) sampleDb).1.products[i]? = some p' →
          (p._id ≠ objectIdText (sampleRequest .stockIn 1 (.number 5)).body.product →
              p' = p) ∧
            p' = { p with currentStock := p'.currentStock }) ∧
      ∃ p, Product.findById sampleDb (sampleRequest .stockIn 1 (.number 5)).body.product =
          .found p ∧
        Product.findById (handle (sampleRequest .stockIn 1 (.number 5)) sampleDb).1
            (sampleRequest .stockIn 1 (.number 5)).body.product =
          .found { p with currentStock := t.newStock } :=
  ⟨by decide!, fun t ht => success_frame (sampleRequest .stockIn 1 (.number 5)) sampleDb t ht⟩

/-- C10: the adjustment route on the sample product (stock `10`) with the new
quantity `-3`: the call ends in the server error and the product keeps its
stock of `10`, but the log is not as before the call: it has gained the entry
of the adjustment (`quantity = 13`, `previousStock = 10`, `newStock = -3`), a
log entry without its balance update. -/
theorem adjustment_negative_sample :
    (handle (sampleRequest .adjustment 1 (.number (-3))) sampleDb).2 = .serverError ∧
    (handle (sampleRequest .adjustment 1 (.number (-3))) sampleDb).1.products =
      sampleDb.products ∧
    (handle (sampleRequest .adjustment 1 (.number (-3))) sampleDb).1.transactions.map
      (fun t => (t.type, t.quantity, t.previousStock, t.newStock)) =
        [(.adjustment, 13, 10, -3)] ∧
    (handle (sampleRequest .adjustment 1 (.number (-3))) sampleDb).1.transactions ≠
      sampleDb.transactions := by
  decide!

/-- Where the error endings of the routes leave the database, the errors
being those of the validators, the lookup and the schema: no product is
changed; the log is as before, or has gained one entry whose new stock is
negative, the response being the server error.  For a stock-out, a stock-in
with a JSON-number quantity, and an adjustment to a quantity that is not
negative, on a product whose stock is not negative, these errors leave the
whole database as before. -/
theorem failure_frame (r : Request) (db : Db) (herr : ∀ t, (handle r db).2 ≠ .ok t) :
    (handle r db).1.products = db.products ∧
    ((handle r db).1.transactions = db.transactions ∨
      ∃ t, (handle r db).1.transactions = db.transactions ++ [t] ∧ t.newStock < 0 ∧
        (handle r db).2 = .serverError) ∧
    ((r.isSignedMovement ∨
        (r.route = .adjustment ∧ ∃ n, r.body.quantity.toNumber = some n ∧ 0 ≤ n)) →
      (∀ p, Product.findById db r.body.product = .found p → 0 ≤ p.currentStock) →
      (handle r db).1 = db) := by
  refine ⟨?_, ?_, ?_⟩
  · rcases handle_cases r db with ⟨e, -⟩ | ⟨t, -, -, e⟩ | ⟨p, t, -, -, -, -, e⟩
    · rw [e]
    · rw [e]
    · exact absurd (by rw [e]) (herr t)
  · rcases handle_cases r db with ⟨e, -⟩ | ⟨t, hneg, -, e⟩ | ⟨p, t, -, -, -, -, e⟩
    · exact Or.inl (by rw [e])
    · exact Or.inr ⟨t, by rw [e], hneg, by rw [e]⟩
    · exact absurd (by rw [e]) (herr t)
  · intro hr hs
    rcases handle_shape r db with ⟨e, -⟩ | ⟨p0, f, hp0, hh, hnum, -, -, -, hin, hout, hadj⟩
    · exact e
    · obtain ⟨q, hq⟩ := toNumber_of_isNumeric hnum
      have hs0 := hs p0 hp0
      rcases saveBoth_cases db r.now f p0 with ⟨-, e⟩ | ⟨t, ht, hneg, -⟩ | ⟨t, -, -, e⟩
      · rw [hh, e]
      · exfalso
        have hf := validate_eq_some ht
        have hnew := hf.2.1
        have hqty := hf.1
        have hq0 := hf.2.2.2.2.1
        rcases hr with (hr | ⟨hr, x, hx⟩) | ⟨hr, n, hn, hn0⟩
        · obtain ⟨-, -, e2, hlt⟩ := hout hr
          rw [e2, jsSub_eq (a := .number p0.currentStock) rfl hq] at hnew
          have e3 := NumberCast.value.inj hnew
          have hle : q ≤ p0.currentStock := by
            by_contra hcon
            have := (jsLt_iff (s := p0.currentStock) hq).mpr (not_le.mp hcon)
            rw [hlt] at this
            exact absurd this (by simp)
          linarith
        · obtain ⟨-, e1, e2⟩ := hin hr
          rw [e2, hx] at hnew
          rw [e1, hx] at hqty
          have e3 := NumberCast.value.inj hnew
          have e4 := NumberCast.value.inj hqty
          linarith
        · obtain ⟨-, -, e2⟩ := hadj hr
          rw [e2, castNumber_of_isNumeric hnum hn] at hnew
          have e3 := NumberCast.value.inj hnew
          linarith
      · exact absurd (by rw [hh, e]) (herr t)

/-- A stock-out beyond the stock of the sample product. -/
theorem failure_frame_sample :
    (∀ t, (handle (sampleRequest .stockOut 1 (.number 11)) sampleDb).2 ≠ .ok t) ∧
    (handle (sampleRequest .stockOut 1 (.number 11)) sampleDb).1.products = sampleDb.products ∧
    ((handle (sampleRequest .stockOut 1 (.number 11)) sampleDb).1.transactions =
        sampleDb.transactions ∨
      ∃ t, (handle (sampleRequest .stockOut 1 (.number 11)) sampleDb).1.transactions =
          sampleDb.transactions ++ [t] ∧ t.newStock < 0 ∧
        (handle (sampleRequest .stockOut 1 (.number 11)) sampleDb).2 = .serverError) ∧
    (((sampleRequest .stockOut 1 (.number 11)).isSignedMovement ∨
        ((sampleRequest .stockOut 1 (.number 11)).route = .adjustment ∧
          ∃ n, (sampleRequest .stockOut 1 (.number 11)).body.quantity.toNumber = some n ∧
            0 ≤ n)) →
      (∀ p, Product.findById sampleDb (sampleRequest .stockOut 1 (.number 11)).body.product =
        .found p → 0 ≤ p.currentStock) →
      (handle (sampleRequest .stockOut 1 (.number 11)) sampleDb).1 = sampleDb) :=
  have herr : ∀ t, (handle (sampleRequest .stockOut 1 (.number 11)) sampleDb).2 ≠ .ok t := by
    intro t ht
    have h : (handle (sampleRequest .stockOut 1 (.number 11)) sampleDb).2 =
        .insufficientStock := by decide!
    rw [h] at ht
    exact absurd ht (by simp)
  ⟨herr, failure_frame (sampleRequest .stockOut 1 (.number 11)) sampleDb herr⟩

/-! ## Quantities that are zero or negative -/

/-- A request that fails its validators is answered with their messages and
writes nothing. -/
theorem handle_invalid (r : Request) (db : Db) (h : r.validationErrors ≠ []) :
    handle r db = (db, .validationErrors r.validationErrors) := by
  obtain ⟨route, now, user, body⟩ := r
  cases route <;>
    simp only [Request.validationErrors] at h <;>
    simp [handle, stockIn, stockOut, adjustment, Request.validationErrors, h]

/-- The shared save steps reject a quantity that casts to a negative number,
before anything is written. -/
theorem saveBoth_negative_quantity (db : Db) (now : Nat) (f : TransactionFields)
    (p : Product) {q : ℚ} (hq : castNumber f.quantity = .value q) (hneg : q < 0) :
    saveBoth db now f p f.newStock = (db, .serverError) := by
  rcases saveBoth_cases db now f p with ⟨-, e⟩ | ⟨t, ht, -, -⟩ | ⟨t, ht, -, -⟩
  · exact e
  · have hf := validate_eq_some ht
    have e1 := hf.1
    rw [hq] at e1
    have e2 := NumberCast.value.inj e1
    have := hf.2.2.2.2.1
    linarith
  · have hf := validate_eq_some ht
    have e1 := hf.1
    rw [hq] at e1
    have e2 := NumberCast.value.inj e1
    have := hf.2.2.2.2.1
    linarith

/-- C11, as the claim states it, fails: a stock-in and a stock-out of the
quantity `0` on the sample product pass validation, succeed and record a
transaction of quantity `0`; and a stock-in of `-5` passes validation and is
answered with the server error, not with validation messages. -/
theorem quantity_zero_accepted_sample :
    validateStockFields (sampleRequest .stockIn 1 (.number 0)).body = [] ∧
    ((handle (sampleRequest .stockIn 1 (.number 0)) sampleDb).2.transaction?.map
      (fun t => (t.type, t.quantity, t.previousStock, t.newStock))) =
        some (.«in», 0, 10, 10) ∧
    (handle (sampleRequest .stockIn 1 (.number 0)) sampleDb).1.transactions.length = 1 ∧
    ((handle (sampleRequest .stockOut 1 (.number 0)) sampleDb).2.transaction?.map
      (fun t => (t.type, t.quantity, t.previousStock, t.newStock))) =
        some (.out, 0, 10, 10) ∧
    validateStockFields (sampleRequest .stockIn 1 (.number (-5))).body = [] ∧
    handle (sampleRequest .stockIn 1 (.number (-5))) sampleDb = (sampleDb, .serverError) := by
  decide!

/-- C11, amended: a stock-in or stock-out whose quantity has a negative
numeric value writes nothing and does not succeed.  When the request passes
validation and its product exists, the rejection is the server error, raised
when the transaction schema (quantity minimum `0`) refuses the transaction,
or, for a stock-out on a stock below the quantity, the insufficient-stock
error. -/
theorem negative_quantity_rejected (r : Request) (db : Db) (q : ℚ)
    (hroute : r.route = .stockIn ∨ r.route = .stockOut)
    (hq : r.body.quantity.toNumber = some q) (hneg : q < 0) :
    (handle r db).1 = db ∧ (∀ t, (handle r db).2 ≠ .ok t) ∧
    (r.validationErrors = [] → ∀ p, Product.findById db r.body.product = .found p →
      (handle r db).2 = .serverError ∨
        ((handle r db).2 = .insufficientStock ∧ r.route = .stockOut ∧ p.currentStock < q)) := by
  have main : ((handle r db).1 = db ∧ ∀ t, (handle r db).2 ≠ .ok t) ∧
      (r.validationErrors = [] → ∀ p, Product.findById db r.body.product = .found p →
        (handle r db).2 = .serverError ∨
          ((handle r db).2 = .insufficientStock ∧ r.route = .stockOut ∧
            p.currentStock < q)) := by
    obtain ⟨route, now, user, body⟩ := r
    simp only at hq hroute
    rcases hroute with rfl | rfl
    · by_cases hv : validateStockFields body = []
      · have hnum := (validateStockFields_eq_nil hv).2.1
        have hcast := castNumber_of_isNumeric hnum hq
        cases hp : Product.findById db body.product with
        | castError =>
          exact ⟨by simp [handle, stockIn, hv, hp], fun _ p hp' => by simp at hp'⟩
        | missing =>
          exact ⟨by simp [handle, stockIn, hv, hp], fun _ p hp' => by simp at hp'⟩
        | found p =>
          have e : handle ⟨.stockIn, now, user, body⟩ db = (db, .serverError) := by
            show stockIn now user body db = _
            rw [stockIn_found hv hp]
            exact saveBoth_negative_quantity db now _ p hcast hneg
          exact ⟨by rw [e]; exact ⟨rfl, by simp⟩, fun _ _ _ => Or.inl (by rw [e])⟩
      · have e := handle_invalid ⟨.stockIn, now, user, body⟩ db hv
        exact ⟨by rw [e]; exact ⟨rfl, by simp⟩, fun h => absurd h hv⟩
    · by_cases hv : validateStockFields body = []
      · have hnum := (validateStockFields_eq_nil hv).2.1
        have hcast := castNumber_of_isNumeric hnum hq
        cases hp : Product.findById db body.product with
        | castError =>
          exact ⟨by simp [handle, stockOut, hv, hp], fun _ p hp' => by simp at hp'⟩
        | missing =>
          exact ⟨by simp [handle, stockOut, hv, hp], fun _ p hp' => by simp at hp'⟩
        | found p =>
          cases hs : jsLt p.currentStock body.quantity with
          | true =>
            have e : handle ⟨.stockOut, now, user, body⟩ db = (db, .insufficientStock) :=
              stockOut_insufficient hv hp hs
            refine ⟨by rw [e]; exact ⟨rfl, by simp⟩, fun _ p' hp' => Or.inr ?_⟩
            simp only [Lookup.found.injEq] at hp'
            subst hp'
            exact ⟨by rw [e], rfl, (jsLt_iff hq).mp hs⟩
          | false =>
            have e : handle ⟨.stockOut, now, user, body⟩ db = (db, .serverError) := by
              show stockOut now user body db = _
              rw [stockOut_found hv hp hs]
              exact saveBoth_negative_quantity db now _ p hcast hneg
            exact ⟨by rw [e]; exact ⟨rfl, by simp⟩, fun _ _ _ => Or.inl (by rw [e])⟩
      · have e := handle_invalid ⟨.stockOut, now, user, body⟩ db hv
        exact ⟨by rw [e]; exact ⟨rfl, by simp⟩, fun h => absurd h hv⟩
  exact ⟨main.1.1, main.1.2, main.2⟩

/-- A stock-out of `-4`, sent as text, on the sample product. -/
theorem negative_quantity_rejected_sample :
    (sampleRequest .stockOut 1 (.string "-4")).body.quantity.toNumber = some (-4) ∧
    (handle (sampleRequest .stockOut 1 (.string "-4")) sampleDb).1 = sampleDb ∧
    (∀ t, (handle (sampleRequest .stockOut 1 (.string "-4")) sampleDb).2 ≠ .ok t) ∧
    ((sampleRequest .stockOut 1 (.string "-4")).validationErrors = [] →
      ∀ p, Product.findById sampleDb (sampleRequest .stockOut 1 (.string "-4")).body.product =
          .found p →
        (handle (sampleRequest .stockOut 1 (.string "-4")) sampleDb).2 = .serverError ∨
          ((handle (sampleRequest .stockOut 1 (.string "-4")) sampleDb).2 =
              .insufficientStock ∧
            (sampleRequest .stockOut 1 (.string "-4")).route = .stockOut ∧
            p.currentStock < -4)) :=
  ⟨by decide!,
    negative_quantity_rejected (sampleRequest .stockOut 1 (.string "-4")) sampleDb (-4)
      (Or.inr rfl) (by decide!) (by decide!)⟩

/-! ## Negative adjustments, missing products and inactive products -/

/-- C12: the adjustment route on the sample product (stock `10`) with the new
quantity `-1`: the request passes validation and ends in the server error,
the product keeps its stock, and the log has gained a completed adjustment
entry with quantity `11`, previous stock `10` and new stock `-1`. -/
theorem adjustment_negative_recorded_sample :
    validateAdjustmentFields (sampleRequest .adjustment 1 (.number (-1))).body = [] ∧
    (adjustment 1 sampleUserId (sampleRequest .adjustment 1 (.number (-1))).body sampleDb).2 =
      .serverError ∧
    (adjustment 1 sampleUserId (sampleRequest .adjustment 1 (.number (-1))).body
      sampleDb).1.products = sampleDb.products ∧
    (adjustment 1 sampleUserId (sampleRequest .adjustment 1 (.number (-1))).body
      sampleDb).1.transactions.map
        (fun t => (t.type, t.status, t.quantity, t.previousStock, t.newStock)) =
      [(.adjustment, .completed, 11, 10, -1)] := by
  decide!

/-- C13: when the product lookup of a stock-in, stock-out or adjustment finds
no product, nothing is written: the log and every product are as before; the
response is the not-found error when the request passes its validators, and
the validator messages otherwise. -/
theorem missing_product_notFound (r : Request) (db : Db)
    (hm : Product.findById db r.body.product = .missing) :
    (handle r db).1 = db ∧
    (r.validationErrors = [] → (handle r db).2 = .notFound) ∧
    (r.validationErrors ≠ [] → (handle r db).2 = .validationErrors r.validationErrors) := by
  refine ⟨?_, ?_, fun h => by rw [handle_invalid r db h]⟩
  · by_cases hv : r.validationErrors = []
    · obtain ⟨route, now, user, body⟩ := r
      cases route <;>
        simp only [Request.validationErrors] at hv <;>
        simp [handle, stockIn, stockOut, adjustment, hv, hm]
    · rw [handle_invalid r db hv]
  · intro hv
    obtain ⟨route, now, user, body⟩ := r
    cases route <;>
      simp only [Request.validationErrors] at hv <;>
      simp [handle, stockIn, stockOut, adjustment, hv, hm]

/-- A stock-in for the sample user's identifier, which is no product of the
sample database. -/
theorem missing_product_notFound_sample :
    missingProductRequest.validationErrors = [] ∧
    Product.findById sampleDb missingProductRequest.body.product = .missing ∧
    (handle missingProductRequest sampleDb).1 = sampleDb ∧
    (missingProductRequest.validationErrors = [] →
      (handle missingProductRequest sampleDb).2 = .notFound) ∧
    (missingProductRequest.validationErrors ≠ [] →
      (handle missingProductRequest sampleDb).2 =
        .validationErrors missingProductRequest.validationErrors) :=
  ⟨by decide!, by decide!,
    missing_product_notFound missingProductRequest sampleDb (by decide!)⟩

/-! ## The routes do not read `isActive` -/

theorem findById_activateAll (db : Db) (id : String) :
    Product.findById (activateAll db) id =
      match Product.findById db id with
      | .found p => .found { p with isActive := true }
      | .missing => .missing
      | .castError => .castError := by
  unfold Product.findById activateAll
  by_cases hid : isObjectId id = true
  · simp only [hid, if_true, List.find?_map]
    have hcomp : ((fun p : Product => decide (p._id = objectIdText id)) ∘
        fun p : Product => { p with isActive := true }) =
        fun p : Product => decide (p._id = objectIdText id) := rfl
    rw [hcomp]
    cases db.products.find? (fun p => decide (p._id = objectIdText id)) <;> rfl
  · simp [hid]

theorem setCurrentStock_activate (id : String) (v : ℚ) (ps : List Product) :
    setCurrentStock id v (ps.map (fun p => { p with isActive := true })) =
      (setCurrentStock id v ps).map (fun p => { p with isActive := true }) := by
  induction ps with
  | nil => rfl
  | cons a ps ih =>
    by_cases ha : a._id = id
    · simp only [List.map_cons, setCurrentStock, ha, if_true]
    · simp only [List.map_cons, setCurrentStock, ha, if_false, ih]

theorem saveBoth_activateAll (db : Db) (now : Nat) (f : TransactionFields) (p : Product)
    (newStock : JsValue) :
    saveBoth (activateAll db) now f { p with isActive := true } newStock =
      (activateAll (saveBoth db now f p newStock).1, (saveBoth db now f p newStock).2) := by
  have hlog : (activateAll db).transactions = db.transactions := rfl
  cases hval : InventoryTransaction.validate db.transactions.length now f with
  | none => simp only [saveBoth, InventoryTransaction.save, hlog, hval]
  | some t =>
    cases hc : castNumber newStock with
    | castError =>
      simp only [saveBoth, InventoryTransaction.save, hlog, hval, Product.saveCurrentStock, hc]
      rfl
    | null =>
      simp only [saveBoth, InventoryTransaction.save, hlog, hval, Product.saveCurrentStock, hc]
      rfl
    | value v =>
      by_cases hv : v < 0
      · simp only [saveBoth, InventoryTransaction.save, hlog, hval, Product.saveCurrentStock,
          hc, hv, if_true]
        rfl
      · simp only [saveBoth, InventoryTransaction.save, hlog, hval, Product.saveCurrentStock,
          hc, hv, if_false]
        simp only [activateAll, setCurrentStock_activate]

/-- The response of a request and what it writes do not depend on the
`isActive` flags of the stored products. -/
theorem handle_activateAll (r : Request) (db : Db) :
    handle r (activateAll db) = (activateAll (handle r db).1, (handle r db).2) := by
  obtain ⟨route, now, user, body⟩ := r
  have hlook := findById_activateAll db body.product
  cases route with
  | stockIn =>
    by_cases hv : validateStockFields body = []
    · cases hp : Product.findById db body.product with
      | castError =>
        rw [hp] at hlook
        simp [handle, stockIn, hv, hp, hlook]
      | missing =>
        rw [hp] at hlook
        simp [handle, stockIn, hv, hp, hlook]
      | found p =>
        rw [hp] at hlook
        show stockIn now user body (activateAll db) =
          (activateAll (stockIn now user body db).1, (stockIn now user body db).2)
        rw [stockIn_found hv hlook, stockIn_found hv hp]
        exact saveBoth_activateAll db now _ p _
    · simp [handle, stockIn, hv]
  | stockOut =>
    by_cases hv : validateStockFields body = []
    · cases hp : Product.findById db body.product with
      | castError =>
        rw [hp] at hlook
        simp [handle, stockOut, hv, hp, hlook]
      | missing =>
        rw [hp] at hlook
        simp [handle, stockOut, hv, hp, hlook]
      | found p =>
        rw [hp] at hlook
        show stockOut now user body (activateAll db) =
          (activateAll (stockOut now user body db).1, (stockOut now user body db).2)
        cases hs : jsLt p.currentStock body.quantity with
        | true =>
          rw [stockOut_insufficient hv hlook hs, stockOut_insufficient hv hp hs]
        | false =>
          rw [stockOut_found hv hlook hs, stockOut_found hv hp hs]
          exact saveBoth_activateAll db now _ p _
    · simp [handle, stockOut, hv]
  | adjustment =>
    by_cases hv : validateAdjustmentFields body = []
    · cases hp : Product.findById db body.product with
      | castError =>
        rw [hp] at hlook
        simp [handle, adjustment, hv, hp, hlook]
      | missing =>
        rw [hp] at hlook
        simp [handle, adjustment, hv, hp, hlook]
      | found p =>
        rw [hp] at hlook
        show adjustment now user body (activateAll db) =
          (activateAll (adjustment now user body db).1, (adjustment now user body db).2)
        rw [adjustment_found hv hlook, adjustment_found hv hp]
        exact saveBoth_activateAll db now _ p _
    · simp [handle, adjustment, hv]

theorem setCurrentStock_isActive (id : String) (v : ℚ) (ps : List Product) :
    (setCurrentStock id v ps).map (fun p => p.isActive) = ps.map (fun p => p.isActive) := by
  induction ps with
  | nil => rfl
  | cons a ps ih =>
    by_cases ha : a._id = id
    · simp only [setCurrentStock, ha, if_true, List.map_cons]
    · simp only [setCurrentStock, ha, if_false, List.map_cons, ih]

/-- C14, as the claim states it, fails: a stock-in of five on the
soft-deleted sample product (`isActive = false`, stock `10`) succeeds, adds a
log entry and sets the stock to `15`. -/
theorem inactive_product_stockIn_sample :
    inactiveDb.products.map (fun p => (p.isActive, p.currentStock)) = [(false, 10)] ∧
    ((handle (sampleRequest .stockIn 1 (.number 5)) inactiveDb).2.transaction?.map
      (fun t => (t.previousStock, t.newStock))) = some (10, 15) ∧
    (handle (sampleRequest .stockIn 1 (.number 5)) inactiveDb).1.products.map
      (fun p => (p.isActive, p.currentStock)) = [(false, 15)] ∧
    (handle (sampleRequest .stockIn 1 (.number 5)) inactiveDb).1.transactions.length = 1 := by
  decide!

/-- C14, amended: stock-in, stock-out and adjustment never read `isActive`.
On a database in which the referenced product is inactive each of them
answers as it does on the same database with every product active (so it
does not fail with the not-found error when the product exists), writes the
same log entries and the same stock values, and leaves every `isActive` flag
as it was. -/
theorem isActive_not_consulted (r : Request) (db : Db) :
    (handle r (activateAll db)).2 = (handle r db).2 ∧
    (handle r (activateAll db)).1 = activateAll (handle r db).1 ∧
    (handle r db).1.products.map (fun p => p.isActive) =
      db.products.map (fun p => p.isActive) := by
  refine ⟨by rw [handle_activateAll], by rw [handle_activateAll], ?_⟩
  rcases handle_cases r db with ⟨e, -⟩ | ⟨t, -, -, e⟩ | ⟨p, t, -, -, -, -, e⟩
  · rw [e]
  · rw [e]
  · rw [e]
    exact setCurrentStock_isActive _ _ _

/-! ## The stock status -/

/-- C15: the stock status of the sample product with stock `10`, minimum
level `5` and a maximum level set to `0`: the product is above its minimum
and at or above its maximum, yet its status is `normal`, not `high`. -/
theorem stockStatus_max_zero_sample :
    (0 : ℚ) ≤ ({ sampleProduct with maxStockLevel := some 0 } : Product).minStockLevel ∧
    ({ sampleProduct with maxStockLevel := some 0 } : Product).maxStockLevel = some 0 ∧
    ¬ ({ sampleProduct with maxStockLevel := some 0 } : Product).currentStock ≤
      ({ sampleProduct with maxStockLevel := some 0 } : Product).minStockLevel ∧
    (0 : ℚ) ≤ ({ sampleProduct with maxStockLevel := some 0 } : Product).currentStock ∧
    ({ sampleProduct with maxStockLevel := some 0 } : Product).stockStatus = .normal := by
  decide!

/-- The stock status is `low` when the current stock is at or below the
minimum level; otherwise `high` when a maximum level is set, is not zero, and
the current stock is at or above it; otherwise `normal`: the truthiness test
of the virtual takes a maximum level of `0` for one that is not set. -/
theorem stockStatus_eq (p : Product) :
    p.stockStatus =
      if p.currentStock ≤ p.minStockLevel then .low
      else match p.maxStockLevel with
        | some m => if m ≠ 0 ∧ m ≤ p.currentStock then .high else .normal
        | none => .normal := by
  unfold Product.stockStatus
  by_cases h : p.currentStock ≤ p.minStockLevel
  · simp only [h, if_true]
  · simp only [h, if_false]
    cases hm : p.maxStockLevel with
    | none => simp [numberTruthy]
    | some m =>
      by_cases h0 : m = 0
      · simp [numberTruthy, geOptional, h0]
      · by_cases hle : m ≤ p.currentStock
        · simp [numberTruthy, geOptional, h0, hle]
        · simp [numberTruthy, geOptional, h0, hle]

/-- A product whose stock is zero has the status `low` when its minimum
level is not negative. -/
theorem stockStatus_low_of_zero {p : Product} (h : p.currentStock = 0)
    (hmin : 0 ≤ p.minStockLevel) : p.stockStatus = .low := by
  unfold Product.stockStatus
  rw [h]
  simp [hmin]

/-- C16: for a product with stock `s > 0` and a minimum level that is not
negative, a validated stock-out whose quantity has the numeric value `s`, with
fields the schema accepts, succeeds; its transaction records
`previousStock = s`, `newStock = 0` and a stock impact of `-s`; and the
product read back afterwards has stock `0` and the status `low`. -/
theorem stockOut_all_low (now : Nat) (user : String) (body : Body) (db : Db) (p : Product)
    (hv : validateStockFields body = [])
    (hp : Product.findById db body.product = .found p)
    (hq : body.quantity.toNumber = some p.currentStock) (hpos : 0 < p.currentStock)
    (hmin : 0 ≤ p.minStockLevel) (hside : SideFieldsValid user body) :
    ∃ t p', (stockOut now user body db).2 = .ok t ∧
      t.previousStock = p.currentStock ∧ t.newStock = 0 ∧ t.stockImpact = -p.currentStock ∧
      Product.findById (stockOut now user body db).1 body.product = .found p' ∧
      p'.currentStock = 0 ∧ p'.stockStatus = .low := by
  obtain ⟨t, e, hty, -, -, hprev, hnew, hqty⟩ :=
    stockOut_succeeds now hv hp hq (le_of_lt hpos) (le_refl _) hside
  refine ⟨t, { p with currentStock := p.currentStock - p.currentStock }, by rw [e], hprev,
    by rw [hnew, sub_self], ?_, ?_, sub_self _, ?_⟩
  · simp [InventoryTransaction.stockImpact, hty, hqty]
  · rw [e]
    exact findById_setCurrentStock_same hp
  · exact stockStatus_low_of_zero (sub_self _) hmin

/-- Scenario A: a stock-out of ten from the sample product with ten pieces
and a minimum level of five. -/
theorem stockOut_all_low_sample :
    ((stockOut 1 sampleUserId (sampleRequest .stockOut 1 (.number 10)).body
        sampleDb).2.transaction?.map
      (fun t => (t.previousStock, t.newStock, t.stockImpact))) = some (10, 0, -10) ∧
    ∃ t p', (stockOut 1 sampleUserId (sampleRequest .stockOut 1 (.number 10)).body
        sampleDb).2 = .ok t ∧
      t.previousStock = sampleProduct.currentStock ∧ t.newStock = 0 ∧
      t.stockImpact = -sampleProduct.currentStock ∧
      Product.findById
        (stockOut 1 sampleUserId (sampleRequest .stockOut 1 (.number 10)).body sampleDb).1
        (sampleRequest .stockOut 1 (.number 10)).body.product = .found p' ∧
      p'.currentStock = 0 ∧ p'.stockStatus = .low :=
  ⟨by decide!,
    stockOut_all_low 1 sampleUserId (sampleRequest .stockOut 1 (.number 10)).body sampleDb
      sampleProduct (by decide!) (by decide!) (by decide!) (by decide!) (by decide!)
      ⟨⟨none, by decide!⟩, by decide!, by decide!, by decide!⟩⟩

/-! ## The total value of a movement -/

/-- The transaction of a successful stock-in or stock-out is the validated
form of fields whose unit price is the one of the body and whose total value
is the product the route computes, or the number `0` for a falsy unit
price. -/
theorem movement_ok_fields (r : Request) (db : Db) (t : InventoryTransaction)
    (hroute : r.route ≠ .adjustment) (hok : (handle r db).2 = .ok t) :
    ∃ f, InventoryTransaction.validate db.transactions.length r.now f = some t ∧
      f.quantity = r.body.quantity ∧ f.unitPrice = r.body.unitPrice ∧
      f.totalValue =
        (if r.body.unitPrice.truthy then jsMul r.body.quantity r.body.unitPrice
          else .number 0) ∧
      isNumeric r.body.quantity.toText = true := by
  obtain ⟨route, now, user, body⟩ := r
  have fromSave : ∀ (f : TransactionFields) (p : Product),
      (saveBoth db now f p f.newStock).2 = .ok t →
      InventoryTransaction.validate db.transactions.length now f = some t := by
    intro f p h
    rcases saveBoth_cases db now f p with ⟨-, e⟩ | ⟨t', -, -, e⟩ | ⟨t', ht', -, e⟩
    · rw [e] at h
      exact absurd h (by simp)
    · rw [e] at h
      exact absurd h (by simp)
    · rw [e] at h
      simp only [Response.ok.injEq] at h
      rw [ht', h]
  cases route with
  | adjustment => exact absurd rfl hroute
  | stockIn =>
    by_cases hv : validateStockFields body = []
    · cases hp : Product.findById db body.product with
      | castError => simp [handle, stockIn, hv, hp] at hok
      | missing => simp [handle, stockIn, hv, hp] at hok
      | found p =>
        have hok' : (stockIn now user body db).2 = .ok t := hok
        rw [stockIn_found hv hp] at hok'
        exact ⟨_, fromSave _ p hok', rfl, rfl, rfl, (validateStockFields_eq_nil hv).2.1⟩
    · simp [handle, stockIn, hv] at hok
  | stockOut =>
    by_cases hv : validateStockFields body = []
    · cases hp : Product.findById db body.product with
      | castError => simp [handle, stockOut, hv, hp] at hok
      | missing => simp [handle, stockOut, hv, hp] at hok
      | found p =>
        cases hs : jsLt p.currentStock body.quantity with
        | true => simp [handle, stockOut, hv, hp, hs] at hok
        | false =>
          have hok' : (stockOut now user body db).2 = .ok t := hok
          rw [stockOut_found hv hp hs] at hok'
          exact ⟨_, fromSave _ p hok', rfl, rfl, rfl, (validateStockFields_eq_nil hv).2.1⟩
    · simp [handle, stockOut, hv] at hok

theorem castOptionalMin0_number_eq {x : ℚ} {w : Option ℚ}
    (h : castOptionalMin0 (.number x) = some w) : w = some x ∧ 0 ≤ x := by
  by_cases hx : x < 0
  · simp [castOptionalMin0, castNumber, hx] at h
  · simp only [castOptionalMin0, castNumber, hx, if_false, Option.some.injEq] at h
    exact ⟨h.symm, not_lt.mp hx⟩

/-- A falsy value that converts to a number converts to zero. -/
theorem toNumber_of_not_truthy {v : JsValue} {u : ℚ} (ht : v.truthy = false)
    (hu : v.toNumber = some u) : u = 0 := by
  cases v with
  | undefined => simp [JsValue.toNumber] at hu
  | nan => simp [JsValue.toNumber] at hu
  | number x =>
    simp only [JsValue.toNumber, Option.some.injEq] at hu
    simp only [JsValue.truthy, bne_eq_false_iff_eq] at ht
    rw [← hu, ht]
  | string s =>
    simp only [JsValue.truthy, bne_eq_false_iff_eq] at ht
    subst ht
    have h0 : stringToNumber "" = some 0 := by decide!
    simp only [JsValue.toNumber, h0, Option.some.injEq] at hu
    exact hu.symm

/-- C17: the transaction of a successful stock-in or stock-out, whose
quantity has the numeric value `q`, records a total value of `0` when the
body carries no unit price and of `q * u` when it carries a unit price of
numeric value `u`; the recorded total value is never negative. -/
theorem totalValue_recorded (r : Request) (db : Db) (t : InventoryTransaction) (q : ℚ)
    (hroute : r.route ≠ .adjustment) (hok : (handle r db).2 = .ok t)
    (hq : r.body.quantity.toNumber = some q) :
    (r.body.unitPrice = .undefined → t.totalValue = some 0) ∧
    (∀ u, r.body.unitPrice.toNumber = some u → t.totalValue = some (q * u)) ∧
    (∃ v, t.totalValue = some v ∧ 0 ≤ v) ∧ 0 ≤ q ∧ t.quantity = q := by
  obtain ⟨f, hval, hfq, -, hftv, hnum⟩ := movement_ok_fields r db t hroute hok
  have hf := validate_eq_some hval
  have htv := hf.2.2.2.1
  rw [hftv] at htv
  have hqty : t.quantity = q := by
    have := hf.1
    rw [hfq, castNumber_of_isNumeric hnum hq] at this
    exact (NumberCast.value.inj this).symm
  have hq0 : 0 ≤ q := by
    rw [← hqty]
    exact hf.2.2.2.2.1
  cases ht : r.body.unitPrice.truthy with
  | false =>
    simp only [ht, Bool.false_eq_true, if_false] at htv
    have h0 := (castOptionalMin0_number_eq htv).1
    refine ⟨fun _ => h0, fun u hu => ?_, ⟨0, h0, le_refl 0⟩, hq0, hqty⟩
    rw [toNumber_of_not_truthy ht hu, mul_zero]
    exact h0
  | true =>
    simp only [ht, if_true] at htv
    cases hu : r.body.unitPrice.toNumber with
    | none =>
      simp [jsMul, hq, hu, castOptionalMin0, castNumber] at htv
    | some u =>
      rw [jsMul_eq hq hu] at htv
      obtain ⟨h1, h2⟩ := castOptionalMin0_number_eq htv
      refine ⟨fun hund => ?_, fun u' hu' => ?_, ⟨q * u, h1, h2⟩, hq0, hqty⟩
      · rw [hund] at ht
        exact absurd ht (by decide)
      · rw [h1, ← Option.some.inj hu']

/-- Scenario D: a stock-in of five at a unit price of `2.50` on the sample
product records a total value of `12.50` and a new stock of `15`. -/
theorem totalValue_recorded_sample :
    ((handle pricedStockIn sampleDb).2.transaction?.map
      (fun t => (t.totalValue, t.previousStock, t.newStock))) =
        some (some (25 / 2), 10, 15) ∧
    ∀ t, (handle pricedStockIn sampleDb).2 = .ok t →
      (pricedStockIn.body.unitPrice = .undefined → t.totalValue = some 0) ∧
      (∀ u, pricedStockIn.body.unitPrice.toNumber = some u → t.totalValue = some (5 * u)) ∧
      (∃ v, t.totalValue = some v ∧ 0 ≤ v) ∧ (0 : ℚ) ≤ 5 ∧ t.quantity = 5 :=
  ⟨by decide!, fun t ht =>
    totalValue_recorded pricedStockIn sampleDb t 5 (by decide) ht (by decide!)⟩

/-! ## Two decimals -/

theorem rat_floor_eq (y : ℚ) : Rat.floor y = ⌊y⌋ := rfl

/-- The rounding of `toFixed` is to a nearest integer. -/
theorem roundHalfUp_near {y : ℚ} (hy : 0 ≤ y) :
    |((roundHalfUp y : Nat) : ℚ) - y| ≤ 1 / 2 := by
  unfold roundHalfUp
  rw [rat_floor_eq]
  have h0 : 0 ≤ ⌊y + 1 / 2⌋ := Int.floor_nonneg.mpr (by linarith)
  have hcast : (((⌊y + 1 / 2⌋).toNat : Nat) : ℚ) = ((⌊y + 1 / 2⌋ : ℤ) : ℚ) := by
    have := Int.toNat_of_nonneg h0
    exact_mod_cast congrArg (fun z : ℤ => (z : ℚ)) this
  rw [hcast]
  have h1 := Int.floor_le (y + 1 / 2)
  have h2 := Int.lt_floor_add_one (y + 1 / 2)
  rw [abs_le]
  constructor <;> linarith

/-- C18, as the claim states it, fails: for the sample product with its cost
price set to `0` the profit margin is the number `0`, not an absent value. -/
theorem profitMargin_zero_cost_sample :
    ({ sampleProduct with costPrice := 0 } : Product).profitMargin = .number 0 ∧
    ({ sampleProduct with costPrice := 0 } : Product).profitMargin ≠ .undefined := by
  decide!

/-- C18, amended: for a product with a positive cost price the profit margin
is the text `toFixed` gives for `(sellingPrice - costPrice) / costPrice * 100`
with two decimals, which below `10 ^ 21` is the sign followed by the digits
of the nearest number of hundredths (within half a hundredth of the exact
magnitude); for a product with cost price `0` the profit margin is the
number `0`. -/
theorem profitMargin_eq (p : Product) :
    (0 < p.costPrice →
      p.profitMargin =
        .string (toFixed ((p.sellingPrice - p.costPrice) / p.costPrice * 100) 2) ∧
      (|(p.sellingPrice - p.costPrice) / p.costPrice * 100| < (10 : ℚ) ^ 21 →
        ∃ n : Nat,
          toFixed ((p.sellingPrice - p.costPrice) / p.costPrice * 100) 2 =
            String.mk ((if (p.sellingPrice - p.costPrice) / p.costPrice * 100 < 0
              then ['-'] else []) ++ fixedDigits n 2) ∧
          |(n : ℚ) / 100 - abs ((p.sellingPrice - p.costPrice) / p.costPrice * 100)| ≤ 1 / 200)) ∧
    (p.costPrice = 0 → p.profitMargin = .number 0) := by
  refine ⟨fun hc => ⟨by simp [Product.profitMargin, hc], fun hlt => ?_⟩, fun hc => ?_⟩
  · generalize (p.sellingPrice - p.costPrice) / p.costPrice * 100 = x at hlt ⊢
    refine ⟨roundHalfUp (|x| * (10 : ℚ) ^ 2), ?_, ?_⟩
    · simp only [toFixed, not_le.mpr hlt, if_false]
    · have h := roundHalfUp_near (y := |x| * (10 : ℚ) ^ 2) (by positivity)
      rw [abs_le] at h ⊢
      constructor <;> linarith [h.1, h.2]
  · simp [Product.profitMargin, hc]

/-- The sample product (cost `2`, selling price `3`) has the margin
`"50.00"`. -/
theorem profitMargin_eq_sample :
    sampleProduct.profitMargin = .string "50.00" ∧
    ((0 < sampleProduct.costPrice →
      sampleProduct.profitMargin =
        .string (toFixed
          ((sampleProduct.sellingPrice - sampleProduct.costPrice) / sampleProduct.costPrice *
            100) 2) ∧
      (|(sampleProduct.sellingPrice - sampleProduct.costPrice) / sampleProduct.costPrice *
          100| < (10 : ℚ) ^ 21 →
        ∃ n : Nat,
          toFixed
            ((sampleProduct.sellingPrice - sampleProduct.costPrice) / sampleProduct.costPrice *
              100) 2 =
            String.mk ((if (sampleProduct.sellingPrice - sampleProduct.costPrice) /
                sampleProduct.costPrice * 100 < 0
              then ['-'] else []) ++ fixedDigits n 2) ∧
          |(n : ℚ) / 100 -
            abs ((sampleProduct.sellingPrice - sampleProduct.costPrice) /
              sampleProduct.costPrice * 100)| ≤ 1 / 200)) ∧
    (sampleProduct.costPrice = 0 → sampleProduct.profitMargin = .number 0)) :=
  ⟨by decide!, profitMargin_eq sampleProduct⟩

/-! ## The summary report and the dashboard -/

/-- The value of the stock of a list of products. -/
theorem foldl_stockValue (ps : List Product) (acc : ℚ) :
    ps.foldl (fun sum product => sum + product.currentStock * product.costPrice) acc =
      acc + (ps.map (fun p => p.currentStock * p.costPrice)).sum := by
  induction ps generalizing acc with
  | nil => simp
  | cons a ps ih => simp [List.foldl_cons, ih, add_assoc]

theorem summaryStep_totalValue (s : SummaryState) (p : Product) :
    (summaryStep s p).totalValue = s.totalValue + p.currentStock * p.costPrice := by
  unfold summaryStep
  simp only
  split <;> split <;> split <;> split <;> rfl

theorem summaryStep_totalProducts (s : SummaryState) (p : Product) :
    (summaryStep s p).totalProducts = s.totalProducts := by
  unfold summaryStep
  simp only
  split <;> split <;> split <;> split <;> rfl

theorem foldl_summaryStep_totalValue (ps : List Product) (s : SummaryState) :
    (ps.foldl summaryStep s).totalValue =
      s.totalValue + (ps.map (fun p => p.currentStock * p.costPrice)).sum := by
  induction ps generalizing s with
  | nil => simp
  | cons a ps ih => simp [List.foldl_cons, ih, summaryStep_totalValue, add_assoc]

theorem foldl_summaryStep_totalProducts (ps : List Product) (s : SummaryState) :
    (ps.foldl summaryStep s).totalProducts = s.totalProducts := by
  induction ps generalizing s with
  | nil => rfl
  | cons a ps ih => rw [List.foldl_cons, ih, summaryStep_totalProducts]

/-- C19: the inventory summary report and the dashboard both report, as
`totalValue`, the text with two decimals of the sum over the active products
of `currentStock * costPrice`, and both count the active products; when no
product is active the report is all zero counts, empty breakdowns and the
total `"0.00"`, and the dashboard has zero counts and the total `"0.00"`. -/
theorem totalValue_reports (db : Db) :
    (inventorySummary db).totalValue =
      toFixed (((Product.findActive db).map (fun p => p.currentStock * p.costPrice)).sum) 2 ∧
    (dashboard db).totalValue =
      toFixed (((Product.findActive db).map (fun p => p.currentStock * p.costPrice)).sum) 2 ∧
    (inventorySummary db).totalProducts = (Product.findActive db).length ∧
    (dashboard db).totalProducts = (Product.findActive db).length ∧
    (Product.findActive db = [] →
      inventorySummary db =
          { totalProducts := 0, totalValue := "0.00", lowStockCount := 0, outOfStockCount := 0,
            categoryBreakdown := [], supplierBreakdown := [] } ∧
        (dashboard db).totalProducts = 0 ∧ (dashboard db).lowStockCount = 0 ∧
        (dashboard db).outOfStockCount = 0 ∧ (dashboard db).totalValue = "0.00") := by
  have hz : toFixed 0 2 = "0.00" := by decide!
  refine ⟨?_, ?_, ?_, ?_, fun hempty => ?_⟩
  · simp only [inventorySummary, foldl_summaryStep_totalValue, zero_add]
  · simp only [dashboard, foldl_stockValue, zero_add]
  · simp only [inventorySummary, foldl_summaryStep_totalProducts]
  · simp only [dashboard, Product.findActive, List.countP_eq_length_filter]
  · have hnone : ∀ p ∈ db.products, p.isActive = false := by
      intro p hp
      cases hact : p.isActive with
      | false => rfl
      | true =>
        have : p ∈ Product.findActive db := List.mem_filter.mpr ⟨hp, hact⟩
        rw [hempty] at this
        exact absurd this (List.not_mem_nil _)
    refine ⟨?_, ?_, ?_, ?_, ?_⟩
    · simp only [inventorySummary, hempty, List.foldl_nil, List.length_nil, hz]
    · simp only [dashboard, List.countP_eq_zero]
      intro p hp
      simp [hnone p hp]
    · simp only [dashboard, List.countP_eq_zero]
      intro p hp
      simp [hnone p hp]
    · simp only [dashboard, List.countP_eq_zero]
      intro p hp
      simp [hnone p hp]
    · simp only [dashboard, hempty, List.foldl_nil, hz]

/-- The database holding only the soft-deleted sample product has no active
product: the report and the dashboard are all zeros; on the sample database
both totals are `"20.00"`. -/
theorem totalValue_reports_sample :
    Product.findActive inactiveDb = [] ∧
    (inventorySummary sampleDb).totalValue = "20.00" ∧
    (dashboard sampleDb).totalValue = "20.00" ∧
    (inventorySummary inactiveDb).totalValue =
      toFixed (((Product.findActive inactiveDb).map
        (fun p => p.currentStock * p.costPrice)).sum) 2 ∧
    (dashboard inactiveDb).totalValue =
      toFixed (((Product.findActive inactiveDb).map
        (fun p => p.currentStock * p.costPrice)).sum) 2 ∧
    (inventorySummary inactiveDb).totalProducts = (Product.findActive inactiveDb).length ∧
    (dashboard inactiveDb).totalProducts = (Product.findActive inactiveDb).length ∧
    (Product.findActive inactiveDb = [] →
      inventorySummary inactiveDb =
          { totalProducts := 0, totalValue := "0.00", lowStockCount := 0, outOfStockCount := 0,
            categoryBreakdown := [], supplierBreakdown := [] } ∧
        (dashboard inactiveDb).totalProducts = 0 ∧ (dashboard inactiveDb).lowStockCount = 0 ∧
        (dashboard inactiveDb).outOfStockCount = 0 ∧
        (dashboard inactiveDb).totalValue = "0.00") :=
  ⟨by decide!, by decide!, by decide!, totalValue_reports inactiveDb⟩

/-! ## A missing reason -/

/-- C20: a stock-in, stock-out or adjustment whose reason is missing or empty
is answered with validator messages that include `Reason is required`; the
database is returned as it was, and the response is the same on every
database, so no product is read. -/
theorem empty_reason_rejected (r : Request) (db : Db) (h : r.body.reason = "") :
    "Reason is required" ∈ r.validationErrors ∧
    handle r db = (db, .validationErrors r.validationErrors) ∧
    ∀ db', (handle r db').2 = .validationErrors r.validationErrors := by
  have hmem : "Reason is required" ∈ r.validationErrors := by
    have hne : notEmpty r.body.reason = false := by
      rw [h]
      decide
    cases hr : r.route <;>
      simp [Request.validationErrors, hr, validateStockFields, validateAdjustmentFields, hne]
  have hne : r.validationErrors ≠ [] := List.ne_nil_of_mem hmem
  exact ⟨hmem, handle_invalid r db hne, fun db' => by rw [handle_invalid r db' hne]⟩

/-- An adjustment of the sample product without a reason. -/
theorem empty_reason_rejected_sample :
    (handle { sampleRequest .adjustment 1 (.number 3) with
        body := { (sampleRequest .adjustment 1 (.number 3)).body with reason := "" } }
      sampleDb) = (sampleDb, .validationErrors ["Reason is required"]) ∧
    "Reason is required" ∈
      Request.validationErrors { sampleRequest .adjustment 1 (.number 3) with
        body := { (sampleRequest .adjustment 1 (.number 3)).body with reason := "" } } ∧
    handle { sampleRequest .adjustment 1 (.number 3) with
        body := { (sampleRequest .adjustment 1 (.number 3)).body with reason := "" } }
      sampleDb =
      (sampleDb, .validationErrors
        (Request.validationErrors { sampleRequest .adjustment 1 (.number 3) with
          body := { (sampleRequest .adjustment 1 (.number 3)).body with reason := "" } })) ∧
    ∀ db', (handle { sampleRequest .adjustment 1 (.number 3) with
        body := { (sampleRequest .adjustment 1 (.number 3)).body with reason := "" } } db').2 =
      .validationErrors
        (Request.validationErrors { sampleRequest .adjustment 1 (.number 3) with
          body := { (sampleRequest .adjustment 1 (.number 3)).body with reason := "" } }) :=
  ⟨by decide!,
    empty_reason_rejected { sampleRequest .adjustment 1 (.number 3) with
        body := { (sampleRequest .adjustment 1 (.number 3)).body with reason := "" } }
      sampleDb rfl⟩

/-! ## Adjusting twice to the same quantity -/

/-- C30: for an existing product and a validated adjustment request whose
quantity has the numeric value `n ≥ 0`, with a reason, notes and user the
schema accepts, handling the request twice in succession succeeds both times;
the product read back has `currentStock = n` after each call; and the second
call records a transaction with quantity `0` and `previousStock = newStock =
n`. -/
theorem adjustment_twice (now now2 : Nat) (user : String) (body : Body) (db : Db)
    (p : Product) (n : ℚ) (hv : validateAdjustmentFields body = [])
    (hp : Product.findById db body.product = .found p)
    (hn : body.quantity.toNumber = some n) (hn0 : 0 ≤ n)
    (hrl : jsLength body.reason ≤ 200) (hnl : (body.notes.map jsLength).getD 0 ≤ 500)
    (hu : isObjectId user = true) :
    ∃ t t2, (adjustment now user body db).2 = .ok t ∧
      Product.findById (adjustment now user body db).1 body.product =
        .found { p with currentStock := n } ∧
      (adjustment now2 user body (adjustment now user body db).1).2 = .ok t2 ∧
      t2.type = .adjustment ∧ t2.quantity = 0 ∧ t2.previousStock = n ∧ t2.newStock = n ∧
      Product.findById (adjustment now2 user body (adjustment now user body db).1).1
        body.product = .found { p with currentStock := n } := by
  have h1 : ∃ t, (adjustment now user body db).2 = .ok t :=
    adjustment_succeeds hv hp hn hn0 hrl hnl hu
  obtain ⟨t, ht⟩ := h1
  obtain ⟨-, e, -⟩ := adjustment_ok_inv hv hp hn ht
  have hp1 : Product.findById (adjustment now user body db).1 body.product =
      .found { p with currentStock := n } := by
    rw [e]
    exact findById_setCurrentStock_same hp
  have h2 : ∃ t2, (adjustment now2 user body (adjustment now user body db).1).2 = .ok t2 :=
    adjustment_succeeds hv hp1 hn hn0 hrl hnl hu
  obtain ⟨t2, ht2⟩ := h2
  obtain ⟨-, e2, hty, -, -, hprev, hnew, hqty⟩ := adjustment_ok_inv hv hp1 hn ht2
  refine ⟨t, t2, ht, hp1, ht2, hty, ?_, hprev, hnew, ?_⟩
  · rw [hqty]
    simp
  · rw [e2]
    exact findById_setCurrentStock_same hp1

/-- Adjusting the sample product to three, twice. -/
theorem adjustment_twice_sample :
    ((run [sampleRequest .adjustment 1 (.number 3), sampleRequest .adjustment 2 (.number 3)]
        sampleDb).transactions.map
      (fun t => (t.quantity, t.previousStock, t.newStock))) = [(7, 10, 3), (0, 3, 3)] ∧
    ∃ t t2,
      (adjustment 1 sampleUserId (sampleRequest .adjustment 1 (.number 3)).body sampleDb).2 =
        .ok t ∧
      Product.findById
        (adjustment 1 sampleUserId (sampleRequest .adjustment 1 (.number 3)).body sampleDb).1
        (sampleRequest .adjustment 1 (.number 3)).body.product =
        .found { sampleProduct with currentStock := 3 } ∧
      (adjustment 2 sampleUserId (sampleRequest .adjustment 1 (.number 3)).body
        (adjustment 1 sampleUserId (sampleRequest .adjustment 1 (.number 3)).body
          sampleDb).1).2 = .ok t2 ∧
      t2.type = .adjustment ∧ t2.quantity = 0 ∧ t2.previousStock = 3 ∧ t2.newStock = 3 ∧
      Product.findById
        (adjustment 2 sampleUserId (sampleRequest .adjustment 1 (.number 3)).body
          (adjustment 1 sampleUserId (sampleRequest .adjustment 1 (.number 3)).body
            sampleDb).1).1
        (sampleRequest .adjustment 1 (.number 3)).body.product =
        .found { sampleProduct with currentStock := 3 } :=
  ⟨by decide!,
    adjustment_twice 1 2 sampleUserId (sampleRequest .adjustment 1 (.number 3)).body sampleDb
      sampleProduct 3 (by decide!) (by decide!) (by decide!) (by decide!) (by decide!)
      (by decide!) (by decide!)⟩

/-! ## The counts of the summary report -/

theorem Breakdown.total_add (key : String) (value : ℚ) (l : List (String × Breakdown)) :
    Breakdown.total (Breakdown.add key value l) = Breakdown.total l + 1 := by
  induction l with
  | nil => simp [Breakdown.add, Breakdown.total]
  | cons e rest ih =>
    obtain ⟨k, b⟩ := e
    by_cases hk : k = key
    · simp only [Breakdown.add, hk, if_true, Breakdown.total, List.map_cons, List.sum_cons]
      omega
    · simp only [Breakdown.add, hk, if_false]
      simp only [Breakdown.total, List.map_cons, List.sum_cons] at ih ⊢
      omega

theorem summaryStep_counts (s : SummaryState) (p : Product) :
    (summaryStep s p).lowStockCount =
        s.lowStockCount + (if p.currentStock ≤ p.minStockLevel then 1 else 0) ∧
      (summaryStep s p).outOfStockCount =
        s.outOfStockCount + (if p.currentStock = 0 then 1 else 0) ∧
      Breakdown.total (summaryStep s p).categoryBreakdown =
        Breakdown.total s.categoryBreakdown + (if p.category ≠ "" then 1 else 0) := by
  unfold summaryStep
  simp only
  split <;> split <;> split <;> split <;> simp [Breakdown.total_add]

theorem foldl_summaryStep_counts (ps : List Product) (s : SummaryState) :
    (ps.foldl summaryStep s).lowStockCount =
        s.lowStockCount + ps.countP (fun p => decide (p.currentStock ≤ p.minStockLevel)) ∧
      (ps.foldl summaryStep s).outOfStockCount =
        s.outOfStockCount + ps.countP (fun p => decide (p.currentStock = 0)) ∧
      Breakdown.total (ps.foldl summaryStep s).categoryBreakdown =
        Breakdown.total s.categoryBreakdown + ps.countP (fun p => decide (p.category ≠ "")) := by
  induction ps generalizing s with
  | nil => simp
  | cons a ps ih =>
    obtain ⟨h1, h2, h3⟩ := summaryStep_counts s a
    obtain ⟨i1, i2, i3⟩ := ih (summaryStep s a)
    rw [List.foldl_cons, i1, i2, i3, h1, h2, h3]
    simp only [List.countP_cons, decide_eq_true_eq]
    refine ⟨?_, ?_, ?_⟩ <;> omega

/-- C29: when every active product has a stock and a minimum level that are
not negative, the inventory summary has
`outOfStockCount ≤ lowStockCount ≤ totalProducts`; and when every active
product has a category, the counts of `categoryBreakdown` sum to
`totalProducts`. -/
theorem summary_counts (db : Db)
    (h : ∀ p ∈ Product.findActive db, 0 ≤ p.currentStock ∧ 0 ≤ p.minStockLevel) :
    (inventorySummary db).outOfStockCount ≤ (inventorySummary db).lowStockCount ∧
    (inventorySummary db).lowStockCount ≤ (inventorySummary db).totalProducts ∧
    ((∀ p ∈ Product.findActive db, p.category ≠ "") →
      Breakdown.total (inventorySummary db).categoryBreakdown =
        (inventorySummary db).totalProducts) := by
  obtain ⟨h1, h2, h3⟩ := foldl_summaryStep_counts (Product.findActive db)
    { totalProducts := (Product.findActive db).length, totalValue := 0, lowStockCount := 0,
      outOfStockCount := 0, categoryBreakdown := [], supplierBreakdown := [] }
  have ht := foldl_summaryStep_totalProducts (Product.findActive db)
    { totalProducts := (Product.findActive db).length, totalValue := 0, lowStockCount := 0,
      outOfStockCount := 0, categoryBreakdown := [], supplierBreakdown := [] }
  simp only [inventorySummary]
  rw [h1, h2, h3, ht]
  simp only [zero_add, Breakdown.total, List.map_nil, List.sum_nil]
  refine ⟨?_, List.countP_le_length _, fun hcat => ?_⟩
  · apply List.countP_mono_left
    intro p hp h0
    simp only [decide_eq_true_eq] at h0 ⊢
    rw [h0]
    exact (h p hp).2
  · rw [List.countP_eq_length]
    intro p hp
    simpa using hcat p hp

/-- The sample database: one active product, in stock and above its minimum
level, in one category. -/
theorem summary_counts_sample :
    (∀ p ∈ Product.findActive sampleDb, 0 ≤ p.currentStock ∧ 0 ≤ p.minStockLevel) ∧
    ((inventorySummary sampleDb).outOfStockCount, (inventorySummary sampleDb).lowStockCount,
      (inventorySummary sampleDb).totalProducts,
      Breakdown.total (inventorySummary sampleDb).categoryBreakdown) = (0, 0, 1, 1) ∧
    (inventorySummary sampleDb).outOfStockCount ≤ (inventorySummary sampleDb).lowStockCount ∧
    (inventorySummary sampleDb).lowStockCount ≤ (inventorySummary sampleDb).totalProducts ∧
    ((∀ p ∈ Product.findActive sampleDb, p.category ≠ "") →
      Breakdown.total (inventorySummary sampleDb).categoryBreakdown =
        (inventorySummary sampleDb).totalProducts) :=
  ⟨by decide!, by decide!, summary_counts sampleDb (by decide!)⟩

/-! ## The stock alerts -/

/-- C23: the stock alerts and the overstock report on the sample database,
whose one product is active, has stock `10` and has no maximum level: the
product is listed in `overStock` and has a row in the overstock report. -/
theorem stockAlerts_no_max_sample :
    sampleProduct.isActive = true ∧ sampleProduct.maxStockLevel = none ∧
    (stockAlerts sampleDb).overStock = [sampleProduct] ∧
    (stockAlerts sampleDb).lowStock = [] ∧
    (overstockReport sampleDb).map (fun row => (row.id, row.currentStock, row.maxStockLevel)) =
      [(sampleProductId, 10, none)] := by
  decide!

/-- The products the stock alerts list: in `lowStock` the active products at
or below their minimum level, and in `overStock` the active products that
have no maximum level or are at or above it. -/
theorem mem_stockAlerts (db : Db) (p : Product) :
    (p ∈ (stockAlerts db).lowStock ↔
      p ∈ db.products ∧ p.isActive = true ∧ p.currentStock ≤ p.minStockLevel) ∧
    (p ∈ (stockAlerts db).overStock ↔
      p ∈ db.products ∧ p.isActive = true ∧
        (p.maxStockLevel = none ∨ ∃ m, p.maxStockLevel = some m ∧ m ≤ p.currentStock)) := by
  constructor
  · simp only [stockAlerts, List.mem_filter, Bool.and_eq_true, decide_eq_true_eq]
    tauto
  · simp only [stockAlerts, List.mem_filter, Bool.and_eq_true]
    cases hm : p.maxStockLevel with
    | none => simp [mongoGte]
    | some m =>
      simp only [mongoGte, decide_eq_true_eq, reduceCtorEq, false_or, Option.some.injEq,
        exists_eq_left']
      tauto

/-! ## The badges of the client and the server status -/

/-- C26: the badges for the sample product with its maximum level set to `0`
(stock `10`, minimum level `5`): the server status is `normal`, while the
product list and the product detail modal both show `Over Stock`. -/
theorem badges_max_zero_sample :
    ({ sampleProduct with maxStockLevel := some 0 } : Product).stockStatus = .normal ∧
    listBadge ({ sampleProduct with maxStockLevel := some 0 } : Product).toJson = .overStock ∧
    detailBadge ({ sampleProduct with maxStockLevel := some 0 } : Product).toJson =
      .overStock := by
  decide!

/-- For a product whose maximum level is absent or not zero, both client
badges name the server status. -/
theorem badges_agree (p : Product) (h : p.maxStockLevel ≠ some 0) :
    listBadge p.toJson = p.stockStatus.badge ∧ detailBadge p.toJson = p.stockStatus.badge := by
  rw [stockStatus_eq]
  unfold listBadge detailBadge Product.toJson
  by_cases hlow : p.currentStock ≤ p.minStockLevel
  · simp [JsonNumber.orElse, Extended.le, jsonLe, JsonNumber.toNumber, hlow, StockStatus.badge]
  · cases hm : p.maxStockLevel with
    | none =>
      simp [JsonNumber.orElse, Extended.le, jsonLe, JsonNumber.toNumber, hlow,
        StockStatus.badge]
    | some m =>
      have hm0 : m ≠ 0 := by
        intro e
        rw [hm, e] at h
        exact h rfl
      by_cases hle : m ≤ p.currentStock
      · simp [JsonNumber.orElse, Extended.le, jsonLe, JsonNumber.toNumber, hlow, hm0, hle,
          StockStatus.badge]
      · simp [JsonNumber.orElse, Extended.le, jsonLe, JsonNumber.toNumber, hlow, hm0, hle,
          StockStatus.badge]

/-! ## The transaction list -/

theorem result_perm (q : TransactionQuery) (db : Db) :
    (q.result db).Perm (db.transactions.filter q.matches) := by
  unfold TransactionQuery.result
  simp only
  split <;> exact List.perm_insertionSort _ _

theorem result_length (q : TransactionQuery) (db : Db) :
    (q.result db).length = (db.transactions.filter q.matches).length :=
  (result_perm q db).length_eq

theorem ceil_pages (c l : Nat) (hl : 1 ≤ l) :
    c ≤ ⌈(c : ℚ) / (l : ℚ)⌉.toNat * l ∧
      (0 < c → (⌈(c : ℚ) / (l : ℚ)⌉.toNat - 1) * l < c) ∧
      ((⌈(c : ℚ) / (l : ℚ)⌉.toNat : ℤ) = ⌈(c : ℚ) / (l : ℚ)⌉) := by
  have hlq : (0 : ℚ) < (l : ℚ) := by exact_mod_cast hl
  have hnn : (0 : ℚ) ≤ (c : ℚ) / (l : ℚ) := by positivity
  have hceil : (0 : ℤ) ≤ ⌈(c : ℚ) / (l : ℚ)⌉ := Int.ceil_nonneg hnn
  have hcast : ((⌈(c : ℚ) / (l : ℚ)⌉.toNat : ℤ) : ℚ) = ((⌈(c : ℚ) / (l : ℚ)⌉ : ℤ) : ℚ) := by
    rw [Int.toNat_of_nonneg hceil]
  have hle : (c : ℚ) / (l : ℚ) ≤ ((⌈(c : ℚ) / (l : ℚ)⌉ : ℤ) : ℚ) := Int.le_ceil _
  have hlt : ((⌈(c : ℚ) / (l : ℚ)⌉ : ℤ) : ℚ) < (c : ℚ) / (l : ℚ) + 1 := Int.ceil_lt_add_one _
  refine ⟨?_, ?_, Int.toNat_of_nonneg hceil⟩
  · have h1 : (c : ℚ) ≤ ((⌈(c : ℚ) / (l : ℚ)⌉.toNat : ℤ) : ℚ) * (l : ℚ) := by
      rw [hcast]
      calc (c : ℚ) = (c : ℚ) / (l : ℚ) * (l : ℚ) := by field_simp
        _ ≤ _ := by gcongr
    exact_mod_cast h1
  · intro hc
    have hcq : (0 : ℚ) < (c : ℚ) / (l : ℚ) := by positivity
    have hpos : (0 : ℤ) < ⌈(c : ℚ) / (l : ℚ)⌉ := Int.ceil_pos.mpr hcq
    have hn1 : 1 ≤ ⌈(c : ℚ) / (l : ℚ)⌉.toNat := by omega
    have h2 : (((⌈(c : ℚ) / (l : ℚ)⌉.toNat - 1 : ℕ) : ℚ)) * (l : ℚ) < (c : ℚ) := by
      rw [Nat.cast_sub hn1]
      have h3 : ((⌈(c : ℚ) / (l : ℚ)⌉.toNat : ℕ) : ℚ) = ((⌈(c : ℚ) / (l : ℚ)⌉ : ℤ) : ℚ) := by
        exact_mod_cast hcast
      rw [h3]
      calc (((⌈(c : ℚ) / (l : ℚ)⌉ : ℤ) : ℚ) - ((1 : ℕ) : ℚ)) * (l : ℚ)
            < (c : ℚ) / (l : ℚ) * (l : ℚ) := by
              apply mul_lt_mul_of_pos_right _ hlq
              push_cast
              linarith
        _ = (c : ℚ) := by field_simp
    exact_mod_cast h2

/-- C27: for a page `≥ 1`, a limit `≥ 1` and a product filter that is absent,
empty or an object id, the transaction list answers with the items at the
positions `(page - 1) * limit` up to `page * limit - 1` of the filtered and
sorted result (so at most `limit` items), with `totalTransactions` the number
`c` of transactions the filter keeps, and with `totalPages = ⌈c / limit⌉`, for
which `totalPages * limit ≥ c` and, when `c > 0`, `(totalPages - 1) * limit < c`. -/
theorem listTransactions_page (q : TransactionQuery) (db : Db)
    (hpage : 1 ≤ q.page) (hlimit : 1 ≤ q.limit)
    (hproduct : ∀ id, q.product = some id → id = "" ∨ isObjectId id = true) :
    ∃ r n, listTransactions q db = some r ∧
      r.transactions = ((q.result db).drop ((q.page - 1) * q.limit)).take q.limit ∧
      r.transactions.length ≤ q.limit ∧
      r.transactions.length =
        min q.limit ((db.transactions.filter q.matches).length - (q.page - 1) * q.limit) ∧
      (∀ i, i < q.limit →
        r.transactions[i]? = (q.result db)[(q.page - 1) * q.limit + i]?) ∧
      (q.result db).Perm (db.transactions.filter q.matches) ∧
      r.currentPage = q.page ∧
      r.totalTransactions = (db.transactions.filter q.matches).length ∧
      r.totalPages = some n ∧
      (n : ℤ) = ⌈((db.transactions.filter q.matches).length : ℚ) / (q.limit : ℚ)⌉ ∧
      r.totalTransactions ≤ n * q.limit ∧
      (0 < r.totalTransactions → (n - 1) * q.limit < r.totalTransactions) := by
  have hl0 : q.limit ≠ 0 := by omega
  have hp0 : ¬ (q.page = 0 ∧ 0 < q.limit) := by omega
  obtain ⟨hc1, hc2, hc3⟩ := ceil_pages (db.transactions.filter q.matches).length q.limit hlimit
  refine ⟨{ transactions := ((q.result db).drop ((q.page - 1) * q.limit)).take q.limit,
            totalPages :=
              some ⌈((db.transactions.filter q.matches).length : ℚ) / (q.limit : ℚ)⌉.toNat,
            currentPage := q.page,
            totalTransactions := (db.transactions.filter q.matches).length },
    ⌈((db.transactions.filter q.matches).length : ℚ) / (q.limit : ℚ)⌉.toNat, ?_,
    rfl, ?_, ?_, ?_, result_perm q db, rfl, rfl, rfl, hc3, hc1, hc2⟩
  · unfold listTransactions
    simp only [hl0, hp0, if_false]
    cases hq : q.product with
    | none => simp
    | some id =>
      rcases hproduct id hq with h | h
      · simp [h]
      · simp [h]
  · simp only [List.length_take]
    exact Nat.min_le_left _ _
  · simp only [List.length_take, List.length_drop, result_length]
  · intro i hi
    rw [List.getElem?_take_of_lt hi, List.getElem?_drop]

/-- C27 at the second page of two items of the sample ledger of five
transactions: the third and fourth newest transactions, three pages, five
transactions. -/
theorem listTransactions_page_sample :
    (1 ≤ secondPageQuery.page ∧ 1 ≤ secondPageQuery.limit ∧
      (listTransactions secondPageQuery ledgerDb).map
        (fun r => (r.transactions.map (fun t => t.transactionDate), r.totalPages,
          r.currentPage, r.totalTransactions)) =
        some ([millisPerDay + 10, 2000], some 3, 2, 5)) ∧
    ∃ r n, listTransactions secondPageQuery ledgerDb = some r ∧
      r.transactions =
        ((secondPageQuery.result ledgerDb).drop
          ((secondPageQuery.page - 1) * secondPageQuery.limit)).take secondPageQuery.limit ∧
      r.transactions.length ≤ secondPageQuery.limit ∧
      r.transactions.length =
        min secondPageQuery.limit
          ((ledgerDb.transactions.filter secondPageQuery.matches).length -
            (secondPageQuery.page - 1) * secondPageQuery.limit) ∧
      (∀ i, i < secondPageQuery.limit →
        r.transactions[i]? =
          (secondPageQuery.result ledgerDb)[(secondPageQuery.page - 1) * secondPageQuery.limit + i]?) ∧
      (secondPageQuery.result ledgerDb).Perm (ledgerDb.transactions.filter secondPageQuery.matches) ∧
      r.currentPage = secondPageQuery.page ∧
      r.totalTransactions = (ledgerDb.transactions.filter secondPageQuery.matches).length ∧
      r.totalPages = some n ∧
      (n : ℤ) =
        ⌈((ledgerDb.transactions.filter secondPageQuery.matches).length : ℚ) /
          (secondPageQuery.limit : ℚ)⌉ ∧
      r.totalTransactions ≤ n * secondPageQuery.limit ∧
      (0 < r.totalTransactions → (n - 1) * secondPageQuery.limit < r.totalTransactions) :=
  ⟨by decide!, listTransactions_page secondPageQuery ledgerDb (by decide) (by decide)
    (by intro id h; simp [secondPageQuery] at h)⟩

/-! ## The transaction summary -/

theorem Tally.total_add_one {κ : Type} [DecidableEq κ] (key : κ) (quantity value : ℚ)
    (l : List (κ × Tally)) :
    Tally.total (Tally.add key quantity value l) = Tally.total l + 1 := by
  induction l with
  | nil => simp [Tally.add, Tally.total]
  | cons e rest ih =>
    obtain ⟨k, b⟩ := e
    unfold Tally.add
    split
    · simp [Tally.total]; omega
    · simp only [Tally.total, List.map_cons, List.sum_cons] at ih ⊢
      rw [ih]; omega

theorem Tally.quantityOf_add_same {κ : Type} [DecidableEq κ] (key : κ) (quantity value : ℚ)
    (l : List (κ × Tally)) :
    Tally.quantityOf key (Tally.add key quantity value l) =
      Tally.quantityOf key l + quantity := by
  induction l with
  | nil => simp [Tally.add, Tally.quantityOf]
  | cons e rest ih =>
    obtain ⟨k, b⟩ := e
    unfold Tally.add
    by_cases h : k = key
    · simp [h, Tally.quantityOf]
    · simp only [Tally.quantityOf] at ih
      simp [h, Tally.quantityOf, ih]

theorem Tally.quantityOf_add_other {κ : Type} [DecidableEq κ] (key other : κ)
    (quantity value : ℚ) (l : List (κ × Tally)) (h : other ≠ key) :
    Tally.quantityOf other (Tally.add key quantity value l) = Tally.quantityOf other l := by
  induction l with
  | nil => simp [Tally.add, Tally.quantityOf, h.symm]
  | cons e rest ih =>
    obtain ⟨k, b⟩ := e
    unfold Tally.add
    by_cases hk : k = key
    · have hko : ¬ k = other := by rw [hk]; exact fun h2 => h h2.symm
      simp [hk, Tally.quantityOf, h.symm]
    · by_cases ho : k = other
      · subst ho
        simp [Tally.quantityOf, h]
      · simp only [Tally.quantityOf] at ih
        simp [hk, Tally.quantityOf, ho, ih]

theorem Tally.find_add_none {κ : Type} [DecidableEq κ] (key other : κ)
    (quantity value : ℚ) (l : List (κ × Tally)) (h : other ≠ key)
    (hl : l.find? (fun e => e.1 = other) = none) :
    (Tally.add key quantity value l).find? (fun e => e.1 = other) = none := by
  induction l with
  | nil => simp [Tally.add, h.symm]
  | cons e rest ih =>
    obtain ⟨k, b⟩ := e
    unfold Tally.add
    by_cases ho : k = other
    · simp [ho] at hl
    · have hr : rest.find? (fun e => e.1 = other) = none := by
        simpa [ho] using hl
      by_cases hk : k = key
      · simp only [hk, if_true]
        simpa [h.symm] using hr
      · simp only [hk, if_false]
        simpa [ho] using ih hr

/-- What every step of the summary keeps: the totals of the two movement
types are the quantities of their entries. -/
theorem transactionSummaryStep_inv (s : TransactionSummaryState) (t : InventoryTransaction)
    (hin : s.totalIn = Tally.quantityOf .«in» s.typeBreakdown)
    (hout : s.totalOut = Tally.quantityOf .out s.typeBreakdown) :
    (transactionSummaryStep s t).totalTransactions = s.totalTransactions ∧
      Tally.total (transactionSummaryStep s t).typeBreakdown = Tally.total s.typeBreakdown + 1 ∧
      Tally.total (transactionSummaryStep s t).dailyBreakdown =
        Tally.total s.dailyBreakdown + 1 ∧
      (transactionSummaryStep s t).totalIn =
        Tally.quantityOf .«in» (transactionSummaryStep s t).typeBreakdown ∧
      (transactionSummaryStep s t).totalOut =
        Tally.quantityOf .out (transactionSummaryStep s t).typeBreakdown := by
  unfold transactionSummaryStep
  simp only [Tally.total_add_one]
  by_cases h1 : t.type = .«in»
  · simp only [h1, if_true, Tally.quantityOf_add_same, hin]
    rw [Tally.quantityOf_add_other _ _ _ _ _ (by decide)]
    exact ⟨trivial, trivial, trivial, trivial, hout⟩
  · by_cases h2 : t.type = .out
    · simp only [h2, if_true, Tally.quantityOf_add_same, hout, reduceCtorEq, if_false]
      rw [Tally.quantityOf_add_other _ _ _ _ _ (by decide)]
      exact ⟨trivial, trivial, trivial, hin, trivial⟩
    · simp only [h1, h2, if_false]
      rw [Tally.quantityOf_add_other _ _ _ _ _ (Ne.symm h1),
        Tally.quantityOf_add_other _ _ _ _ _ (Ne.symm h2)]
      exact ⟨trivial, trivial, trivial, hin, hout⟩

theorem foldl_transactionSummaryStep (l : List InventoryTransaction)
    (s : TransactionSummaryState)
    (hin : s.totalIn = Tally.quantityOf .«in» s.typeBreakdown)
    (hout : s.totalOut = Tally.quantityOf .out s.typeBreakdown) :
    (l.foldl transactionSummaryStep s).totalTransactions = s.totalTransactions ∧
      Tally.total (l.foldl transactionSummaryStep s).typeBreakdown =
        Tally.total s.typeBreakdown + l.length ∧
      Tally.total (l.foldl transactionSummaryStep s).dailyBreakdown =
        Tally.total s.dailyBreakdown + l.length ∧
      (l.foldl transactionSummaryStep s).totalIn =
        Tally.quantityOf .«in» (l.foldl transactionSummaryStep s).typeBreakdown ∧
      (l.foldl transactionSummaryStep s).totalOut =
        Tally.quantityOf .out (l.foldl transactionSummaryStep s).typeBreakdown := by
  induction l generalizing s with
  | nil => exact ⟨rfl, rfl, rfl, hin, hout⟩
  | cons t rest ih =>
    obtain ⟨h0, h1, h2, h3, h4⟩ := transactionSummaryStep_inv s t hin hout
    obtain ⟨k0, k1, k2, k3, k4⟩ := ih (transactionSummaryStep s t) h3 h4
    simp only [List.foldl_cons, List.length_cons]
    refine ⟨k0.trans h0, ?_, ?_, k3, k4⟩
    · rw [k1, h1]; omega
    · rw [k2, h2]; omega

theorem transactionSummaryStep_typeBreakdown (s : TransactionSummaryState)
    (t : InventoryTransaction) :
    (transactionSummaryStep s t).typeBreakdown =
      Tally.add t.type t.quantity (valueOrZero t.totalValue) s.typeBreakdown := by
  unfold transactionSummaryStep
  simp only
  split
  · rfl
  · split <;> rfl

/-- A type that no visited transaction has gets no entry, and the breakdown
has an entry for every type that occurs. -/
theorem foldl_transactionSummaryStep_absent (ty : TransactionType)
    (l : List InventoryTransaction) (s : TransactionSummaryState)
    (hs : s.typeBreakdown.find? (fun e => e.1 = ty) = none)
    (hl : ∀ t ∈ l, t.type ≠ ty) :
    (l.foldl transactionSummaryStep s).typeBreakdown.find? (fun e => e.1 = ty) = none := by
  induction l generalizing s with
  | nil => exact hs
  | cons t rest ih =>
    simp only [List.foldl_cons]
    apply ih
    · rw [transactionSummaryStep_typeBreakdown]
      exact Tally.find_add_none _ _ _ _ _ (Ne.symm (hl t (List.mem_cons_self _ _))) hs
    · intro u hu
      exact hl u (List.mem_cons_of_mem _ hu)

/-- C28: for every list of transactions, the summary of the transaction
summary report has type counts that sum to `totalTransactions`, daily counts
that sum to `totalTransactions`, `totalIn` equal to the quantity recorded
under the type `in` and `totalOut` equal to the quantity recorded under the
type `out`, each read as `0` when the type has no entry; a type that does not
occur has no entry; and the report answers a request that names both dates
with the summary of the transactions in the range. -/
theorem summarize_invariants (transactions : List InventoryTransaction) :
    (summarize transactions).totalTransactions = transactions.length ∧
      Tally.total (summarize transactions).typeBreakdown =
        (summarize transactions).totalTransactions ∧
      Tally.total (summarize transactions).dailyBreakdown =
        (summarize transactions).totalTransactions ∧
      (summarize transactions).totalIn =
        Tally.quantityOf .«in» (summarize transactions).typeBreakdown ∧
      (summarize transactions).totalOut =
        Tally.quantityOf .out (summarize transactions).typeBreakdown ∧
      (∀ ty, (∀ t ∈ transactions, t.type ≠ ty) →
        (summarize transactions).typeBreakdown.find? (fun e => e.1 = ty) = none ∧
          Tally.quantityOf ty (summarize transactions).typeBreakdown = 0) ∧
      (∀ start stop db, ∃ found,
        transactionSummaryReport (some start) (some stop) db = some (summarize found) ∧
          ∀ t, t ∈ found ↔ t ∈ db.transactions ∧ start ≤ t.transactionDate ∧
            t.transactionDate ≤ isoDay stop * millisPerDay + (millisPerDay - 1)) := by
  obtain ⟨h0, h1, h2, h3, h4⟩ := foldl_transactionSummaryStep transactions
    { totalTransactions := transactions.length, totalIn := 0, totalOut := 0, totalValue := 0,
      typeBreakdown := [], dailyBreakdown := [] } rfl rfl
  simp only [Tally.total, List.map_nil, List.sum_nil, zero_add] at h0 h1 h2
  unfold summarize
  simp only
  refine ⟨h0, ?_, ?_, h3, h4, ?_, ?_⟩
  · simp only [Tally.total, h1, h0]
  · simp only [Tally.total, h2, h0]
  · intro ty hty
    have h := foldl_transactionSummaryStep_absent ty transactions
      { totalTransactions := transactions.length, totalIn := 0, totalOut := 0, totalValue := 0,
        typeBreakdown := [], dailyBreakdown := [] } rfl hty
    refine ⟨h, ?_⟩
    unfold Tally.quantityOf
    rw [h]
  · intro start stop db
    refine ⟨_, rfl, ?_⟩
    intro t
    simp [List.mem_filter]

/-- The transaction summary report on the sample ledger, for a range that
holds its first four transactions. -/
theorem summarize_sample :
    (transactionSummaryReport (some 0) (some millisPerDay) ledgerDb).map
        (fun s => s.totalTransactions) = some 4 ∧
      (transactionSummaryReport (some 0) (some millisPerDay) ledgerDb).map
        (fun s => s.totalIn) = some 7 ∧
      (transactionSummaryReport (some 0) (some millisPerDay) ledgerDb).map
        (fun s => s.totalOut) = some 3 ∧
      (transactionSummaryReport (some 0) (some millisPerDay) ledgerDb).map
        (fun s => s.totalValue) = some "0.00" ∧
      (transactionSummaryReport (some 0) (some millisPerDay) ledgerDb).map
        (fun s => s.typeBreakdown) =
          some [(.«in», { count := 2, quantity := 7, value := 0 }),
                (.out, { count := 1, quantity := 3, value := 0 }),
                (.adjustment, { count := 1, quantity := 6, value := 0 })] ∧
      (transactionSummaryReport (some 0) (some millisPerDay) ledgerDb).map
        (fun s => s.dailyBreakdown) =
          some [(0, { count := 2, quantity := 8, value := 0 }),
                (1, { count := 2, quantity := 8, value := 0 })] ∧
      transactionSummaryReport none (some millisPerDay) ledgerDb = none := by
  decide!

/-- C28 on the sample ledger, none of whose five transactions is of the type
`damage`. -/
theorem summarize_invariants_sample :
    (∀ t ∈ ledgerDb.transactions, t.type ≠ .damage) ∧
      (summarize ledgerDb.transactions).totalTransactions = ledgerDb.transactions.length ∧
      Tally.total (summarize ledgerDb.transactions).typeBreakdown =
        (summarize ledgerDb.transactions).totalTransactions ∧
      Tally.total (summarize ledgerDb.transactions).dailyBreakdown =
        (summarize ledgerDb.transactions).totalTransactions ∧
      (summarize ledgerDb.transactions).totalIn =
        Tally.quantityOf .«in» (summarize ledgerDb.transactions).typeBreakdown ∧
      (summarize ledgerDb.transactions).totalOut =
        Tally.quantityOf .out (summarize ledgerDb.transactions).typeBreakdown ∧
      Tally.quantityOf .damage (summarize ledgerDb.transactions).typeBreakdown = 0 :=
  have h := summarize_invariants ledgerDb.transactions
  ⟨by decide!, h.1, h.2.1, h.2.2.1, h.2.2.2.1, h.2.2.2.2.1,
    (h.2.2.2.2.2.1 .damage (by decide!)).2⟩

/-! ## Product create, update and delete -/

theorem replaceProduct_map {β : Type} (g : Product → β) (p q : Product) (ps : List Product)
    (hq : ps.find? (fun x => x._id = p._id) = some q) (h : g p = g q) :
    (replaceProduct p ps).map g = ps.map g := by
  induction ps with
  | nil => rfl
  | cons a ps ih =>
    by_cases ha : a._id = p._id
    · rw [List.find?_cons_of_pos _ (by simpa using ha)] at hq
      cases hq
      rw [replaceProduct, if_pos ha, List.map_cons, List.map_cons, h]
    · rw [List.find?_cons_of_neg _ (by simpa using ha)] at hq
      rw [replaceProduct, if_neg ha, List.map_cons, List.map_cons, ih hq]

/-- The update route of the product router changes neither the identifier,
nor the current stock, nor the active flag of any stored product, and leaves
the log as it is. -/
theorem put_keeps_currentStock (id : String) (body : ProductBody) (db : Db) :
    (productsRouter.put id body db).1.products.map
        (fun p => (p._id, p.currentStock, p.isActive)) =
      db.products.map (fun p => (p._id, p.currentStock, p.isActive)) ∧
    (productsRouter.put id body db).1.transactions = db.transactions := by
  unfold productsRouter.put
  split
  · exact ⟨rfl, rfl⟩
  · split
    · exact ⟨rfl, rfl⟩
    · split
      · exact ⟨rfl, rfl⟩
      · split
        · exact ⟨rfl, rfl⟩
        · split
          · exact ⟨rfl, rfl⟩
          · split
            · exact ⟨rfl, rfl⟩
            · exact ⟨rfl, rfl⟩
            · split
              · exact ⟨rfl, rfl⟩
              · rename_i _ v _ _ p hp _
                refine ⟨?_, rfl⟩
                have hid := (findById_found hp).2.2
                have hf := findById_eq_found hp
                rw [← hid] at hf
                exact replaceProduct_map _ (v.applyTo p) p db.products hf rfl

/-- The create route of the product router stores a product without stock,
after the products that are already stored, and changes nothing else. -/
theorem post_currentStock (newId generatedBarcode : String) (body : ProductBody) (db : Db) :
    (∀ p, (productsRouter.post newId generatedBarcode body db).2 = .created p →
      p.currentStock = 0 ∧ p.isActive = true ∧
        (productsRouter.post newId generatedBarcode body db).1.products = db.products ++ [p]) ∧
    ((∀ p, (productsRouter.post newId generatedBarcode body db).2 ≠ .created p) →
      (productsRouter.post newId generatedBarcode body db).1 = db) ∧
    (productsRouter.post newId generatedBarcode body db).1.transactions = db.transactions := by
  unfold productsRouter.post
  split
  · exact ⟨fun p h => by simp at h, fun _ => rfl, rfl⟩
  · split
    · exact ⟨fun p h => by simp at h, fun _ => rfl, rfl⟩
    · split
      · exact ⟨fun p h => by simp at h, fun _ => rfl, rfl⟩
      · split <;>
        · simp only
          split
          · exact ⟨fun p h => by simp at h, fun _ => rfl, rfl⟩
          · split
            · exact ⟨fun p h => by simp at h, fun _ => rfl, rfl⟩
            · refine ⟨?_, fun h => absurd rfl (h _), rfl⟩
              intro p h
              simp only [ProductResponse.created.injEq] at h
              subst h
              exact ⟨rfl, rfl, rfl⟩

/-- C21: the update handler of the product controller, given a body whose
only key is `currentStock` with the value `99`, on the sample database: the
stock of the sample product, `10` before the request, is `99` after it, and
no transaction is logged. -/
theorem updateProduct_currentStock_sample :
    Product.findById sampleDb sampleProductId = .found sampleProduct ∧
      sampleProduct.currentStock = 10 ∧
      productController.updateProduct noCatalog sampleProductId stockUpdate sampleDb =
        ({ products := [{ sampleProduct with currentStock := 99 }], transactions := [] },
          .updated { sampleProduct with currentStock := 99 }) ∧
      Product.findById
          (productController.updateProduct noCatalog sampleProductId stockUpdate sampleDb).1
          sampleProductId = .found { sampleProduct with currentStock := 99 } := by
  decide!

theorem find?_setIsActive_same {id : String} {v : Bool} {ps : List Product} {p : Product}
    (h : ps.find? (fun x => x._id = id) = some p) :
    (setIsActive id v ps).find? (fun x => x._id = id) = some { p with isActive := v } := by
  induction ps with
  | nil => simp at h
  | cons a ps ih =>
    by_cases ha : a._id = id
    · rw [List.find?_cons_of_pos _ (by simpa using ha)] at h
      cases h
      rw [setIsActive, if_pos ha, List.find?_cons_of_pos _ (by simpa using ha)]
    · rw [List.find?_cons_of_neg _ (by simpa using ha)] at h
      rw [setIsActive, if_neg ha, List.find?_cons_of_neg _ (by simpa using ha)]
      exact ih h

theorem setIsActive_fields (id : String) (v : Bool) (ps : List Product) :
    (setIsActive id v ps).map (fun p => { p with isActive := true }) =
      ps.map (fun p => { p with isActive := true }) := by
  induction ps with
  | nil => rfl
  | cons a ps ih =>
    by_cases ha : a._id = id
    · rw [setIsActive, if_pos ha, List.map_cons, List.map_cons]
    · rw [setIsActive, if_neg ha, List.map_cons, List.map_cons, ih]

/-- The delete route of the product router on a stored product: the record
stays in the store with the flag `isActive` cleared, no field other than the
flag changes in any record, and the log is as it was. -/
theorem delete_soft (id : String) (db : Db) (p : Product)
    (h : Product.findById db id = .found p) :
    (productsRouter.delete id db).2 = .removed ∧
      Product.findById (productsRouter.delete id db).1 id =
        .found { p with isActive := false } ∧
      (productsRouter.delete id db).1.products.map (fun p => { p with isActive := true }) =
        db.products.map (fun p => { p with isActive := true }) ∧
      (productsRouter.delete id db).1.transactions = db.transactions := by
  have hid := findById_found h
  have hf := findById_eq_found h
  have e : productsRouter.delete id db =
      ({ db with products := setIsActive p._id false db.products }, .removed) := by
    unfold productsRouter.delete
    simp [toObjectId, hid.1, h]
  rw [e]
  refine ⟨rfl, ?_, setIsActive_fields _ _ _, rfl⟩
  have hf' : db.products.find? (fun x => x._id = p._id) = some p := by
    rw [hid.2.2]; exact hf
  unfold Product.findById
  simp only [hid.1, if_true]
  rw [← hid.2.2, find?_setIsActive_same hf']

/-- C22: the delete handler of the product controller on the sample
database: the record of the sample product, stored before the request, is no
longer in the store after it. -/
theorem deleteProduct_removes_sample :
    Product.findById sampleDb sampleProductId = .found sampleProduct ∧
      productController.deleteProduct sampleProductId sampleDb =
        ({ products := [], transactions := [] }, .removed) ∧
      Product.findById (productController.deleteProduct sampleProductId sampleDb).1
        sampleProductId = .missing ∧
      productsRouter.delete sampleProductId sampleDb =
        ({ products := [{ sampleProduct with isActive := false }], transactions := [] },
          .removed) := by
  decide!

/-- The minimum stock level the product routes store: the schema value of
`minStockLevel || 10`, which is `10` for every falsy value of the body and
the number itself for a number other than `0`. -/
theorem validate_minStockLevel (body : ProductBody) (barcode : Option String)
    (v : ProductValues) (h : (productFields body barcode).validate = some v) :
    (body.minStockLevel.truthy = false → v.minStockLevel = 10) ∧
      (∀ m, body.minStockLevel = .number m → m ≠ 0 → v.minStockLevel = m) := by
  unfold ProductFields.validate at h
  split at h
  · simp only at h
    constructor
    · intro hf
      have e : (productFields body barcode).minStockLevel = .number 10 := by
        simp [productFields, jsOr, hf]
      rw [e] at h
      simp only [castNumber] at h
      norm_num at h
      obtain ⟨-, rfl⟩ := h
      rfl
    · intro m hm hm0
      have e : (productFields body barcode).minStockLevel = .number m := by
        simp [productFields, jsOr, hm, JsValue.truthy, hm0]
      rw [e] at h
      simp only [castNumber] at h
      by_cases h0 : 0 ≤ m
      · simp only [h0, if_true] at h
        split at h
        · simp only [Option.some.injEq] at h
          subst h
          rfl
        · simp at h
      · simp [h0] at h
  · simp at h

/-- C24: the create and the update route of the product router with the
minimum stock level `0` supplied as a number: the product is stored with the
minimum stock level `10`; with `3` supplied it is stored with `3`. -/
theorem minStockLevel_zero_sample :
    productsRouter.post newProductId "BC1" (widgetBody (.number 0)) emptyDb =
        ({ products := [createdWidget 10], transactions := [] }, .created (createdWidget 10)) ∧
      productsRouter.put sampleProductId (widgetBody (.number 0)) sampleDb =
        ({ products := [{ sampleProduct with minStockLevel := 10 }], transactions := [] },
          .updated { sampleProduct with minStockLevel := 10 }) ∧
      productsRouter.post newProductId "BC1" (widgetBody (.number 3)) emptyDb =
        ({ products := [createdWidget 3], transactions := [] }, .created (createdWidget 3)) ∧
      productsRouter.put sampleProductId (widgetBody (.number 3)) sampleDb =
        ({ products := [{ sampleProduct with minStockLevel := 3 }], transactions := [] },
          .updated { sampleProduct with minStockLevel := 3 }) ∧
      productsRouter.post newProductId "BC1" (widgetBody .undefined) emptyDb =
        ({ products := [createdWidget 10], transactions := [] }, .created (createdWidget 10)) := by
  decide!

/-! ## Stock-out calls in flight -/

/-- The three steps of a stock-out call, taken in a row, are the route
`stockOut`. -/
theorem step_thrice (c : StockOutCall) (db : Db) (hc : c.stage = .received) :
    ((c.step db).1.step (c.step db).2).1.step ((c.step db).1.step (c.step db).2).2 =
      ({ c with stage := .responded (stockOut c.now c.user c.body db).2 },
        (stockOut c.now c.user c.body db).1) := by
  obtain ⟨now, user, body, stage⟩ := c
  simp only at hc
  subst hc
  have hr : ∀ (r : Response) (d : Db),
      StockOutCall.step { now := now, user := user, body := body, stage := .responded r } d =
        ({ now := now, user := user, body := body, stage := .responded r }, d) :=
    fun _ _ => rfl
  unfold stockOut
  by_cases hv : validateStockFields body ≠ []
  · have h1 : StockOutCall.step { now := now, user := user, body := body, stage := .received } db =
        ({ now := now, user := user, body := body,
           stage := .responded (.validationErrors (validateStockFields body)) }, db) := by
      simp only [StockOutCall.step]
      rw [if_pos hv]
    rw [h1, hr, hr, if_pos hv]
  · rw [if_neg hv]
    cases hf : Product.findById db body.product with
    | castError =>
      have h1 : StockOutCall.step { now := now, user := user, body := body, stage := .received }
          db = ({ now := now, user := user, body := body, stage := .responded .serverError },
            db) := by
        simp only [StockOutCall.step]
        rw [if_neg hv, hf]
      rw [h1, hr, hr]
    | missing =>
      have h1 : StockOutCall.step { now := now, user := user, body := body, stage := .received }
          db = ({ now := now, user := user, body := body, stage := .responded .notFound },
            db) := by
        simp only [StockOutCall.step]
        rw [if_neg hv, hf]
      rw [h1, hr, hr]
    | found p =>
      simp only
      by_cases hs : jsLt p.currentStock body.quantity = true
      · have h1 : StockOutCall.step
            { now := now, user := user, body := body, stage := .received } db =
            ({ now := now, user := user, body := body,
               stage := .responded .insufficientStock }, db) := by
          simp only [StockOutCall.step]
          rw [if_neg hv, hf]
          simp only
          rw [if_pos hs]
        rw [h1, hr, hr, if_pos hs]
      · have h1 : StockOutCall.step
            { now := now, user := user, body := body, stage := .received } db =
            ({ now := now, user := user, body := body, stage := .checked p }, db) := by
          simp only [StockOutCall.step]
          rw [if_neg hv, hf]
          simp only
          rw [if_neg hs]
        have h2 : ∀ d, StockOutCall.step
            { now := now, user := user, body := body, stage := .checked p } d =
            match InventoryTransaction.save d now
                { product := body.product, type := .out, quantity := body.quantity,
                  previousStock := p.currentStock,
                  newStock := jsSub (.number p.currentStock) body.quantity,
                  unitPrice := body.unitPrice,
                  totalValue :=
                    if body.unitPrice.truthy then jsMul body.quantity body.unitPrice
                    else .number 0,
                  reference := body.reference, referenceNumber := body.referenceNumber,
                  locationFrom := body.location, reason := body.reason, notes := body.notes,
                  performedBy := user, status := .completed } with
            | none =>
              ({ now := now, user := user, body := body, stage := .responded .serverError }, d)
            | some (db1, transaction) =>
              ({ now := now, user := user, body := body, stage := .logged p transaction }, db1) :=
          fun _ => rfl
        have h3 : ∀ t d, StockOutCall.step
            { now := now, user := user, body := body, stage := .logged p t } d =
            match Product.saveCurrentStock d p (jsSub (.number p.currentStock) body.quantity) with
            | none =>
              ({ now := now, user := user, body := body, stage := .responded .serverError }, d)
            | some db2 =>
              ({ now := now, user := user, body := body, stage := .responded (.ok t) }, db2) :=
          fun _ _ => rfl
        rw [h1, if_neg hs, h2]
        generalize InventoryTransaction.save db now _ = sv
        cases sv with
        | none =>
          simp only
          rw [hr]
        | some pr =>
          obtain ⟨db1, t⟩ := pr
          simp only
          rw [h3]
          cases Product.saveCurrentStock db1 p (jsSub (.number p.currentStock) body.quantity) <;>
            rfl

theorem stepCall_append (pre : List StockOutCall) (c : StockOutCall)
    (cs : List StockOutCall) (db : Db) :
    stepCall pre.length (pre ++ c :: cs) db = (pre ++ (c.step db).1 :: cs, (c.step db).2) := by
  have hget : (pre ++ c :: cs)[pre.length]? = some c := by
    rw [List.getElem?_append_right (Nat.le_refl _)]
    simp
  unfold stepCall
  rw [hget]
  simp

theorem runSchedule_thrice (rest : List Nat) (pre : List StockOutCall) (c : StockOutCall)
    (cs : List StockOutCall) (db : Db) (hc : c.stage = .received) :
    runSchedule (pre.length :: pre.length :: pre.length :: rest) (pre ++ c :: cs) db =
      runSchedule rest
        (pre ++ { c with stage := .responded (stockOut c.now c.user c.body db).2 } :: cs)
        (stockOut c.now c.user c.body db).1 := by
  simp only [runSchedule, stepCall_append]
  rw [step_thrice c db hc]

theorem runSchedule_serial (cs : List StockOutCall) (pre : List StockOutCall) (db : Db)
    (h : ∀ c ∈ cs, c.stage = .received) :
    runSchedule (serialSchedule pre.length cs.length) (pre ++ cs) db =
      (pre ++ (serve cs db).1, (serve cs db).2) := by
  induction cs generalizing pre db with
  | nil => simp [serialSchedule, runSchedule, serve]
  | cons c cs ih =>
    simp only [List.length_cons, serialSchedule, serve]
    rw [runSchedule_thrice _ _ _ _ _ (h c (List.mem_cons_self _ _))]
    have e : pre ++ { c with stage := .responded (stockOut c.now c.user c.body db).2 } :: cs =
        (pre ++ [{ c with stage := .responded (stockOut c.now c.user c.body db).2 }]) ++ cs := by
      simp
    have e2 : pre.length + 1 =
        (pre ++ [{ c with stage := .responded (stockOut c.now c.user c.body db).2 }]).length := by
      simp
    rw [e, e2, ih _ _ (fun c hc => h c (List.mem_cons_of_mem _ hc))]
    simp

theorem step_currentStock_nonneg (c : StockOutCall) (db : Db)
    (h : ∀ p ∈ db.products, 0 ≤ p.currentStock) :
    ∀ p ∈ (c.step db).2.products, 0 ≤ p.currentStock := by
  obtain ⟨now, user, body, stage⟩ := c
  cases stage with
  | received =>
    simp only [StockOutCall.step]
    split
    · exact h
    · split
      · exact h
      · exact h
      · split <;> exact h
  | checked p =>
    simp only [StockOutCall.step]
    split
    · exact h
    · rename_i db1 t hsave
      unfold InventoryTransaction.save at hsave
      split at hsave
      · simp at hsave
      · simp only [Option.some.injEq, Prod.mk.injEq] at hsave
        rw [← hsave.1]
        exact h
  | logged p t =>
    simp only [StockOutCall.step]
    split
    · exact h
    · rename_i db2 hsave
      unfold Product.saveCurrentStock at hsave
      split at hsave
      · split at hsave
        · simp at hsave
        · rename_i v _ hv
          simp only [Option.some.injEq] at hsave
          rw [← hsave]
          intro q hq
          rcases mem_setCurrentStock hq with hq | hq
          · exact h q hq
          · rw [hq]
            exact not_lt.mp hv
      · simp at hsave
  | responded r => exact h

theorem stepCall_currentStock_nonneg (i : Nat) (calls : List StockOutCall) (db : Db)
    (h : ∀ p ∈ db.products, 0 ≤ p.currentStock) :
    ∀ p ∈ (stepCall i calls db).2.products, 0 ≤ p.currentStock := by
  unfold stepCall
  split
  · exact h
  · exact step_currentStock_nonneg _ _ h

theorem runSchedule_currentStock_nonneg (schedule : List Nat) (calls : List StockOutCall)
    (db : Db) (h : ∀ p ∈ db.products, 0 ≤ p.currentStock) :
    ∀ p ∈ (runSchedule schedule calls db).2.products, 0 ≤ p.currentStock := by
  induction schedule generalizing calls db with
  | nil => exact h
  | cons i rest ih =>
    simp only [runSchedule]
    exact ih _ _ (stepCall_currentStock_nonneg i calls db h)

/-- Handled one after another, well-formed stock-out calls for one product
succeed as the stock supports, and are refused otherwise. -/
theorem serve_supported (id : String) (cs : List StockOutCall) (db : Db) (p : Product)
    (hp : Product.findById db id = .found p)
    (hw : ∀ c ∈ cs, c.WellFormed id) :
    (serve cs db).1.map StockOutCall.succeeded =
        supportedSuccesses p.currentStock (cs.map StockOutCall.quantity) ∧
      (serve cs db).1.map StockOutCall.refused =
        (supportedSuccesses p.currentStock (cs.map StockOutCall.quantity)).map (fun b => !b) ∧
      ∃ p', Product.findById (serve cs db).2 id = .found p' ∧
        p'.currentStock = supportedRemainder p.currentStock (cs.map StockOutCall.quantity) := by
  induction cs generalizing db p with
  | nil => exact ⟨rfl, rfl, p, hp, rfl⟩
  | cons c cs ih =>
    obtain ⟨hst, hid, hv, hq0, hside⟩ := hw c (List.mem_cons_self _ _)
    obtain ⟨q, hq⟩ := toNumber_of_isNumeric (validateStockFields_eq_nil hv).2.1
    have hqc : c.quantity = q := by simp [StockOutCall.quantity, hq]
    rw [hqc] at hq0
    have hp' : Product.findById db c.body.product = .found p := by rw [hid]; exact hp
    simp only [serve, List.map_cons, supportedSuccesses, supportedRemainder, hqc]
    by_cases hle : q ≤ p.currentStock
    · obtain ⟨t, e, -⟩ := stockOut_succeeds c.now hv hp' hq hq0 hle hside
      have hfind : Product.findById
          { products := setCurrentStock p._id (p.currentStock - q) db.products,
            transactions := db.transactions ++ [t] } id =
          .found { p with currentStock := p.currentStock - q } :=
        findById_setCurrentStock_same hp
      obtain ⟨i1, i2, i3⟩ := ih _ _ hfind (fun c hc => hw c (List.mem_cons_of_mem _ hc))
      rw [e]
      simp only [if_pos hle, List.map_cons]
      refine ⟨?_, ?_, i3⟩
      · rw [i1]; rfl
      · rw [i2]; rfl
    · have hs : jsLt p.currentStock c.body.quantity = true :=
        (jsLt_iff hq).mpr (not_le.mp hle)
      have e : stockOut c.now c.user c.body db = (db, .insufficientStock) :=
        stockOut_insufficient hv hp' hs
      obtain ⟨i1, i2, i3⟩ := ih _ _ hp (fun c hc => hw c (List.mem_cons_of_mem _ hc))
      rw [e]
      simp only [if_neg hle, List.map_cons]
      refine ⟨?_, ?_, i3⟩
      · rw [i1]; rfl
      · rw [i2]; rfl

theorem supportedRemainder_nonneg (s : ℚ) (qs : List ℚ) (h : 0 ≤ s) :
    0 ≤ supportedRemainder s qs := by
  induction qs generalizing s with
  | nil => exact h
  | cons q qs ih =>
    simp only [supportedRemainder]
    split
    · exact ih _ (by linarith)
    · exact ih _ h

/-- C25, counterexample: two stock-out calls of `6` against the sample
product with stock `10`, whose database operations alternate.  The requested
total `12` exceeds the stock and the stock supports one success, yet both
calls pass the check against the balance `10`, both succeed, both log the
previous stock `10`, and the final stock is `4`. -/
theorem stockOut_interleaved_sample :
    supportedSuccesses sampleProduct.currentStock
        ([sampleCall 1 6, sampleCall 2 6].map StockOutCall.quantity) = [true, false] ∧
      (runSchedule [0, 1, 0, 1, 0, 1] [sampleCall 1 6, sampleCall 2 6] sampleDb).1.map
        StockOutCall.succeeded = [true, true] ∧
      (runSchedule [0, 1] [sampleCall 1 6, sampleCall 2 6] sampleDb).1.map
        (fun c => c.stage) = [.checked sampleProduct, .checked sampleProduct] ∧
      (runSchedule [0, 1, 0, 1, 0, 1] [sampleCall 1 6, sampleCall 2 6] sampleDb).2.transactions.map
        (fun t => (t.previousStock, t.quantity, t.newStock)) = [(10, 6, 4), (10, 6, 4)] ∧
      (runSchedule [0, 1, 0, 1, 0, 1] [sampleCall 1 6, sampleCall 2 6] sampleDb).2.products.map
        (fun p => p.currentStock) = [4] := by
  decide!

/-- C25, amended: well-formed stock-out calls for one stored product that
are handled one after another, each taking its three steps before the next
starts, are answered as the route `stockOut` answers them in turn: a call
succeeds when its quantity is at most the stock the earlier successes left
and is refused with the insufficient-stock error otherwise, and the final
stock is the stock the supported successes leave, which is not negative.
Under every schedule of the steps of the calls the stock of every product
stays non-negative. -/
theorem stockOut_calls_serial (id : String) (calls : List StockOutCall) (db : Db) (p : Product)
    (hp : Product.findById db id = .found p)
    (h0 : ∀ q ∈ db.products, 0 ≤ q.currentStock)
    (hw : ∀ c ∈ calls, c.WellFormed id) :
    runSchedule (serialSchedule 0 calls.length) calls db = serve calls db ∧
      (serve calls db).1.map StockOutCall.succeeded =
        supportedSuccesses p.currentStock (calls.map StockOutCall.quantity) ∧
      (serve calls db).1.map StockOutCall.refused =
        (supportedSuccesses p.currentStock (calls.map StockOutCall.quantity)).map
          (fun b => !b) ∧
      (∃ p', Product.findById (serve calls db).2 id = .found p' ∧
        p'.currentStock = supportedRemainder p.currentStock (calls.map StockOutCall.quantity) ∧
        0 ≤ p'.currentStock) ∧
      ∀ schedule, ∀ q ∈ (runSchedule schedule calls db).2.products, 0 ≤ q.currentStock := by
  obtain ⟨i1, i2, p', i3, i4⟩ := serve_supported id calls db p hp hw
  have hs := runSchedule_serial calls [] db (fun c hc => (hw c hc).1)
  simp only [List.length_nil, List.nil_append] at hs
  refine ⟨hs, i1, i2, ⟨p', i3, i4, ?_⟩,
    fun schedule => runSchedule_currentStock_nonneg schedule calls db h0⟩
  rw [i4]
  exact supportedRemainder_nonneg _ _ (h0 p (findById_found hp).2.1)

/-- C25, amended, on two stock-out calls of `6` against the sample product
with stock `10`: handled one after another, the first succeeds, the second is
refused, and the final stock is `4`. -/
theorem stockOut_calls_serial_sample :
    (Product.findById sampleDb sampleProductId = .found sampleProduct ∧
      (serve [sampleCall 1 6, sampleCall 2 6] sampleDb).1.map StockOutCall.succeeded =
        [true, false] ∧
      (serve [sampleCall 1 6, sampleCall 2 6] sampleDb).2.products.map
        (fun p => p.currentStock) = [4]) ∧
    (runSchedule (serialSchedule 0 [sampleCall 1 6, sampleCall 2 6].length)
        [sampleCall 1 6, sampleCall 2 6] sampleDb =
        serve [sampleCall 1 6, sampleCall 2 6] sampleDb ∧
      (serve [sampleCall 1 6, sampleCall 2 6] sampleDb).1.map StockOutCall.succeeded =
        supportedSuccesses sampleProduct.currentStock
          ([sampleCall 1 6, sampleCall 2 6].map StockOutCall.quantity) ∧
      (serve [sampleCall 1 6, sampleCall 2 6] sampleDb).1.map StockOutCall.refused =
        (supportedSuccesses sampleProduct.currentStock
          ([sampleCall 1 6, sampleCall 2 6].map StockOutCall.quantity)).map (fun b => !b) ∧
      (∃ p', Product.findById (serve [sampleCall 1 6, sampleCall 2 6] sampleDb).2
          sampleProductId = .found p' ∧
        p'.currentStock = supportedRemainder sampleProduct.currentStock
          ([sampleCall 1 6, sampleCall 2 6].map StockOutCall.quantity) ∧
        0 ≤ p'.currentStock) ∧
      ∀ schedule, ∀ q ∈ (runSchedule schedule [sampleCall 1 6, sampleCall 2 6]
          sampleDb).2.products, 0 ≤ q.currentStock) :=
  ⟨by decide!,
    stockOut_calls_serial sampleProductId [sampleCall 1 6, sampleCall 2 6] sampleDb
      sampleProduct (by decide!) (by decide!)
      (by
        intro c hc
        simp only [List.mem_cons, List.mem_singleton, List.not_mem_nil, or_false] at hc
        rcases hc with rfl | rfl <;>
          exact ⟨rfl, rfl, by decide!, by decide!, ⟨none, by decide!⟩, by decide!,
            by decide!, by decide!⟩)⟩

end Inventory
